import Mathlib

/-!
Verification of the bank-statement extraction pipeline.

Strings are modelled as lists of characters (`Str`); JS numbers are
modelled as rationals (`ℚ`), so floating-point rounding noise is outside
the model.  JS host builtins (`parseFloat`, the `Date` constructor and
its field normalisation, the regex engine) are modelled as explicit Lean
functions next to the code that calls them; the generic `new Date(string)`
last-resort constructor of the date parser is an explicit oracle
parameter, since its accepted formats are host defined.
-/

set_option maxRecDepth 4000

namespace BSV

abbrev Str := List Char

/-- Characters treated as whitespace by string trimming and by the regex
class in the model (ASCII subset of the JS definition). -/
def isWs (c : Char) : Bool :=
  c = ' ' || c = '\t' || c = '\n' || c = '\r' || c = (Char.ofNat 11) || c = (Char.ofNat 12)

def isDigitC (c : Char) : Bool := c.isDigit

/-- JS word character for regex word boundaries: [A-Za-z0-9_]. -/
def isWordC (c : Char) : Bool :=
  c.isAlpha || c.isDigit || c = '_'

def isAsciiLetter (c : Char) : Bool := c.isAlpha

/-- ASCII lower-casing, as used by toLowerCase on the header and type
strings appearing in this code base. -/
def lowerC (c : Char) : Char := c.toLower

def lowerStr (s : Str) : Str := s.map lowerC

/-- String.prototype.trim. -/
def trimStr (s : Str) : Str :=
  ((s.dropWhile isWs).reverse.dropWhile isWs).reverse

/-- Value of a digit character. -/
def digitVal (c : Char) : Nat := c.toNat - 48

/-- Value of a list of digit characters, most significant first. -/
def digitsVal (s : Str) : Nat := s.foldl (fun a c => a * 10 + digitVal c) 0

/-- Does `pat` occur as a contiguous substring of `s`
(String.prototype.includes)? -/
def containsSub (s pat : Str) : Bool :=
  match s with
  | [] => pat.isEmpty
  | _ :: rest => pat.isPrefixOf s || containsSub rest pat

/-- startsWith. -/
def startsW (s pat : Str) : Bool := pat.isPrefixOf s

/-- endsWith. -/
def endsW (s pat : Str) : Bool := pat.reverse.isPrefixOf s.reverse

/-- Last index of character `c` in `s`, or -1 (String.prototype.lastIndexOf). -/
def lastIdxOf (s : Str) (c : Char) : Int :=
  match s with
  | [] => -1
  | a :: rest =>
      let r := lastIdxOf rest c
      if r ≥ 0 then r + 1 else if a = c then 0 else -1

/-- substring(i) — the suffix from index i. -/
def strDrop (s : Str) (i : Nat) : Str := s.drop i

/-- substring(0, n) — the prefix of length at most n. -/
def strTake (s : Str) (n : Nat) : Str := s.take n

/-! ## Model of the JS `parseFloat` builtin.

`parseFloat` skips leading whitespace, then reads the longest prefix of
the form `[+-]? digits [. digits] [eE [+-]? digits]` (at least one digit
before or after the dot), ignoring any trailing junk, and returns NaN
(here: `none`) when no such prefix exists.  The `Infinity` literal and
binary-float rounding are outside the model. -/

def takeDigits (s : Str) : Str × Str :=
  (s.takeWhile isDigitC, s.dropWhile isDigitC)

def pow10 (n : Nat) : ℚ := (10 : ℚ) ^ n

/-- Parse the optional exponent suffix; returns the exponent (0 when the
suffix is absent or malformed, in which case it is trailing junk). -/
def parseExp (s : Str) : Int :=
  match s with
  | 'e' :: rest | 'E' :: rest =>
      let (sgn, rest') : Int × Str :=
        match rest with
        | '+' :: r => (1, r)
        | '-' :: r => (-1, r)
        | _ => (1, rest)
      let (ds, _) := takeDigits rest'
      if ds.isEmpty then 0 else sgn * (digitsVal ds : Int)
  | _ => 0

def applyExp (q : ℚ) (e : Int) : ℚ :=
  if e ≥ 0 then q * pow10 e.toNat else q / pow10 (-e).toNat

/-- The optional sign prefix. -/
def stripSign (s : Str) : ℚ × Str :=
  match s with
  | c :: r => if c = '-' then (-1, r) else if c = '+' then (1, r) else (1, s)
  | [] => (1, s)

/-- The optional fractional part: digits after a leading dot. -/
def fracPart (s : Str) : Str × Str :=
  match s with
  | c :: r => if c = '.' then takeDigits r else ([], s)
  | [] => ([], s)

def jsParseFloat (s : Str) : Option ℚ :=
  let (sgn, s2) := stripSign (s.dropWhile isWs)
  let (ips, s3) := takeDigits s2
  let (fps, s4) := fracPart s3
  if ips.isEmpty && fps.isEmpty then none
  else
    let mant : ℚ := (digitsVal ips : ℚ) + (digitsVal fps : ℚ) / pow10 fps.length
    some (sgn * applyExp mant (parseExp s4))

/-! ## Calendar model.

`JsDate` mirrors the (local-time) field triple of a JS `Date`:
`year = getFullYear()`, `month = getMonth()` (0-based),
`day = getDate()` (1-based).  The model has no time zones: the
environment is taken to be UTC. -/

structure JsDate where
  year : Int
  month : Int
  day : Int
deriving DecidableEq

def isLeap (y : Int) : Bool :=
  (y % 4 = 0 && y % 100 ≠ 0) || y % 400 = 0

/-- Days in month `m` (0-based) of year `y`. -/
def daysInMonth (y m : Int) : Int :=
  if m = 1 then (if isLeap y then 29 else 28)
  else if m = 3 || m = 5 || m = 8 || m = 10 then 30
  else 31

/-- Day-overflow carry for the `new Date(y, m, d)` constructor model:
while the day exceeds the month length, subtract the month length and
advance the month (wrapping the year).  Fuel bounds the recursion; the
callers only construct days in [1, 31], where one carry step suffices. -/
def carryDays : Nat → Int → Int → Int → JsDate
  | 0, y, m, d => ⟨y, m, d⟩
  | fuel + 1, y, m, d =>
      if d > daysInMonth y m then
        if m = 11 then carryDays fuel (y + 1) 0 (d - daysInMonth y m)
        else carryDays fuel y (m + 1) (d - daysInMonth y m)
      else ⟨y, m, d⟩

/-- Model of `new Date(year, month, day)` field normalisation
(ECMAScript MakeDay) on the argument range used by the parser: the month
is reduced modulo 12 with a year carry, then day overflow carries into
following months.  Negative or huge day arguments never reach this model
(the caller range-checks day to [1, 31] first). -/
def jsMakeDate (y m d : Int) : JsDate :=
  let y' := y + m.fdiv 12
  let m' := m.emod 12
  carryDays 8 y' m' d

/-! Day-number conversions (proleptic Gregorian), used only by the Excel
serial-date path; `civilFromDays` is the standard days-to-date algorithm. -/

def daysFromCivil (y m d : Int) : Int :=
  let y' := if m ≤ 1 then y - 1 else y
  let era := y'.fdiv 400
  let yoe := y' - era * 400
  let mp := (m + 10).emod 12
  let doy := (153 * mp + 2).fdiv 5 + d - 1
  let doe := yoe * 365 + yoe.fdiv 4 - yoe.fdiv 100 + doy
  era * 146097 + doe - 719468

def civilFromDays (z : Int) : JsDate :=
  let z' := z + 719468
  let era := z'.fdiv 146097
  let doe := z' - era * 146097
  let yoe := (doe - doe.fdiv 1460 + doe.fdiv 36524 - doe.fdiv 146096).fdiv 365
  let y := yoe + era * 400
  let doy := doe - (365 * yoe + yoe.fdiv 4 - yoe.fdiv 100)
  let mp := (5 * doy + 2).fdiv 153
  let d := doy - (153 * mp + 2).fdiv 5 + 1
  let m := if mp < 10 then mp + 2 else mp - 10
  ⟨if m ≤ 1 then y + 1 else y, m, d⟩

/-! ## A small backtracking matcher library.

This models the JS regex engine on the (simple) pattern language used by
this code base: single-character classes, literals, bounded and greedy
repetition, alternation with leftmost priority, word boundaries, the
end anchor, and one negative lookahead.  A matcher is written in
continuation-passing style and also tracks the previous character so
word boundaries can be decided. -/

/-- A matcher: previous character, remaining input, and a continuation
receiving the updated previous character and the rest of the input.
Backtracking is via the failure (`none`) of the continuation. -/
def RM : Type := Option Char → Str → (Option Char → Str → Option Str) → Option Str

def rmEps : RM := fun pv s k => k pv s

/-- Consume one character of the class `p`. -/
def rmCls (p : Char → Bool) : RM := fun _ s k =>
  match s with
  | c :: r => if p c then k (some c) r else none
  | [] => none

/-- A literal character, optionally case-insensitive. -/
def rmChar (ci : Bool) (c : Char) : RM :=
  rmCls (fun x => if ci then lowerC x = lowerC c else x = c)

def rmSeq (a b : RM) : RM := fun pv s k => a pv s (fun pv' s' => b pv' s' k)

def rmSeqs (ms : List RM) : RM := ms.foldr rmSeq rmEps

/-- Alternation; the left alternative (with all its backtracking) is
preferred, as in JS. -/
def rmAlt (a b : RM) : RM := fun pv s k => (a pv s k).orElse (fun _ => b pv s k)

/-- Greedy `?`. -/
def rmOpt (a : RM) : RM := fun pv s k => (a pv s k).orElse (fun _ => k pv s)

/-- A literal string. -/
def rmStr (ci : Bool) (lit : Str) : RM := rmSeqs (lit.map (rmChar ci))

/-- Greedy repetition of a character class, at most `n` times. -/
def rmRepUp (p : Char → Bool) : Nat → RM
  | 0 => rmEps
  | n + 1 => rmAlt (rmSeq (rmCls p) (rmRepUp p n)) rmEps

/-- Greedy `\{lo,hi\}` repetition of a character class. -/
def rmRep (p : Char → Bool) (lo hi : Nat) : RM :=
  rmSeq (rmSeqs (List.replicate lo (rmCls p))) (rmRepUp p (hi - lo))

/-- Greedy `*` on a character class (the input length bounds the count). -/
def rmStar (p : Char → Bool) : RM := fun pv s k => rmRepUp p s.length pv s k

/-- Greedy `+` on a character class. -/
def rmPlus (p : Char → Bool) : RM := rmSeq (rmCls p) (rmStar p)

/-- Word boundary: the word-ness of the previous character differs from
that of the next one (the edges of the string are non-word). -/
def rmB : RM := fun pv s k =>
  let before := match pv with | some c => isWordC c | none => false
  let after := match s with | c :: _ => isWordC c | [] => false
  if before ≠ after then k pv s else none

/-- End-of-input anchor. -/
def rmEnd : RM := fun pv s k =>
  match s with
  | [] => k pv []
  | _ => none

/-- Negative lookahead for a digit. -/
def rmNoDigitAhead : RM := fun pv s k =>
  match s with
  | c :: _ => if isDigitC c then none else k pv s
  | [] => k pv s

/-- `.` (any character except a newline). -/
def rmDot : RM := rmCls (fun c => c ≠ '\n')

/-- Run a matcher at the current position; returns the number of
characters consumed by the (greedy, leftmost) match. -/
def rmRunAt (m : RM) (pv : Option Char) (s : Str) : Option Nat :=
  match m pv s (fun _ rest => some rest) with
  | some rest => some (s.length - rest.length)
  | none => none

/-- Leftmost match: splits the input as before ++ matched ++ after. -/
def rmSearch (m : RM) : Option Char → Str → Option (Str × Str × Str)
  | pv, [] =>
      match rmRunAt m pv [] with
      | some _ => some ([], [], [])
      | none => none
  | pv, c :: r =>
      match rmRunAt m pv (c :: r) with
      | some n => some ([], (c :: r).take n, (c :: r).drop n)
      | none =>
          match rmSearch m (some c) r with
          | some (b, mt, a) => some (c :: b, mt, a)
          | none => none

/-- regex.test — does the pattern match anywhere? -/
def rmTest (m : RM) (s : Str) : Bool := (rmSearch m none s).isSome

/-- Global replacement (the `g` flag); `repl` receives the matched span.
None of the patterns in this code base can match the empty string; an
empty match is skipped defensively.  Fuel bounds the recursion. -/
def rmGReplaceF (m : RM) (repl : Str → Str) : Nat → Option Char → Str → Str
  | 0, _, s => s
  | fuel + 1, pv, s =>
      match rmSearch m pv s with
      | none => s
      | some (b, mt, a) =>
          match mt.getLast? with
          | none => s
          | some lastC => b ++ repl mt ++ rmGReplaceF m repl fuel (some lastC) a

def rmGReplace (m : RM) (repl : Str → Str) (s : Str) : Str :=
  rmGReplaceF m repl (s.length + 1) none s

/-- Replacement of the first match only (string `replace` without `g`). -/
def rmReplaceFirst (m : RM) (repl : Str → Str) (s : Str) : Str :=
  match rmSearch m none s with
  | none => s
  | some (b, mt, a) => b ++ repl mt ++ a

/-- Count of global matches (`match(re).length` with the `g` flag). -/
def rmCountF (m : RM) : Nat → Option Char → Str → Nat
  | 0, _, _ => 0
  | fuel + 1, pv, s =>
      match rmSearch m pv s with
      | none => 0
      | some (_, mt, a) =>
          match mt.getLast? with
          | none => 0
          | some lastC => 1 + rmCountF m fuel (some lastC) a

def rmCount (m : RM) (s : Str) : Nat := rmCountF m (s.length + 1) none s

/-- All global matches, in order (match(re) with the `g` flag). -/
def rmMatchesF (m : RM) : Nat → Option Char → Str → List Str
  | 0, _, _ => []
  | fuel + 1, pv, s =>
      match rmSearch m pv s with
      | none => []
      | some (_, mt, a) =>
          match mt.getLast? with
          | none => []
          | some lastC => mt :: rmMatchesF m fuel (some lastC) a

def rmMatches (m : RM) (s : Str) : List Str := rmMatchesF m (s.length + 1) none s

/-! ## The three amount cleaners.

`parseAmount` (pdfParser.ts), `cleanAmount` (csvParser) and
`cleanAmount` (xlsParser) differ in small ways (which characters are
stripped, the order of the parenthesis test, and whether a parsed zero
is rejected); each is translated separately. -/

/-- The currency-symbol characters stripped by the cleaners:
₹$€£¥₺₽₩₪₦₱₫৳฿. -/
def isCurrencySym (c : Char) : Bool :=
  c = '₹' || c = '$' || c = '€' || c = '£' || c = '¥' || c = '₺' || c = '₽' ||
  c = '₩' || c = '₪' || c = '₦' || c = '₱' || c = '₫' || c = '৳' || c = '฿'

/-- Replace the first occurrence of a character (string-argument
`replace`, used for the single decimal comma). -/
def replace1 (c rep : Char) : Str → Str
  | [] => []
  | a :: r => if a = c then rep :: r else a :: replace1 c rep r

/-- The shared last-comma/last-dot decimal-separator normalisation: when
the last comma is right of the last dot (and not at index 0) and is
followed by one or two digits only, dots are stripped and the (first)
comma becomes the decimal point; otherwise commas are stripped. -/
def decimalNormalize (s : Str) : Str :=
  let lastComma := lastIdxOf s ','
  let lastDot := lastIdxOf s '.'
  if lastComma > lastDot && lastComma > 0 then
    let after := strDrop s (lastComma.toNat + 1)
    if after.length ≤ 2 && !after.isEmpty && after.all isDigitC then
      replace1 ',' '.' (s.filter (fun c => c ≠ '.'))
    else s.filter (fun c => c ≠ ',')
  else s.filter (fun c => c ≠ ',')

/-- pdfParser.ts parseAmount. -/
def parseAmount (s : Str) : Option ℚ :=
  let cleaned := trimStr (s.filter (fun c => !(isCurrencySym c || isWs c)))
  if cleaned.isEmpty || cleaned = ['-'] || cleaned = ['-', '-'] then none
  else
    let isNeg := (startsW cleaned ['('] && endsW cleaned [')']) || startsW cleaned ['-']
    let c1 := if startsW cleaned ['('] && endsW cleaned [')'] then cleaned.drop 1 |>.dropLast
              else cleaned
    let c2 := if startsW c1 ['-'] then c1.drop 1 else c1
    let c3 := decimalNormalize c2
    match jsParseFloat c3 with
    | none => none
    | some num => if num = 0 then none else some (if isNeg then -num else num)

/-- csvParser cleanAmount.  The argument is `none` for a missing
(undefined/null) cell.  Note: a parsed value of 0 is returned as is. -/
def cleanAmountCsv (raw : Option Str) : Option ℚ :=
  match raw with
  | none => none
  | some r =>
      if r.isEmpty || (trimStr r).isEmpty || trimStr r = ['-'] || trimStr r = ['-', '-'] ||
         lowerStr (trimStr r) = "null".data then none
      else
        let s := trimStr r
        let isNegative := startsW s ['('] && endsW s [')']
        let s1 := if isNegative then s.drop 1 |>.dropLast else s
        let s2 := s1.filter (fun c => !(isCurrencySym c || isAsciiLetter c || isWs c))
        let s3 := decimalNormalize s2
        match jsParseFloat s3 with
        | none => none
        | some num => some (if isNegative then -|num| else num)

/-- A spreadsheet cell as handed to the XLS row parser: a number, a
string, or a missing value. -/
inductive XCell where
  | num (q : ℚ)
  | str (s : Str)
deriving DecidableEq

/-- xlsParser cleanAmount.  A numeric cell equal to 0 yields none, but a
string cell parsing to 0 is returned as is. -/
def cleanAmountXls (raw : Option XCell) : Option ℚ :=
  match raw with
  | none => none
  | some (XCell.num q) => if q = 0 then none else some q
  | some (XCell.str r) =>
      if r.isEmpty then none
      else
        let s := trimStr r
        if s.isEmpty || s = ['-'] || s = ['-', '-'] then none
        else
          let c0 := s.filter (fun c => !(isCurrencySym c || isAsciiLetter c || isWs c))
          let isNeg := startsW c0 ['('] && endsW c0 [')']
          let c1 := if isNeg then c0.drop 1 |>.dropLast else c0
          let c2 := decimalNormalize c1
          match jsParseFloat c2 with
          | none => none
          | some num => some (if isNeg then -|num| else num)

/-! ## The date parser (dateParser.ts). -/

/-- The result of a date pattern extraction: day (1-based), month
(0-based) and year, before validation. -/
structure Ymd where
  day : Int
  month : Int
  year : Int
deriving DecidableEq

/-- MONTH_MAP: lowercased month-name prefixes to 0-based months. -/
def monthMap : List (Str × Int) :=
  [("jan", 0), ("january", 0), ("feb", 1), ("february", 1), ("mar", 2), ("march", 2),
   ("apr", 3), ("april", 3), ("may", 4), ("jun", 5), ("june", 5), ("jul", 6), ("july", 6),
   ("aug", 7), ("august", 7), ("sep", 8), ("sept", 8), ("september", 8), ("oct", 9),
   ("october", 9), ("nov", 10), ("november", 10), ("dec", 11), ("december", 11)
  ].map (fun p => (p.1.data, p.2))

def monthLookup (s : Str) : Option Int :=
  (monthMap.find? (fun p => p.1 = s)).map (fun p => p.2)

def expandYear (y : Int) : Int :=
  if y ≥ 100 then y else if y < 50 then 2000 + y else 1900 + y

def isDateSep (c : Char) : Bool := c = '-' || c = '/'

/-- Anchored matcher for three digit groups joined by two single-character
separators: digit-run lengths must lie in the given bounds and the string
must end after the third group (equivalent to the corresponding anchored
regexes, whose quantified tokens are always followed by a disjoint
token). -/
def grp3 (lo1 hi1 lo2 hi2 lo3 hi3 : Nat) (sepP : Char → Bool) (s : Str) :
    Option (Nat × Nat × Nat) :=
  let (g1, r1) := takeDigits s
  if g1.length < lo1 || g1.length > hi1 then none else
  match r1 with
  | c :: r2 =>
      if !sepP c then none else
      let (g2, r3) := takeDigits r2
      if g2.length < lo2 || g2.length > hi2 then none else
      match r3 with
      | c2 :: r4 =>
          if !sepP c2 then none else
          let (g3, r5) := takeDigits r4
          if g3.length < lo3 || g3.length > hi3 || !r5.isEmpty then none else
          some (digitsVal g1, digitsVal g2, digitsVal g3)
      | [] => none
  | [] => none

/-- Pattern 1: ISO `^(\d\x7b4\x7d)[- or /](\d\x7b1,2\x7d)[- or /](\d\x7b1,2\x7d)$`. -/
def pat1 (s : Str) : Option Ymd :=
  (grp3 4 4 1 2 1 2 isDateSep s).map fun (y, m, d) =>
    ⟨(d : Int), (m : Int) - 1, (y : Int)⟩

/-- Pattern 2: `^(\d\x7b1,2\x7d)[- / or \s]([A-Za-z]\x7b3,9\x7d)[- / \s ,]*(\d\x7b2,4\x7d)$`. -/
def pat2 (s : Str) : Option Ymd :=
  let (g1, r1) := takeDigits s
  if g1.length < 1 || g1.length > 2 then none else
  match r1 with
  | c :: r2 =>
      if !(isDateSep c || isWs c) then none else
      let letters := r2.takeWhile isAsciiLetter
      let r3 := r2.dropWhile isAsciiLetter
      if letters.length < 3 || letters.length > 9 then none else
      let r4 := r3.dropWhile (fun c => isDateSep c || isWs c || c = ',')
      let (g3, r5) := takeDigits r4
      if g3.length < 2 || g3.length > 4 || !r5.isEmpty then none else
      match monthLookup (lowerStr letters) with
      | none => none
      | some mo => some ⟨(digitsVal g1 : Int), mo, expandYear (digitsVal g3 : Int)⟩
  | [] => none

/-- Pattern 3: `^([A-Za-z]\x7b3,9\x7d)\s+(\d\x7b1,2\x7d),?\s*(\d\x7b2,4\x7d)$`.
When the day and year digits are contiguous, the greedy day group takes
two digits when a 2-to-4-digit year can still follow, else one. -/
def pat3 (s : Str) : Option Ymd :=
  let letters := s.takeWhile isAsciiLetter
  let r1 := s.dropWhile isAsciiLetter
  if letters.length < 3 || letters.length > 9 then none else
  let ws := r1.takeWhile isWs
  let r2 := r1.dropWhile isWs
  if ws.isEmpty then none else
  let (dr, rest) := takeDigits r2
  if dr.isEmpty then none else
  let split : Option (Nat × Nat) :=
    if rest.isEmpty then
      if dr.length = 3 then some (digitsVal (dr.take 1), digitsVal (dr.drop 1))
      else if 4 ≤ dr.length && dr.length ≤ 6 then
        some (digitsVal (dr.take 2), digitsVal (dr.drop 2))
      else none
    else
      if dr.length > 2 then none else
      let r3 := match rest with
                | c :: t => if c = ',' then t else rest
                | [] => rest
      let r4 := r3.dropWhile isWs
      let (g3, r5) := takeDigits r4
      if g3.length < 2 || g3.length > 4 || !r5.isEmpty then none
      else some (digitsVal dr, digitsVal g3)
  match split with
  | none => none
  | some (d, y) =>
      match monthLookup (lowerStr letters) with
      | none => none
      | some mo => some ⟨(d : Int), mo, expandYear (y : Int)⟩

/-- Pattern 4: `^(\d\x7b1,2\x7d)[- or /](\d\x7b1,2\x7d)[- or /](\d\x7b4\x7d)$`. -/
def pat4 (s : Str) : Option Ymd :=
  (grp3 1 2 1 2 4 4 isDateSep s).map fun (d, m, y) =>
    ⟨(d : Int), (m : Int) - 1, (y : Int)⟩

/-- Pattern 5: `^(\d\x7b1,2\x7d)[- or /](\d\x7b1,2\x7d)[- or /](\d\x7b2\x7d)$`. -/
def pat5 (s : Str) : Option Ymd :=
  (grp3 1 2 1 2 2 2 isDateSep s).map fun (d, m, y) =>
    ⟨(d : Int), (m : Int) - 1, expandYear (y : Int)⟩

/-- Pattern 6: `^(\d\x7b4\x7d)\.(\d\x7b1,2\x7d)\.(\d\x7b1,2\x7d)$`. -/
def pat6 (s : Str) : Option Ymd :=
  (grp3 4 4 1 2 1 2 (fun c => c = '.') s).map fun (y, m, d) =>
    ⟨(d : Int), (m : Int) - 1, (y : Int)⟩

/-- Pattern 7: `^(\d\x7b1,2\x7d)\.(\d\x7b1,2\x7d)\.(\d\x7b4\x7d)$`. -/
def pat7 (s : Str) : Option Ymd :=
  (grp3 1 2 1 2 4 4 (fun c => c = '.') s).map fun (d, m, y) =>
    ⟨(d : Int), (m : Int) - 1, (y : Int)⟩

/-- Pattern 8: `^(\d\x7b1,2\x7d)\.(\d\x7b1,2\x7d)\.(\d\x7b2\x7d)$`. -/
def pat8 (s : Str) : Option Ymd :=
  (grp3 1 2 1 2 2 2 (fun c => c = '.') s).map fun (d, m, y) =>
    ⟨(d : Int), (m : Int) - 1, expandYear (y : Int)⟩

/-- Pattern 9: compact `^(\d\x7b4\x7d)(\d\x7b2\x7d)(\d\x7b2\x7d)$`. -/
def pat9 (s : Str) : Option Ymd :=
  let (ds, rest) := takeDigits s
  if ds.length = 8 && rest.isEmpty then
    some ⟨(digitsVal (ds.drop 6) : Int), (digitsVal ((ds.drop 4).take 2) : Int) - 1,
          (digitsVal (ds.take 4) : Int)⟩
  else none

def datePatterns : List (Str → Option Ymd) :=
  [pat1, pat2, pat3, pat4, pat5, pat6, pat7, pat8, pat9]

/-! Pre-parse cleanup (weekday prefixes, trailing times, ordinals). -/

def weekdayRM : RM :=
  rmSeqs
    [rmAlt (rmStr true "mon".data) (rmAlt (rmStr true "tue".data)
       (rmAlt (rmStr true "wed".data) (rmAlt (rmStr true "thu".data)
         (rmAlt (rmStr true "fri".data) (rmAlt (rmStr true "sat".data)
           (rmStr true "sun".data)))))),
     rmStar isAsciiLetter,
     rmOpt (rmCls (fun c => c = ',' || c = '.')),
     rmStar isWs]

/-- Strip `^(Mon|Tue|Wed|Thu|Fri|Sat|Sun)[a-z]*[,.]?\s*` (flag i). -/
def stripWeekday (s : Str) : Str :=
  match rmRunAt weekdayRM none s with
  | some n => s.drop n
  | none => s

def timeRM : RM :=
  rmSeqs
    [rmPlus isWs, rmRep isDigitC 1 2, rmChar false ':', rmRep isDigitC 2 2,
     rmOpt (rmSeqs [rmChar false ':', rmRep isDigitC 2 2]), rmStar isWs,
     rmOpt (rmAlt (rmStr false "AM".data) (rmAlt (rmStr false "PM".data)
       (rmAlt (rmStr false "am".data) (rmStr false "pm".data)))),
     rmStar (fun c => c ≠ '\n'), rmEnd]

/-- Strip a trailing `\s+\d\x7b1,2\x7d:\d\x7b2\x7d(:\d\x7b2\x7d)?\s*(AM|PM|am|pm)?.*$`. -/
def stripTime (s : Str) : Str := rmReplaceFirst timeRM (fun _ => []) s

def ordRM : RM :=
  rmSeqs
    [rmCls isDigitC,
     rmAlt (rmStr true "st".data) (rmAlt (rmStr true "nd".data)
       (rmAlt (rmStr true "rd".data) (rmStr true "th".data))),
     rmB]

/-- Replace every `(\d)(st|nd|rd|th)\b` by the digit (flags gi). -/
def stripOrdinals (s : Str) : Str := rmGReplace ordRM (fun mt => mt.take 1) s

def cleanupDate (s : Str) : Str :=
  stripOrdinals (stripTime (stripWeekday (trimStr s)))

/-- Range checks plus the calendar round-trip: the candidate is accepted
only when `new Date(y, m, d)` reproduces exactly the same fields. -/
def validateYmd (p : Ymd) : Option JsDate :=
  if p.month < 0 || p.month > 11 then none
  else if p.day < 1 || p.day > 31 then none
  else if p.year < 1990 || p.year > 2100 then none
  else
    let d := jsMakeDate p.year p.month p.day
    if d.year = p.year && d.month = p.month && d.day = p.day then some d else none

/-- Try the patterns in order; a pattern that fails to match, to extract,
or to validate falls through to the next one. -/
def firstValid (s : Str) : List (Str → Option Ymd) → Option JsDate
  | [] => none
  | p :: ps =>
      match p s with
      | some parts =>
          match validateYmd parts with
          | some d => some d
          | none => firstValid s ps
      | none => firstValid s ps

/-- parseDate.  `native` is the host `new Date(string)` constructor used
as last resort (`none` models an invalid date); whatever it returns is
accepted only when its year lies in [1990, 2100]. -/
def parseDate (native : Str → Option JsDate) (raw : Str) : Option JsDate :=
  if raw.isEmpty then none
  else
    let cleaned := cleanupDate raw
    match firstValid cleaned datePatterns with
    | some d => some d
    | none =>
        match native cleaned with
        | some dt => if 1990 ≤ dt.year && dt.year ≤ 2100 then some dt else none
        | none => none

/-! extractDateFromText: the whole string first, then six embedded-date
regex fragments. -/

def isSepWs (c : Char) : Bool := isDateSep c || isWs c

def dateFrag1 : RM :=
  rmSeqs [rmRep isDigitC 4 4, rmCls isDateSep, rmRep isDigitC 1 2, rmCls isDateSep,
          rmRep isDigitC 1 2]

def dateFrag2 : RM :=
  rmSeqs [rmRep isDigitC 1 2, rmCls isDateSep, rmRep isDigitC 1 2, rmCls isDateSep,
          rmRep isDigitC 4 4]

def dateFrag3 : RM :=
  rmSeqs [rmRep isDigitC 1 2, rmCls isDateSep, rmRep isDigitC 1 2, rmCls isDateSep,
          rmRep isDigitC 2 2, rmNoDigitAhead]

def dateFrag4 : RM :=
  rmSeqs [rmRep isDigitC 1 2, rmCls isSepWs, rmRep isAsciiLetter 3 9,
          rmStar (fun c => isSepWs c || c = ','), rmRep isDigitC 2 4]

def dateFrag5 : RM :=
  rmSeqs [rmRep isAsciiLetter 3 9, rmPlus isWs, rmRep isDigitC 1 2,
          rmOpt (rmChar false ','), rmStar isWs, rmRep isDigitC 2 4]

def dateFrag6 : RM :=
  rmSeqs [rmRep isDigitC 1 2, rmChar false '.', rmRep isDigitC 1 2, rmChar false '.',
          rmRep isDigitC 2 4]

def dateFrags : List RM := [dateFrag1, dateFrag2, dateFrag3, dateFrag4, dateFrag5, dateFrag6]

def tryFrags (native : Str → Option JsDate) (text : Str) : List RM → Option JsDate
  | [] => none
  | re :: rest =>
      match rmSearch re none text with
      | some (_, mt, _) =>
          match parseDate native mt with
          | some d => some d
          | none => tryFrags native text rest
      | none => tryFrags native text rest

def extractDateFromText (native : Str → Option JsDate) (text : Str) : Option JsDate :=
  if text.isEmpty then none
  else
    match parseDate native text with
    | some d => some d
    | none => tryFrags native text dateFrags

/-! detectDateOrder. -/

inductive DateOrder where
  | DMY
  | MDY
deriving DecidableEq

def detectDateOrder (dateStrings : List Str) : DateOrder :=
  let scores := dateStrings.foldl
    (fun (acc : Nat × Nat) ds =>
      match grp3 1 2 1 2 2 4 isDateSep ds with
      | none => acc
      | some (a, b, _) =>
          let acc1 := if a > 12 && a ≤ 31 then (acc.1 + 5, acc.2) else acc
          if b > 12 && b ≤ 31 then (acc1.1, acc1.2 + 5) else acc1)
    (0, 0)
  if scores.2 > scores.1 then DateOrder.MDY else DateOrder.DMY

/-- excelSerialToDate: serials outside (0, 100000] (in the code: below 1
or above 100000) are rejected, the date is days after 1899-12-30, and
the result must land in the 1990–2100 year window. -/
def excelSerialToDate (serial : ℚ) : Option JsDate :=
  if serial < 1 || serial > 100000 then none
  else
    let d := civilFromDays ⌊(daysFromCivil 1899 11 30 : ℚ) + serial⌋
    if d.year < 1990 || d.year > 2100 then none else some d

/-! ## The transaction model (types/index.ts). -/

inductive TxnType where
  | income
  | expense
deriving DecidableEq

structure Txn where
  id : Str
  date : JsDate
  description : Str
  amount : ℚ
  category : Str
  type : TxnType
  balance : Option ℚ
  originalText : Str
deriving DecidableEq

/-! ## The currency detector (currencyDetector.ts).

Every catalog pattern is one of: literal characters, the escapes
`\b` `\s` `\.` `\$`, and a greedy `?` on the previous single character.
The detector recompiles each pattern with flags `gi`, so matching is
always case-insensitive and global, whatever the original flags were;
`compileSrc` compiles a pattern source to that matcher.  -/

inductive RAtom where
  | lit (c : Char)
  | ws
  | wordB
deriving DecidableEq

def mkAtom (c : Char) : RAtom :=
  if c = 'b' then RAtom.wordB else if c = 's' then RAtom.ws else RAtom.lit c

def compileSrc : Str → List (RAtom × Bool)
  | [] => []
  | '\\' :: c :: '?' :: rest => (mkAtom c, true) :: compileSrc rest
  | '\\' :: c :: rest => (mkAtom c, false) :: compileSrc rest
  | '\\' :: [] => []
  | c :: '?' :: rest => (RAtom.lit c, true) :: compileSrc rest
  | c :: rest => (RAtom.lit c, false) :: compileSrc rest

def atomRM : RAtom → RM
  | RAtom.lit c => rmChar true c
  | RAtom.ws => rmCls isWs
  | RAtom.wordB => rmB

def compiledRM (l : List (RAtom × Bool)) : RM :=
  rmSeqs (l.map fun ab => if ab.2 then rmOpt (atomRM ab.1) else atomRM ab.1)

def patternRM (src : Str) : RM := compiledRM (compileSrc src)

/-- The symbol class used by the scorer to decide the 3-weight:
[₹€£¥₺₽₩₪₦₱₫৳฿] — note that `$` is not in it. -/
def isScorerSym (c : Char) : Bool :=
  c = '₹' || c = '€' || c = '£' || c = '¥' || c = '₺' || c = '₽' || c = '₩' ||
  c = '₪' || c = '₦' || c = '₱' || c = '₫' || c = '৳' || c = '฿'

def isScorerSymSrc (src : Str) : Bool := src.any isScorerSym

def isUpperC (c : Char) : Bool := 'A' ≤ c && c ≤ 'Z'

/-- Does the pattern source match `/\\b[A-Z]\x7b3\x7d\\b/` — a literal
`\b`, three uppercase letters, and a literal `\b`? -/
def hasIsoTriple : Str → Bool
  | '\\' :: 'b' :: a :: b :: c :: '\\' :: 'b' :: rest =>
      (isUpperC a && isUpperC b && isUpperC c) ||
        hasIsoTriple ('b' :: a :: b :: c :: '\\' :: 'b' :: rest)
  | _ :: rest => hasIsoTriple rest
  | [] => false

structure Currency where
  code : Str
  symbol : Str
  name : Str
deriving DecidableEq

structure CurrencyEntry where
  code : String
  symbol : String
  name : String
  patterns : List String

/-- CURRENCY_DB, in catalog order, with the regex pattern sources. -/
def CURRENCY_DB : List CurrencyEntry :=
  [⟨"INR", "₹", "Indian Rupee", ["₹", "\\bINR\\b", "\\bRs\\.?\\s", "\\bRupees?\\b"]⟩,
   ⟨"USD", "$", "US Dollar", ["\\$", "\\bUSD\\b", "\\bUS\\s?Dollar"]⟩,
   ⟨"EUR", "€", "Euro", ["€", "\\bEUR\\b", "\\bEuro\\b"]⟩,
   ⟨"GBP", "£", "British Pound", ["£", "\\bGBP\\b", "\\bPound\\s?Sterling\\b"]⟩,
   ⟨"JPY", "¥", "Japanese Yen", ["¥", "\\bJPY\\b", "\\bYen\\b"]⟩,
   ⟨"CNY", "¥", "Chinese Yuan", ["\\bCNY\\b", "\\bRMB\\b", "\\bYuan\\b", "\\b人民币\\b"]⟩,
   ⟨"AUD", "A$", "Australian Dollar", ["A\\$", "\\bAUD\\b"]⟩,
   ⟨"CAD", "C$", "Canadian Dollar", ["C\\$", "\\bCAD\\b"]⟩,
   ⟨"CHF", "Fr", "Swiss Franc", ["\\bCHF\\b", "\\bFr\\.?\\s"]⟩,
   ⟨"SEK", "kr", "Swedish Krona", ["\\bSEK\\b", "\\bkr\\b"]⟩,
   ⟨"NOK", "kr", "Norwegian Krone", ["\\bNOK\\b"]⟩,
   ⟨"DKK", "kr", "Danish Krone", ["\\bDKK\\b"]⟩,
   ⟨"SGD", "S$", "Singapore Dollar", ["S\\$", "\\bSGD\\b"]⟩,
   ⟨"HKD", "HK$", "Hong Kong Dollar", ["HK\\$", "\\bHKD\\b"]⟩,
   ⟨"NZD", "NZ$", "New Zealand Dollar", ["NZ\\$", "\\bNZD\\b"]⟩,
   ⟨"ZAR", "R", "South African Rand", ["\\bZAR\\b", "\\bRand\\b"]⟩,
   ⟨"BRL", "R$", "Brazilian Real", ["R\\$", "\\bBRL\\b", "\\bReal\\b"]⟩,
   ⟨"MXN", "MX$", "Mexican Peso", ["MX\\$", "\\bMXN\\b"]⟩,
   ⟨"ARS", "AR$", "Argentine Peso", ["AR\\$", "\\bARS\\b"]⟩,
   ⟨"CLP", "CL$", "Chilean Peso", ["CL\\$", "\\bCLP\\b"]⟩,
   ⟨"COP", "COL$", "Colombian Peso", ["COL\\$", "\\bCOP\\b"]⟩,
   ⟨"MYR", "RM", "Malaysian Ringgit", ["\\bRM\\b", "\\bMYR\\b", "\\bRinggit\\b"]⟩,
   ⟨"THB", "฿", "Thai Baht", ["฿", "\\bTHB\\b", "\\bBaht\\b"]⟩,
   ⟨"IDR", "Rp", "Indonesian Rupiah", ["\\bRp\\.?\\s", "\\bIDR\\b", "\\bRupiah\\b"]⟩,
   ⟨"PHP", "₱", "Philippine Peso", ["₱", "\\bPHP\\b"]⟩,
   ⟨"VND", "₫", "Vietnamese Dong", ["₫", "\\bVND\\b"]⟩,
   ⟨"KRW", "₩", "South Korean Won", ["₩", "\\bKRW\\b"]⟩,
   ⟨"TWD", "NT$", "Taiwan Dollar", ["NT\\$", "\\bTWD\\b"]⟩,
   ⟨"TRY", "₺", "Turkish Lira", ["₺", "\\bTRY\\b", "\\bTL\\b"]⟩,
   ⟨"RUB", "₽", "Russian Ruble", ["₽", "\\bRUB\\b", "\\bруб"]⟩,
   ⟨"PLN", "zł", "Polish Zloty", ["zł", "\\bPLN\\b"]⟩,
   ⟨"CZK", "Kč", "Czech Koruna", ["Kč", "\\bCZK\\b"]⟩,
   ⟨"HUF", "Ft", "Hungarian Forint", ["\\bFt\\b", "\\bHUF\\b"]⟩,
   ⟨"RON", "lei", "Romanian Leu", ["\\blei\\b", "\\bRON\\b"]⟩,
   ⟨"ILS", "₪", "Israeli Shekel", ["₪", "\\bILS\\b", "\\bShekel\\b"]⟩,
   ⟨"AED", "د.إ", "UAE Dirham", ["\\bAED\\b", "\\bDirham\\b", "د\\.إ"]⟩,
   ⟨"SAR", "﷼", "Saudi Riyal", ["\\bSAR\\b", "\\bRiyal\\b", "﷼"]⟩,
   ⟨"QAR", "QR", "Qatari Riyal", ["\\bQAR\\b"]⟩,
   ⟨"KWD", "KD", "Kuwaiti Dinar", ["\\bKWD\\b", "\\bKD\\b"]⟩,
   ⟨"BHD", "BD", "Bahraini Dinar", ["\\bBHD\\b"]⟩,
   ⟨"OMR", "OMR", "Omani Rial", ["\\bOMR\\b"]⟩,
   ⟨"EGP", "E£", "Egyptian Pound", ["E£", "\\bEGP\\b"]⟩,
   ⟨"NGN", "₦", "Nigerian Naira", ["₦", "\\bNGN\\b", "\\bNaira\\b"]⟩,
   ⟨"KES", "KSh", "Kenyan Shilling", ["\\bKSh\\b", "\\bKES\\b"]⟩,
   ⟨"GHS", "GH₵", "Ghanaian Cedi", ["GH₵", "\\bGHS\\b"]⟩,
   ⟨"PKR", "₨", "Pakistani Rupee", ["\\bPKR\\b", "₨"]⟩,
   ⟨"BDT", "৳", "Bangladeshi Taka", ["৳", "\\bBDT\\b", "\\bTaka\\b"]⟩,
   ⟨"LKR", "Rs", "Sri Lankan Rupee", ["\\bLKR\\b"]⟩,
   ⟨"NPR", "Rs", "Nepalese Rupee", ["\\bNPR\\b"]⟩]

/-- The sample: the first 5000 plus the last 2000 characters, joined by
a newline, for texts longer than 7000 characters. -/
def currencySample (text : Str) : Str :=
  if text.length > 7000 then
    text.take 5000 ++ '\n' :: text.drop (text.length - 2000)
  else text

/-- The weight the code gives a pattern source: 3 when the source holds
one of the scorer symbol characters, else 2 when it holds an uppercase
ISO triple between `\b` markers, else 1. -/
def patternWeight (src : Str) : Nat :=
  if isScorerSymSrc src then 3 else if hasIsoTriple src then 2 else 1

def entryScore (sample : Str) (e : CurrencyEntry) : Nat :=
  e.patterns.foldl
    (fun acc src =>
      let n := rmCount (patternRM src.data) sample
      if n > 0 then acc + n * patternWeight src.data else acc)
    0

def currencyOf (e : CurrencyEntry) : Currency := ⟨e.code.data, e.symbol.data, e.name.data⟩

def detectCurrencyFromText (text : Str) : Option Currency :=
  if text.isEmpty then none
  else
    let sample := currencySample text
    let best := CURRENCY_DB.foldl
      (fun (acc : Option CurrencyEntry × Nat) e =>
        let score := entryScore sample e
        if score > acc.2 then (some e, score) else acc)
      (none, 0)
    match best.1 with
    | some e => if best.2 ≥ 1 then some (currencyOf e) else none
    | none => none

/-! ## The CSV parser (csvParser.ts).

A parsed CSV row is an association list from header names to cell
strings (papaparse objects in header mode); lookup of a missing key is
`none` (undefined).  The `uuidv4()` calls are modelled by an explicit
stream `ids : Nat → Str` consumed once per constructed transaction, and
`new Date()` timestamps by an explicit `now` argument. -/

abbrev Row := List (Str × Str)

def rowGet (row : Row) (k : Str) : Option Str :=
  (row.find? (fun p => p.1 = k)).map (fun p => p.2)

structure ColumnMapping where
  dateCol : Option Str
  descriptionCols : List Str
  amountCol : Option Str
  debitCol : Option Str
  creditCol : Option Str
  typeCol : Option Str
  balanceCol : Option Str

def csvDateKeywords : List Str :=
  ["date", "txn date", "transaction date", "trans date", "value date", "posting date",
   "book date", "datum", "fecha", "tarikh", "tanggal"].map String.data

def csvDescKeywords : List Str :=
  ["description", "narration", "particulars", "details", "memo", "reference", "remark",
   "transaction details", "merchant", "payee", "beneficiary", "name", "keterangan"
  ].map String.data

def csvAmountKeywords : List Str :=
  ["amount", "transaction amount", "txn amount"].map String.data

def csvDebitKeywords : List Str :=
  ["debit", "withdrawal", "dr", "debit amount", "withdrawal amount", "debit(dr)",
   "money out", "spent", "expense"].map String.data

def csvCreditKeywords : List Str :=
  ["credit", "deposit", "cr", "credit amount", "deposit amount", "credit(cr)",
   "money in", "received"].map String.data

def csvTypeKeywords : List Str :=
  ["type", "transaction type", "txn type", "cr/dr", "dr/cr"].map String.data

def csvBalanceKeywords : List Str :=
  ["balance", "closing balance", "running balance", "available balance"].map String.data

/-- Lowercase, keep only [a-z0-9 whitespace /], trim. -/
def normalizeHeader (h : Str) : Str :=
  trimStr ((lowerStr h).filter
    (fun c => ('a' ≤ c && c ≤ 'z') || c.isDigit || isWs c || c = '/'))

def matchesAny (header : Str) (keywords : List Str) : Bool :=
  let norm := normalizeHeader header
  keywords.any (fun kw => norm = kw || containsSub norm kw)

def findColumn (headers : List Str) (keywords : List Str) : Option Str :=
  headers.find? (fun h => matchesAny h keywords)

def detectColumnsWith (dateK descK amountK debitK creditK typeK balK : List Str)
    (headers : List Str) : ColumnMapping :=
  let dateCol := findColumn headers dateK
  let amountCol := findColumn headers amountK
  let debitCol := findColumn headers debitK
  let creditCol := findColumn headers creditK
  let typeCol := findColumn headers typeK
  let balanceCol := findColumn headers balK
  let descs := headers.filter (fun h => matchesAny h descK)
  let used := [dateCol, amountCol, debitCol, creditCol, typeCol, balanceCol].filterMap id
  let descs2 :=
    if descs.isEmpty then
      match headers.find? (fun h => !used.contains h) with
      | some h => [h]
      | none => []
    else descs
  ⟨dateCol, descs2, amountCol, debitCol, creditCol, typeCol, balanceCol⟩

def detectColumns (headers : List Str) : ColumnMapping :=
  detectColumnsWith csvDateKeywords csvDescKeywords csvAmountKeywords csvDebitKeywords
    csvCreditKeywords csvTypeKeywords csvBalanceKeywords headers

/-- JSON.stringify escaping for one string. -/
def jsonEscape : Str → Str
  | [] => []
  | c :: r =>
      (if c = '"' then ['\\', '"']
       else if c = '\\' then ['\\', '\\']
       else if c = '\n' then ['\\', 'n']
       else if c = '\r' then ['\\', 'r']
       else if c = '\t' then ['\\', 't']
       else [c]) ++ jsonEscape r

def jsonQuote (s : Str) : Str := '"' :: jsonEscape s ++ ['"']

/-- JSON.stringify of a row object (insertion key order). -/
def jsonStringifyRow (row : Row) : Str :=
  Char.ofNat 123 ::
    (List.intercalate [','] (row.map (fun p => jsonQuote p.1 ++ ':' :: jsonQuote p.2)))
    ++ [Char.ofNat 125]

def joinSep (sep : Str) (parts : List Str) : Str := List.intercalate sep parts

/-- The amount/type resolution of the CSV parseRow (the debit+credit,
single-amount, debit-only and credit-only branches). -/
def csvResolveAmount (row : Row) (m : ColumnMapping) : Option (ℚ × TxnType) :=
  match m.debitCol, m.creditCol with
        | some dCol, some cCol =>
            let debit := cleanAmountCsv (rowGet row dCol)
            let credit := cleanAmountCsv (rowGet row cCol)
            match debit with
            | some dv =>
                if dv ≠ 0 then some (-|dv|, TxnType.expense)
                else
                  match credit with
                  | some cv => if cv ≠ 0 then some (|cv|, TxnType.income) else none
                  | none => none
            | none =>
                match credit with
                | some cv => if cv ≠ 0 then some (|cv|, TxnType.income) else none
                | none => none
        | _, _ =>
            match m.amountCol with
            | some aCol =>
                match cleanAmountCsv (rowGet row aCol) with
                | none => none
                | some a =>
                    if a = 0 then none
                    else
                      match m.typeCol with
                      | some tCol =>
                          let rawType := trimStr (lowerStr ((rowGet row tCol).getD []))
                          if containsSub rawType "debit".data ||
                             containsSub rawType "dr".data ||
                             containsSub rawType "withdrawal".data ||
                             containsSub rawType "expense".data then
                            some (-|a|, TxnType.expense)
                          else if containsSub rawType "credit".data ||
                                  containsSub rawType "cr".data ||
                                  containsSub rawType "deposit".data ||
                                  containsSub rawType "income".data then
                            some (|a|, TxnType.income)
                          else some (a, if a ≥ 0 then TxnType.income else TxnType.expense)
                      | none => some (a, if a ≥ 0 then TxnType.income else TxnType.expense)
            | none =>
                match m.debitCol with
                | some dCol =>
                    match cleanAmountCsv (rowGet row dCol) with
                    | some dv => if dv ≠ 0 then some (-|dv|, TxnType.expense) else none
                    | none => none
                | none =>
                    match m.creditCol with
                    | some cCol =>
                        match cleanAmountCsv (rowGet row cCol) with
                        | some cv => if cv ≠ 0 then some (|cv|, TxnType.income) else none
                        | none => none
                    | none => none

/-- csvParser parseRow; `uuid` is the fresh id the construction consumes.
The date order argument is accepted and ignored, as in the source. -/
def csvParseRow (native : Str → Option JsDate) (uuid : Str) (row : Row)
    (m : ColumnMapping) (_dateOrder : DateOrder) : Option Txn :=
  let rawDate := match m.dateCol with
                 | some dc => (rowGet row dc).getD []
                 | none => []
  match parseDate native rawDate with
  | none => none
  | some date =>
      let descParts := m.descriptionCols.filterMap (fun col =>
        match rowGet row col with
        | some v => let v' := trimStr v; if !v'.isEmpty then some v' else none
        | none => none)
      let description0 := trimStr (joinSep " — ".data descParts)
      let description := if description0.isEmpty then "Transaction".data else description0
      match csvResolveAmount row m with
      | none => none
      | some (amount, ty) =>
          let balance :=
            match m.balanceCol with
            | some bCol => cleanAmountCsv (rowGet row bCol)
            | none => none
          some ⟨uuid, date, description, amount, "other".data, ty, balance,
                jsonStringifyRow row⟩

/-- The per-row loop of parseCSV: ids are consumed only by rows that
produce a transaction. -/
def csvRowsLoop (native : Str → Option JsDate) (ids : Nat → Str) (m : ColumnMapping)
    (ord : DateOrder) : List Row → Nat → List Txn
  | [], _ => []
  | r :: rest, k =>
      match csvParseRow native (ids k) r m ord with
      | some t => t :: csvRowsLoop native ids m ord rest (k + 1)
      | none => csvRowsLoop native ids m ord rest k

structure ParsedStatement where
  transactions : List Txn
  format : Str
  fileName : Str
  parseDate : ℚ
deriving DecidableEq

structure CSVParseResult where
  statement : ParsedStatement
  detectedCurrency : Option Currency
deriving DecidableEq

/-- parseCSV over already-decoded headers and rows.  The two mapping
checks and the empty check reject the document with a descriptive
error. -/
def parseCSV (native : Str → Option JsDate) (ids : Nat → Str) (now : ℚ)
    (fileName : Str) (headers : List Str) (rows : List Row) : Except Str CSVParseResult :=
  if rows.isEmpty then Except.error ("CSV file is empty or has no data rows.".data)
  else
    let m := detectColumns headers
    match m.dateCol with
    | none =>
        Except.error ("Could not find a date column. Headers found: ".data ++
          joinSep ", ".data headers)
    | some dc =>
        if m.amountCol.isNone && m.debitCol.isNone && m.creditCol.isNone then
          Except.error ("Could not find amount/debit/credit columns. Headers found: ".data ++
            joinSep ", ".data headers)
        else
          let sampleDates := (rows.take 30).filterMap (fun r =>
            match rowGet r dc with
            | some v => if v.isEmpty then none else some v
            | none => none)
          let dateOrder := detectDateOrder sampleDates
          let fullText := joinSep " ".data headers ++ ' ' ::
            joinSep " ".data ((rows.take 20).map (fun r => joinSep " ".data (r.map (fun p => p.2))))
          let detectedCurrency := detectCurrencyFromText fullText
          let transactions := csvRowsLoop native ids m dateOrder rows 0
          Except.ok ⟨⟨transactions, "csv".data, fileName, now⟩, detectedCurrency⟩

/-! ## The XLS/XLSX parser (xlsParser.ts).

Sheet rows are association lists from header names to cells (sheet_to_json
with header mode and `defval: ""`).  Its keyword lists and cleaners are
close to, but not identical with, the CSV ones. -/

abbrev XRow := List (Str × XCell)

def xrowGet (row : XRow) (k : Str) : Option XCell :=
  (row.find? (fun p => p.1 = k)).map (fun p => p.2)

def xlsDateKeywords : List Str :=
  ["date", "txn date", "transaction date", "trans date", "value date", "posting date",
   "book date", "datum", "fecha"].map String.data

def xlsDescKeywords : List Str :=
  ["description", "narration", "particulars", "details", "memo", "reference", "remark",
   "transaction details", "merchant", "payee", "beneficiary", "name"].map String.data

def xlsAmountKeywords : List Str :=
  ["amount", "transaction amount", "txn amount"].map String.data

def xlsDebitKeywords : List Str :=
  ["debit", "withdrawal", "dr", "debit amount", "withdrawal amount", "money out"
  ].map String.data

def xlsCreditKeywords : List Str :=
  ["credit", "deposit", "cr", "credit amount", "deposit amount", "money in"
  ].map String.data

def xlsTypeKeywords : List Str :=
  ["type", "transaction type", "txn type", "cr/dr", "dr/cr"].map String.data

def xlsBalanceKeywords : List Str :=
  ["balance", "closing balance", "running balance"].map String.data

def detectColumnsXls (headers : List Str) : ColumnMapping :=
  detectColumnsWith xlsDateKeywords xlsDescKeywords xlsAmountKeywords xlsDebitKeywords
    xlsCreditKeywords xlsTypeKeywords xlsBalanceKeywords headers

/-- Decimal expansion of a non-negative rational, up to 20 fractional
digits (enough for every number occurring here), with no trailing
zeros — the model of JS number-to-string for the finite decimals this
code manipulates. -/
def natToDigits (n : Nat) : Str := (toString n).data

def fracDigits : Nat → ℚ → Str
  | 0, _ => []
  | fuel + 1, q =>
      if q = 0 then []
      else
        let q10 := q * 10
        let d := ⌊q10⌋.toNat
        Char.ofNat (48 + d % 10) :: fracDigits fuel (q10 - ⌊q10⌋)

def ratToStr (q : ℚ) : Str :=
  let sign : Str := if q < 0 then ['-'] else []
  let a := |q|
  let ip := ⌊a⌋.toNat
  let fr := a - ⌊a⌋
  sign ++ natToDigits ip ++ (if fr = 0 then [] else '.' :: fracDigits 20 fr)

/-- String(cell), for the cells this parser feeds to `String(...)`:
`String(undefined)` is the text "undefined". -/
def cellToStr : Option XCell → Str
  | none => "undefined".data
  | some (XCell.num q) => ratToStr q
  | some (XCell.str s) => s

def jsonVal : XCell → Str
  | XCell.num q => ratToStr q
  | XCell.str s => jsonQuote s

/-- JSON.stringify of a sheet row: numeric cells are serialised bare. -/
def jsonStringifyXRow (row : XRow) : Str :=
  Char.ofNat 123 ::
    (List.intercalate [','] (row.map (fun p => jsonQuote p.1 ++ ':' :: jsonVal p.2)))
    ++ [Char.ofNat 125]

/-- The amount/type resolution of the XLS parseRow. -/
def xlsResolveAmount (row : XRow) (m : ColumnMapping) : Option (ℚ × TxnType) :=
  match m.debitCol, m.creditCol with
        | some dCol, some cCol =>
            let debit := cleanAmountXls (xrowGet row dCol)
            let credit := cleanAmountXls (xrowGet row cCol)
            match debit with
            | some dv =>
                if dv ≠ 0 then some (-|dv|, TxnType.expense)
                else
                  match credit with
                  | some cv => if cv ≠ 0 then some (|cv|, TxnType.income) else none
                  | none => none
            | none =>
                match credit with
                | some cv => if cv ≠ 0 then some (|cv|, TxnType.income) else none
                | none => none
        | _, _ =>
            match m.amountCol with
            | some aCol =>
                match cleanAmountXls (xrowGet row aCol) with
                | none => none
                | some a =>
                    if a = 0 then none
                    else
                      match m.typeCol with
                      | some tCol =>
                          let tCell := (xrowGet row tCol).getD (XCell.str [])
                          let rawType := trimStr (lowerStr
                            (if tCell = XCell.num 0 || tCell = XCell.str [] then []
                             else cellToStr (some tCell)))
                          if containsSub rawType "debit".data ||
                             containsSub rawType "dr".data ||
                             containsSub rawType "withdrawal".data then
                            some (-|a|, TxnType.expense)
                          else if containsSub rawType "credit".data ||
                                  containsSub rawType "cr".data ||
                                  containsSub rawType "deposit".data then
                            some (|a|, TxnType.income)
                          else some (a, if a ≥ 0 then TxnType.income else TxnType.expense)
                      | none => some (a, if a ≥ 0 then TxnType.income else TxnType.expense)
            | none =>
                match m.debitCol with
                | some dCol =>
                    match cleanAmountXls (xrowGet row dCol) with
                    | some dv => if dv ≠ 0 then some (-|dv|, TxnType.expense) else none
                    | none => none
                | none =>
                    match m.creditCol with
                    | some cCol =>
                        match cleanAmountXls (xrowGet row cCol) with
                        | some cv => if cv ≠ 0 then some (|cv|, TxnType.income) else none
                        | none => none
                    | none => none
/-- xlsParser parseRow. -/
def xlsParseRow (native : Str → Option JsDate) (uuid : Str) (row : XRow)
    (m : ColumnMapping) : Option Txn :=
  let rawDate := match m.dateCol with
                 | some dc => xrowGet row dc
                 | none => none
  let date : Option JsDate :=
    match rawDate with
    | some (XCell.num serial) => excelSerialToDate serial
    | _ => parseDate native (cellToStr rawDate)
  match date with
  | none => none
  | some date =>
      let descParts := m.descriptionCols.filterMap (fun col =>
        let v := trimStr (cellToStr (some ((xrowGet row col).getD (XCell.str []))))
        if !v.isEmpty then some v else none)
      let description0 := trimStr (joinSep " — ".data descParts)
      let description := if description0.isEmpty then "Transaction".data else description0
      match xlsResolveAmount row m with
      | none => none
      | some (amount, ty) =>
          let balance :=
            match m.balanceCol with
            | some bCol => cleanAmountXls (xrowGet row bCol)
            | none => none
          some ⟨uuid, date, description, amount, "other".data, ty, balance,
                jsonStringifyXRow row⟩

def xlsRowsLoop (native : Str → Option JsDate) (ids : Nat → Str) (m : ColumnMapping) :
    List XRow → Nat → List Txn
  | [], _ => []
  | r :: rest, k =>
      match xlsParseRow native (ids k) r m with
      | some t => t :: xlsRowsLoop native ids m rest (k + 1)
      | none => xlsRowsLoop native ids m rest k

/-- parseSheet: an unusable mapping returns an EMPTY result, with no
error; it never throws. -/
def parseSheet (native : Str → Option JsDate) (ids : Nat → Str) (rawRows : List XRow) :
    List Txn × Option Currency :=
  match rawRows with
  | [] => ([], none)
  | first :: _ =>
      let headers := first.map (fun p => p.1)
      let m := detectColumnsXls headers
      if m.dateCol.isNone || (m.amountCol.isNone && m.debitCol.isNone && m.creditCol.isNone)
      then ([], none)
      else
        let sampleText := joinSep " ".data headers ++ ' ' ::
          joinSep " ".data ((rawRows.take 20).map (fun r =>
            joinSep " ".data (r.map (fun p => cellToStr (some p.2)))))
        let currency := detectCurrencyFromText sampleText
        (xlsRowsLoop native ids m rawRows 0, currency)

/-! ## The PDF parser (pdfParser.ts).

The two strategies operate on reconstructed lines of positioned items;
the embedding starts from those lines (the per-page grouping upstream is
geometry plumbing with no bearing on the claims). -/

structure PdfItem where
  text : Str
  x : Int
deriving DecidableEq

structure PdfLine where
  y : Int
  items : List PdfItem
deriving DecidableEq

inductive ColType where
  | date
  | desc
  | debit
  | credit
  | amount
  | balance
  | type
deriving DecidableEq

structure ColDef where
  type : ColType
  x : Int
  xEnd : Int
deriving DecidableEq

def pdfColKeywords : List (ColType × List Str) :=
  [(ColType.date, ["date", "txn date", "transaction date", "value date", "posting date",
                   "book date", "txn dt"].map String.data),
   (ColType.desc, ["description", "narration", "particulars", "details",
                   "transaction details", "memo"].map String.data),
   (ColType.debit, ["debit", "dr", "withdrawal", "withdrawals", "money out", "debit amount",
                    "debit(dr)", "spent", "dr."].map String.data),
   (ColType.credit, ["credit", "cr", "deposit", "deposits", "money in", "credit amount",
                     "credit(cr)", "received", "cr."].map String.data),
   (ColType.amount, ["amount", "transaction amount", "txn amount", "txn amt"].map String.data),
   (ColType.balance, ["balance", "closing balance", "running balance", "available balance",
                      "closing bal", "bal"].map String.data),
   (ColType.type, ["type", "transaction type", "txn type", "cr/dr", "dr/cr"].map String.data)]

/-- classifyHeaderItem: normalise (lowercase, keep [a-z0-9 ws / ( ) .],
trim), reject short strings, then first matching role in declaration
order. -/
def classifyHeaderItem (t : Str) : Option ColType :=
  let norm := trimStr ((lowerStr t).filter
    (fun c => ('a' ≤ c && c ≤ 'z') || c.isDigit || isWs c || c = '/' || c = '(' ||
              c = ')' || c = '.'))
  if norm.isEmpty || norm.length < 2 then none
  else
    (pdfColKeywords.find? (fun p =>
      p.2.any (fun kw => norm = kw || containsSub norm kw))).map (fun p => p.1)

def isNumericItem (t : Str) : Bool :=
  let cleaned := t.filter (fun c =>
    !(isCurrencySym c || isWs c || c = ',' || c = '.' || c = '(' || c = ')' || c = '-'))
  cleaned.all isDigitC && cleaned.length > 0

/-- findHeaderRow: scan the first 60 lines for one with at least two
classifiable items including a date and a money column; estimated column
width is 6 units per character. -/
def findHeaderRowAux : List PdfLine → Nat → Option (List ColDef × Nat)
  | [], _ => none
  | l :: rest, i =>
      if i ≥ 60 then none
      else if l.items.length < 2 then findHeaderRowAux rest (i + 1)
      else
        let classified := l.items.filterMap (fun it =>
          (classifyHeaderItem it.text).map (fun ty => (it, ty)))
        let types := classified.map (fun p => p.2)
        let hasDate := types.contains ColType.date
        let hasMoneyCol := types.contains ColType.debit || types.contains ColType.credit ||
          types.contains ColType.amount
        if hasDate && hasMoneyCol && classified.length ≥ 2 then
          some (classified.map (fun p => ⟨p.2, p.1.x, p.1.x + (p.1.text.length : Int) * 6⟩), i)
        else findHeaderRowAux rest (i + 1)

def findHeaderRow (lines : List PdfLine) : Option (List ColDef × Nat) :=
  findHeaderRowAux lines 0

/-- assignToColumn: nearest relevant column by distance to the column
centre, halving the distance for items within 40 units of the column
span, capped at 100 units. -/
def assignToColumn (x : Int) (columns : List ColDef) (targetTypes : List ColType) :
    Option ColType :=
  let relevant := columns.filter (fun c => targetTypes.contains c.type)
  let best := relevant.foldl
    (fun (acc : Option ColDef × ℚ) col =>
      let center : ℚ := ((col.x : ℚ) + (col.xEnd : ℚ)) / 2
      let dist : ℚ := |(x : ℚ) - center|
      let withinRange := x ≥ col.x - 40 && x ≤ col.xEnd + 40
      let effectiveDist := if withinRange then dist * (1 / 2) else dist
      if effectiveDist < acc.2 then (some col, effectiveDist) else acc)
    (none, (1000000 : ℚ))
  match best.1 with
  | some col => if best.2 ≤ 100 then some col.type else none
  | none => none

/-- The transient candidate accumulator. -/
structure Cand where
  date : JsDate
  descParts : List Str
  debit : Option ℚ
  credit : Option ℚ
  amount : Option ℚ
  balance : Option ℚ
  typeIndicator : Str
  lineText : Str

def padNat (w : Nat) (n : Nat) : Str :=
  let ds := natToDigits n
  List.replicate (w - ds.length) '0' ++ ds

/-- The calendar-day prefix of toISOString (the model is an environment
on UTC). -/
def isoDay (d : JsDate) : Str :=
  padNat 4 d.year.toNat ++ '-' :: padNat 2 d.month.toNat.succ ++ '-' :: padNat 2 d.day.toNat

/-- Number.prototype.toFixed(2): the nearest hundredth, ties toward the
larger value. -/
def toFixed2 (q : ℚ) : Str :=
  let n := ⌊q * 100 + 1 / 2⌋
  let a := n.natAbs
  (if n < 0 then ['-'] else []) ++ natToDigits (a / 100) ++ '.' :: padNat 2 (a % 100)

/-- The composite dedup key: calendar day, absolute amount to two
decimals, first 30 description characters. -/
def txnKey (date : JsDate) (absAmount : ℚ) (description : Str) : Str :=
  isoDay date ++ '|' :: toFixed2 absAmount ++ '|' :: description.take 30

def collapseWsAux : Bool → Str → Str
  | _, [] => []
  | prevWs, c :: r =>
      if isWs c then
        (if prevWs then collapseWsAux true r else ' ' :: collapseWsAux true r)
      else c :: collapseWsAux false r

/-- replace(/\s+/g, " "): collapse every whitespace run to one space. -/
def collapseWs (s : Str) : Str := collapseWsAux false s

/-- The amount/type resolution of finalizeTxn, over the available
columns of the detected header. -/
def pdfResolveAmount (hasDebit hasCredit hasAmount hasType : Bool) (c : Cand) :
    Option (ℚ × TxnType) :=
  if hasDebit && hasCredit then
      match c.debit with
      | some d =>
          if d > 0 then some (-d, TxnType.expense)
          else
            match c.credit with
            | some cr => if cr > 0 then some (cr, TxnType.income) else none
            | none => none
      | none =>
          match c.credit with
          | some cr => if cr > 0 then some (cr, TxnType.income) else none
          | none => none
    else if hasAmount && c.amount.isSome then
      match c.amount with
      | some a =>
          if hasType then
            let ti := lowerStr c.typeIndicator
            if containsSub ti "dr".data || containsSub ti "debit".data ||
               containsSub ti "withdrawal".data then
              some (-|a|, TxnType.expense)
            else if containsSub ti "cr".data || containsSub ti "credit".data ||
                    containsSub ti "deposit".data then
              some (|a|, TxnType.income)
            else some (a, if a ≥ 0 then TxnType.income else TxnType.expense)
          else some (a, if a ≥ 0 then TxnType.income else TxnType.expense)
      | none => none
    else if hasDebit then
      match c.debit with
      | some d => if d > 0 then some (-d, TxnType.expense) else none
      | none => none
    else if hasCredit then
      match c.credit with
      | some cr => if cr > 0 then some (cr, TxnType.income) else none
      | none => none
    else none

/-- finalizeTxn: resolve the signed amount and type from the available
columns; candidates with no resolvable nonzero amount are dropped. -/
def finalizeTxn (hasDebit hasCredit hasAmount hasType : Bool) (uuid : Str) (c : Cand) :
    Option Txn :=
  match pdfResolveAmount hasDebit hasCredit hasAmount hasType c with
  | none => none
  | some (finalAmount, ty) =>
      if finalAmount = 0 then none
      else
        let description0 := trimStr (collapseWs (joinSep " ".data c.descParts))
        let description := if description0.isEmpty then "Transaction".data else description0
        some ⟨uuid, c.date, description, finalAmount, "other".data, ty, c.balance,
              c.lineText.take 200⟩

/-- Item handling on a line that starts a transaction. -/
def procDateItem (native : Str → Option JsDate) (cols : List ColDef) (hasType : Bool)
    (c : Cand) (it : PdfItem) : Cand :=
  if isNumericItem it.text then
    match parseAmount it.text with
    | some amt =>
        match assignToColumn it.x cols [ColType.debit, ColType.credit, ColType.amount,
                                        ColType.balance] with
        | some ColType.debit => { c with debit := some |amt| }
        | some ColType.credit => { c with credit := some |amt| }
        | some ColType.amount => { c with amount := some amt }
        | some ColType.balance => { c with balance := some amt }
        | _ => c
    | none => c
  else
    let asType :=
      hasType && (assignToColumn it.x cols [ColType.type] = some ColType.type)
    if asType then { c with typeIndicator := it.text }
    else if (extractDateFromText native it.text).isNone then
      { c with descParts := c.descParts ++ [it.text] }
    else c

/-- Item handling on a continuation line. -/
def procContItem (cols : List ColDef) (c : Cand) (it : PdfItem) : Cand :=
  if isNumericItem it.text then
    match parseAmount it.text with
    | some amt =>
        match assignToColumn it.x cols [ColType.debit, ColType.credit, ColType.amount,
                                        ColType.balance] with
        | some ColType.debit => { c with debit := some |amt| }
        | some ColType.credit => { c with credit := some |amt| }
        | some ColType.amount => { c with amount := some amt }
        | some ColType.balance => { c with balance := some amt }
        | _ => c
    | none => c
  else { c with descParts := c.descParts ++ [it.text] }

def skipWordsRM : RM :=
  rmSeqs
    [rmB,
     rmAlt (rmStr true "page".data) (rmAlt (rmStr true "total".data)
       (rmAlt (rmStr true "opening balance".data) (rmAlt (rmStr true "closing balance".data)
         (rmAlt (rmStr true "statement".data) (rmStr true "account".data))))),
     rmB]

def pdfLineText (l : PdfLine) : Str := joinSep "  ".data (l.items.map (fun it => it.text))

/-- Lines that look like page headers/footers or summaries (and carry no
date) are skipped. -/
def isSkipLine (native : Str → Option JsDate) (lineText : Str) : Bool :=
  rmTest skipWordsRM lineText && (extractDateFromText native lineText).isNone

/-- Finalize the open candidate: dedup by key, then push. -/
def cbpFinalize (ids : Nat → Str) (hd hc ha ht : Bool) (seen : List Str) (txns : List Txn)
    (cur : Option Cand) (k : Nat) : List Str × List Txn × Nat :=
  match cur with
  | none => (seen, txns, k)
  | some c =>
      match finalizeTxn hd hc ha ht (ids k) c with
      | none => (seen, txns, k)
      | some t =>
          let key := txnKey t.date |t.amount| t.description
          if seen.contains key then (seen, txns, k)
          else (key :: seen, txns ++ [t], k + 1)

/-- The state machine over the lines after the header. -/
def cbpLoop (native : Str → Option JsDate) (ids : Nat → Str) (cols : List ColDef)
    (hd hc ha ht : Bool) :
    List PdfLine → List Str → List Txn → Option Cand → Nat → List Txn
  | [], seen, txns, cur, k => (cbpFinalize ids hd hc ha ht seen txns cur k).2.1
  | l :: rest, seen, txns, cur, k =>
      let lineText := pdfLineText l
      if isSkipLine native lineText then cbpLoop native ids cols hd hc ha ht rest seen txns cur k
      else
        match extractDateFromText native lineText with
        | some date =>
            let fin := cbpFinalize ids hd hc ha ht seen txns cur k
            let c0 : Cand := ⟨date, [], none, none, none, none, [], lineText⟩
            let c1 := l.items.foldl (procDateItem native cols ht) c0
            cbpLoop native ids cols hd hc ha ht rest fin.1 fin.2.1 (some c1) fin.2.2
        | none =>
            match cur with
            | some c =>
                let c1 := l.items.foldl (procContItem cols) c
                let c2 := { c1 with lineText := c1.lineText ++ ' ' :: lineText }
                cbpLoop native ids cols hd hc ha ht rest seen txns (some c2) k
            | none => cbpLoop native ids cols hd hc ha ht rest seen txns none k

def columnBasedParse (native : Str → Option JsDate) (ids : Nat → Str)
    (lines : List PdfLine) : List Txn :=
  match findHeaderRow lines with
  | none => []
  | some (cols, headerIdx) =>
      let hd := cols.any (fun c => c.type = ColType.debit)
      let hc := cols.any (fun c => c.type = ColType.credit)
      let ha := cols.any (fun c => c.type = ColType.amount)
      let ht := cols.any (fun c => c.type = ColType.type)
      cbpLoop native ids cols hd hc ha ht (lines.drop (headerIdx + 1)) [] [] none 0

/-! cleanDescription: strip dates, amounts, type keywords, reference
noise and clock times; collapse whitespace; default "Transaction". -/

def cdRM1 : RM :=
  rmSeqs [rmRep isDigitC 1 2, rmCls (fun c => isDateSep c || isWs c || c = '.'),
          rmRep isWordC 3 9, rmStar (fun c => isDateSep c || isWs c || c = '.' || c = ','),
          rmRep isDigitC 2 4]

def cdRM2 : RM :=
  rmSeqs [rmRep isWordC 3 9, rmPlus isWs, rmRep isDigitC 1 2, rmOpt (rmChar false ','),
          rmStar isWs, rmRep isDigitC 2 4]

def cdRM4 : RM :=
  rmSeqs [rmRep isDigitC 1 2, rmCls (fun c => isDateSep c || c = '.'), rmRep isDigitC 1 2,
          rmCls (fun c => isDateSep c || c = '.'), rmRep isDigitC 2 4]

def cdRM5 : RM :=
  rmSeqs [rmCls isCurrencySym, rmStar isWs, rmPlus (fun c => isDigitC c || c = ','),
          rmOpt (rmChar false '.'), rmStar isDigitC]

def cdRM6 : RM :=
  rmSeqs [rmB, rmPlus (fun c => isDigitC c || c = ','), rmChar false '.',
          rmRep isDigitC 2 2, rmB]

def cdRM7 : RM :=
  rmSeqs
    [rmB,
     rmAlt (rmStr true "credit".data) (rmAlt (rmStr true "debit".data)
       (rmAlt (rmStr true "cr".data) (rmAlt (rmStr true "dr".data)
         (rmAlt (rmStr true "credited".data) (rmStr true "debited".data))))),
     rmB]

def cdRM8 : RM :=
  rmSeqs
    [rmB,
     rmAlt (rmStr true "transaction id".data)
       (rmAlt (rmSeqs [rmStr true "utr no".data, rmOpt (rmChar true '.')])
         (rmSeqs [rmStr true "ref".data, rmOpt (rmChar true '.'), rmStar isWs,
                  rmStr true "no".data, rmOpt (rmChar true '.')])),
     rmStar isWs, rmPlus (fun c => !isWs c)]

def cdRM9 : RM :=
  rmSeqs [rmRep isDigitC 2 2, rmChar false ':', rmRep isDigitC 2 2, rmStar isWs,
          rmOpt (rmAlt (rmStr false "am".data) (rmAlt (rmStr false "pm".data)
            (rmAlt (rmStr false "AM".data) (rmStr false "PM".data))))]

def cleanDescription (text : Str) : Str :=
  let d1 := rmGReplace cdRM1 (fun _ => []) text
  let d2 := rmGReplace cdRM2 (fun _ => []) d1
  let d3 := rmGReplace dateFrag1 (fun _ => []) d2
  let d4 := rmGReplace cdRM4 (fun _ => []) d3
  let d5 := rmGReplace cdRM5 (fun _ => []) d4
  let d6 := rmGReplace cdRM6 (fun _ => []) d5
  let d7 := rmGReplace cdRM7 (fun _ => []) d6
  let d8 := rmGReplace cdRM8 (fun _ => []) d7
  let d9 := rmGReplace cdRM9 (fun _ => []) d8
  let d10 := rmGReplace (rmPlus isWs) (fun _ => [' ']) d9
  let r := trimStr d10
  if r.isEmpty then "Transaction".data else r

/-! Text-based fallback strategy. -/

structure RawEntry where
  date : JsDate
  text : Str
  amounts : List ℚ

/-- The amount regex:
`(?:[sym]\s*)?[\d,]+\.?\d*` preferred over `\d+[.,]\d\x7b2\x7d`. -/
def amountRE : RM :=
  rmAlt
    (rmSeqs [rmOpt (rmSeqs [rmCls isCurrencySym, rmStar isWs]),
             rmPlus (fun c => isDigitC c || c = ','), rmOpt (rmChar false '.'),
             rmStar isDigitC])
    (rmSeqs [rmPlus isDigitC, rmCls (fun c => c = '.' || c = ','), rmRep isDigitC 2 2])

/-- Absolute values of the parsed amount tokens of an entry text, keeping
only those of magnitude at least 0.01. -/
def entryAmounts (fullText : Str) : List ℚ :=
  (rmMatches amountRE fullText).filterMap (fun m =>
    match parseAmount m with
    | some a => if |a| ≥ 1 / 100 then some |a| else none
    | none => none)

/-- Up to 4 context lines are absorbed, stopping at the next dated line. -/
def takeCtx (native : Str → Option JsDate) : Nat → List PdfLine → List Str
  | 0, _ => []
  | _, [] => []
  | n + 1, l :: rest =>
      let t := pdfLineText l
      if (extractDateFromText native t).isSome then []
      else t :: takeCtx native n rest

/-- Entry collection: every dated line anchors an entry made of the line
plus its context; entries with no usable amount token are dropped. -/
def tbpCollect (native : Str → Option JsDate) : List PdfLine → List RawEntry
  | [] => []
  | l :: rest =>
      let lineText := pdfLineText l
      match extractDateFromText native lineText with
      | none => tbpCollect native rest
      | some date =>
          let fullText := lineText ++ (takeCtx native 4 rest).foldl
            (fun acc t => acc ++ ' ' :: t) []
          let amounts := entryAmounts fullText
          if amounts.isEmpty then tbpCollect native rest
          else ⟨date, fullText, amounts⟩ :: tbpCollect native rest

/-- Balance-tracking validation over (at most) the first 10 entries. -/
def vbtLoop : Option ℚ → Nat → List RawEntry → Bool
  | _, _, [] => true
  | _, 0, _ => true
  | prev, n + 1, e :: rest =>
      if e.amounts.length < 2 then false
      else
        let balance := (e.amounts.getLast?).getD 0
        match prev with
        | some pb =>
            let diff := |balance - pb|
            let others := e.amounts.dropLast
            let hasMatch := others.any (fun a => |a - diff| < diff * (1 / 100) + 2 / 100)
            if !hasMatch && diff > 1 / 10 then false
            else vbtLoop (some balance) n rest
        | none => vbtLoop (some balance) n rest

/-- The recorded type of a balance-tracking entry: income when the
balance did not fall. -/
def btType (e : RawEntry) (pb : ℚ) : TxnType :=
  if (e.amounts.getLast?).getD 0 - pb ≥ 0 then TxnType.income else TxnType.expense

/-- The unsigned amount of a balance-tracking entry: the first amount
token within 1% + 0.02 of the balance delta, else the first token, else
the delta itself. -/
def btFinalAmount (e : RawEntry) (pb : ℚ) : ℚ :=
  let txnAmount := |(e.amounts.getLast?).getD 0 - pb|
  let others := e.amounts.dropLast
  match others.find? (fun a => |a - txnAmount| < txnAmount * (1 / 100) + 2 / 100) with
  | some a => a
  | none => match others with
            | a :: _ => a
            | [] => txnAmount

/-- Transaction construction in balance-tracking mode. -/
def btBuild (ids : Nat → Str) : Option ℚ → List RawEntry → List Str → List Txn → Nat →
    List Txn
  | _, [], _, txns, _ => txns
  | prev, e :: rest, seen, txns, k =>
      let balance := (e.amounts.getLast?).getD 0
      match prev with
      | none => btBuild ids (some balance) rest seen txns k
      | some pb =>
          let ty := btType e pb
          let finalAmount := btFinalAmount e pb
          if finalAmount < 1 / 100 then btBuild ids (some balance) rest seen txns k
          else
            let description := cleanDescription e.text
            let key := txnKey e.date finalAmount description
            if seen.contains key then btBuild ids (some balance) rest seen txns k
            else
              btBuild ids (some balance) rest (key :: seen)
                (txns ++ [⟨ids k, e.date, description,
                           (if ty = TxnType.expense then -finalAmount else finalAmount),
                           "other".data, ty, some balance, e.text.take 200⟩]) (k + 1)

def creditWordsRM : RM :=
  rmSeqs
    [rmB,
     rmAlt (rmStr true "credit".data) (rmAlt (rmStr true "cr".data)
       (rmAlt (rmStr true "credited".data) (rmAlt (rmStr true "deposit".data)
         (rmAlt (rmStr true "received".data) (rmAlt (rmStr true "income".data)
           (rmAlt (rmStr true "refund".data) (rmStr true "cashback".data))))))),
     rmB]

def debitWordsRM : RM :=
  rmSeqs
    [rmB,
     rmAlt (rmStr true "debit".data) (rmAlt (rmStr true "dr".data)
       (rmAlt (rmStr true "debited".data) (rmAlt (rmStr true "withdraw".data)
         (rmAlt (rmStr true "withdrawal".data) (rmAlt (rmStr true "paid".data)
           (rmAlt (rmStr true "payment".data) (rmAlt (rmStr true "purchase".data)
             (rmAlt (rmStr true "spent".data) (rmAlt (rmStr true "expense".data)
               (rmStr true "sent".data)))))))))),
     rmB]

/-- The recorded type of a keyword-mode entry. -/
def kwType (e : RawEntry) : TxnType :=
  if rmTest creditWordsRM e.text && !rmTest debitWordsRM e.text then TxnType.income
  else TxnType.expense

/-- Transaction construction in keyword mode. -/
def kwBuild (ids : Nat → Str) : List RawEntry → List Str → List Txn → Nat → List Txn
  | [], _, txns, _ => txns
  | e :: rest, seen, txns, k =>
      let ty := kwType e
      let amount := e.amounts.headD 0
      if amount < 1 / 100 then kwBuild ids rest seen txns k
      else
        let description := cleanDescription e.text
        let balance := if e.amounts.length ≥ 2 then some ((e.amounts.getLast?).getD 0)
                       else none
        let key := txnKey e.date amount description
        if seen.contains key then kwBuild ids rest seen txns k
        else
          kwBuild ids rest (key :: seen)
            (txns ++ [⟨ids k, e.date, description,
                       (if ty = TxnType.expense then -amount else amount),
                       "other".data, ty, balance, e.text.take 200⟩]) (k + 1)

def textBasedParse (native : Str → Option JsDate) (ids : Nat → Str)
    (lines : List PdfLine) : List Txn :=
  let entries := tbpCollect native lines
  if entries.length ≥ 3 && vbtLoop none 10 entries then
    let txns := btBuild ids none entries [] [] 0
    if txns.length > 0 then txns else kwBuild ids entries [] [] 0
  else kwBuild ids entries [] [] 0

/-! Balance validation. -/

/-- The type correction of one validation step: a transaction whose
recorded type contradicts the balance delta is flipped, with the amount
re-signed accordingly. -/
def vwbFlip (res : List Txn) (i : Nat) (curr : Txn) (expectedType : TxnType) : List Txn :=
  if curr.type ≠ expectedType then
    res.set i { curr with
      type := expectedType
      amount := if expectedType = TxnType.expense then
                  -(|curr.amount|)
                else |curr.amount| }
  else res

/-- The amount correction of one validation step: an amount off the
balance delta by more than 1% + 0.02 is replaced by the delta (when the
delta itself is material). -/
def vwbAdjust (res1 : List Txn) (i : Nat) (curr : Txn) (trueTxnAmount : ℚ) : List Txn :=
  if |(|curr.amount|) - trueTxnAmount| > trueTxnAmount * (1 / 100) + 2 / 100 then
    if trueTxnAmount > 1 / 100 then
      match res1[i]? with
      | some c1 =>
          res1.set i { c1 with
            amount := if c1.type = TxnType.expense then -trueTxnAmount
                      else trueTxnAmount }
      | none => res1
    else res1
  else res1

/-- One correction step, at index `i`, of a transaction `curr` whose
predecessor's balance is `pb` and whose own balance is `cb`. -/
def vwbStep (res : List Txn) (i : Nat) (curr : Txn) (pb cb : ℚ) : List Txn :=
  let balanceDiff := cb - pb
  let expectedType := if balanceDiff ≥ 0 then TxnType.income else TxnType.expense
  vwbAdjust (vwbFlip res i curr expectedType) i curr |balanceDiff|

def vwbLoop : Nat → List Txn → Nat → List Txn
  | 0, res, _ => res
  | fuel + 1, res, i =>
      match res[i - 1]?, res[i]? with
      | some prev, some curr =>
          match prev.balance, curr.balance with
          | some pb, some cb =>
              if |cb - pb| < 1 / 100 then vwbLoop fuel res (i + 1)
              else vwbLoop fuel (vwbStep res i curr pb cb) (i + 1)
          | _, _ => vwbLoop fuel res (i + 1)
      | _, _ => res

/-- validateWithBalance: only lists of at least 3 transactions, at least
half of which carry a balance, are corrected. -/
def validateWithBalance (transactions : List Txn) : List Txn :=
  if transactions.length < 3 then transactions
  else
    let withBalance := transactions.filter (fun t => t.balance.isSome)
    if (withBalance.length : ℚ) < (transactions.length : ℚ) * (1 / 2) then transactions
    else vwbLoop transactions.length transactions 1

/-- The strategy selection and correction pass of parsePDF (after text
reconstruction): the column strategy, the text fallback when it yields
fewer than 3 transactions (keeping the larger list), then balance
validation.  The two strategies draw fresh uuids (`ids1`, `ids2`). -/
def pdfPipeline (native : Str → Option JsDate) (ids1 ids2 : Nat → Str)
    (lines : List PdfLine) : List Txn :=
  let t1 := columnBasedParse native ids1 lines
  let t2 :=
    if t1.length < 3 then
      let fb := textBasedParse native ids2 lines
      if fb.length > t1.length then fb else t1
    else t1
  validateWithBalance t2

/-! ## Definitions used only by the verification statements. -/

/-- A transaction with the generated uuid erased (all fields a
deterministic run must reproduce). -/
def eraseId (t : Txn) : JsDate × Str × ℚ × Str × TxnType × Option ℚ × Str :=
  (t.date, t.description, t.amount, t.category, t.type, t.balance, t.originalText)

/-- The Transaction invariant of the spec: the amount sign determines
the type, the amount is nonzero, and the year is in [1990, 2100]. -/
def txnInvariant (t : Txn) : Prop :=
  (0 < t.amount ↔ t.type = TxnType.income) ∧
  (t.amount < 0 ↔ t.type = TxnType.expense) ∧
  t.amount ≠ 0 ∧ 1990 ≤ t.date.year ∧ t.date.year ≤ 2100

/-- The dedup key of a finished transaction. -/
def keyOf (t : Txn) : Str := txnKey t.date |t.amount| t.description

/-- Pairwise distinctness of the dedup keys of a list. -/
def keyDistinct (l : List Txn) : Prop := l.Pairwise (fun a b => keyOf a ≠ keyOf b)

/-! Claimed and amended currency scoring (the claim formula, written
from the spec sentence, to compare with `detectCurrencyFromText`). -/

/-- Regex-escape of a symbol string (of the characters occurring in the
catalog symbols, `$` and `.` are the special ones). -/
def regexEscape (s : Str) : Str :=
  s.flatMap (fun c => if c = '$' || c = '.' then ['\\', c] else [c])

/-- The weight the CLAIM assigns: 3 for a literal currency-symbol
pattern, 2 for an ISO-code pattern, 1 for a descriptive word. -/
def claimedWeight (e : CurrencyEntry) (src : Str) : Nat :=
  if src = regexEscape e.symbol.data then 3
  else if src = '\\' :: 'b' :: e.code.data ++ ['\\', 'b'] then 2
  else 1

def claimedEntryScore (sample : Str) (e : CurrencyEntry) : Nat :=
  e.patterns.foldl
    (fun acc src => acc + rmCount (patternRM src.data) sample * claimedWeight e src.data) 0

/-- The detector the claim describes: highest claimed score wins, ties
keep the earlier catalog entry, none exactly when the best score is 0. -/
def claimedDetect (text : Str) : Option Currency :=
  let sample := currencySample text
  let scores := CURRENCY_DB.map (claimedEntryScore sample)
  let b := scores.foldl max 0
  if b = 0 then none
  else ((CURRENCY_DB.zip scores).find? (fun p => p.2 = b)).map (fun p => currencyOf p.1)

/-- The detector with the amended weights (the weights the code
computes, argmax formulated as in the spec sentence). -/
def amendedDetect (text : Str) : Option Currency :=
  let sample := currencySample text
  let scores := CURRENCY_DB.map (entryScore sample)
  let b := scores.foldl max 0
  if b = 0 then none
  else ((CURRENCY_DB.zip scores).find? (fun p => p.2 = b)).map (fun p => currencyOf p.1)

/-! Canonical serialisations of the supported date-pattern families,
written from the spec (the code only parses).  Months are 0-based as in
the parsed result; the serialisers write them 1-based. -/

def dig (k : Nat) : Char := Char.ofNat (48 + k)

def pad2N (n : Nat) : Str := [dig (n / 10 % 10), dig (n % 10)]

def pad4N (n : Nat) : Str :=
  [dig (n / 1000 % 10), dig (n / 100 % 10), dig (n / 10 % 10), dig (n % 10)]

def monthNames3 : List Str :=
  ["Jan", "Feb", "Mar", "Apr", "May", "Jun", "Jul", "Aug", "Sep", "Oct", "Nov", "Dec"
  ].map String.data

def monthName3 (m0 : Nat) : Str := (monthNames3.get? m0).getD "Jan".data

/-- ISO `Y-M-D`. -/
def serISO (y m0 d : Nat) : Str :=
  pad4N y ++ '-' :: (pad2N (m0 + 1) ++ '-' :: pad2N d)

/-- `D-Mon-Y`. -/
def serDMonY (y m0 d : Nat) : Str :=
  pad2N d ++ '-' :: (monthName3 m0 ++ '-' :: pad4N y)

/-- `Mon D, Y`. -/
def serMonDY (y m0 d : Nat) : Str :=
  monthName3 m0 ++ ' ' :: (pad2N d ++ ',' :: ' ' :: pad4N y)

/-- `D/M/Y`, 4-digit year. -/
def serDMY4 (y m0 d : Nat) : Str :=
  pad2N d ++ '/' :: (pad2N (m0 + 1) ++ '/' :: pad4N y)

/-- `D/M/Y`, 2-digit year. -/
def serDMY2 (y m0 d : Nat) : Str :=
  pad2N d ++ '/' :: (pad2N (m0 + 1) ++ '/' :: pad2N (y % 100))

/-- Dotted `Y.M.D`. -/
def serYMDdot (y m0 d : Nat) : Str :=
  pad4N y ++ '.' :: (pad2N (m0 + 1) ++ '.' :: pad2N d)

/-- Dotted `D.M.Y`, 4-digit year. -/
def serDMYdot4 (y m0 d : Nat) : Str :=
  pad2N d ++ '.' :: (pad2N (m0 + 1) ++ '.' :: pad4N y)

/-- Dotted `D.M.Y`, 2-digit year. -/
def serDMYdot2 (y m0 d : Nat) : Str :=
  pad2N d ++ '.' :: (pad2N (m0 + 1) ++ '.' :: pad2N (y % 100))

/-- Compact `YYYYMMDD`. -/
def serCompact (y m0 d : Nat) : Str := pad4N y ++ pad2N (m0 + 1) ++ pad2N d

/-- A valid calendar day of a 0-based month. -/
def validDate (y m0 d : Nat) : Prop :=
  m0 ≤ 11 ∧ 1 ≤ d ∧ (d : Int) ≤ daysInMonth (y : Int) (m0 : Int)

/-- The id- and timestamp-insensitive view of a CSV parse outcome. -/
def eraseResult (r : Except Str CSVParseResult) :
    Except Str (List (JsDate × Str × ℚ × Str × TxnType × Option ℚ × Str) × Str × Str ×
      Option Currency) :=
  match r with
  | Except.error e => Except.error e
  | Except.ok r =>
      Except.ok (r.statement.transactions.map eraseId, r.statement.format,
        r.statement.fileName, r.detectedCurrency)

/-! Concrete instances used by witnesses and counterexamples. -/

def nativeNone : Str → Option JsDate := fun _ => none

def idsDemoA : Nat → Str := fun n => 'a' :: natToDigits n

def idsDemoB : Nat → Str := fun n => 'b' :: natToDigits n

def demoDate : JsDate := ⟨2024, 0, 15⟩

def mkDemoTxn (ty : TxnType) (a b : ℚ) : Txn :=
  ⟨['u'], demoDate, ['d'], a, "other".data, ty, some b, []⟩

/-- Balance 100, recorded income, amount 100. -/
def c9t1 : Txn := mkDemoTxn TxnType.income 100 100

/-- Balance 150, recorded income, amount 50. -/
def c9t2 : Txn := mkDemoTxn TxnType.income 50 150

/-- Balance 120, recorded income, amount 29.9. -/
def c9t3 : Txn := mkDemoTxn TxnType.income (299 / 10) 120

/-- Balance 120, recorded income, amount 30. -/
def c9t3w : Txn := mkDemoTxn TxnType.income 30 120

/-- Two transactions whose falling balances contradict their recorded
income types. -/
def c10a : Txn := mkDemoTxn TxnType.income 100 100

def c10b : Txn := mkDemoTxn TxnType.income 50 50

def demoHeaders : List Str := ["Date", "Narration", "Debit", "Credit", "Balance"].map String.data

def demoRowCredit : Row :=
  [("Date".data, "01-Jan-2024".data), ("Narration".data, "Salary".data),
   ("Debit".data, []), ("Credit".data, "50000.00".data),
   ("Balance".data, "50000.00".data)]

def demoRowDebit : Row :=
  [("Date".data, "02-Jan-2024".data), ("Narration".data, "Rent".data),
   ("Debit".data, "15000.00".data), ("Credit".data, []),
   ("Balance".data, "35000.00".data)]

/-- A row whose description field is 250 characters long. -/
def demoRowLong : Row :=
  [("Date".data, "01-Jan-2024".data), ("Narration".data, List.replicate 250 'x'),
   ("Debit".data, "15000.00".data), ("Credit".data, []),
   ("Balance".data, "35000.00".data)]

def badHeaders : List Str := ["Foo", "Bar"].map String.data

def demoXRowBad : XRow := [("Foo".data, XCell.str ['x']), ("Bar".data, XCell.str ['y'])]

/-- Three headerless PDF text lines with dates, amounts and balances. -/
def demoTextLines : List PdfLine :=
  [⟨680, [⟨"01-Jan-2024 UPI Payment to X 500.00 9500.00".data, 10⟩]⟩,
   ⟨660, [⟨"02-Jan-2024 Salary CREDIT 2000.00 11500.00".data, 10⟩]⟩,
   ⟨640, [⟨"03-Jan-2024 Grocery 300.00 11200.00".data, 10⟩]⟩]

/-- The parseCSV result on the demo credit row. -/
def c1res : CSVParseResult :=
  match parseCSV nativeNone idsDemoA 0 [] demoHeaders [demoRowCredit] with
  | Except.ok r => r
  | Except.error _ => ⟨⟨[], [], [], 0⟩, none⟩

/-- The transaction the demo credit row produces. -/
def c1txn : Txn := c1res.statement.transactions.headD (mkDemoTxn TxnType.income 1 1)

/-- The parseCSV result on the long demo row. -/
def c8res : CSVParseResult :=
  match parseCSV nativeNone idsDemoA 0 [] demoHeaders [demoRowLong] with
  | Except.ok r => r
  | Except.error _ => ⟨⟨[], [], [], 0⟩, none⟩

/-- The transaction the long demo row produces. -/
def c8txn : Txn := c8res.statement.transactions.headD (mkDemoTxn TxnType.income 1 1)

/-- The first transaction of the pdf pipeline on the demo text lines. -/
def c8ptxn : Txn :=
  (pdfPipeline nativeNone idsDemoA idsDemoB demoTextLines).headD (mkDemoTxn TxnType.income 1 1)

/-- The parseCSV result on the demo credit row repeated twice. -/
def c2res : CSVParseResult :=
  match parseCSV nativeNone idsDemoA 0 [] demoHeaders [demoRowCredit, demoRowCredit] with
  | Except.ok r => r
  | Except.error _ => ⟨⟨[], [], [], 0⟩, none⟩

/-- A second run on the demo credit row whose uuid source draws the `b`
stream instead of the `a` stream. -/
def c4resB : CSVParseResult :=
  match parseCSV nativeNone idsDemoB 0 [] demoHeaders [demoRowCredit] with
  | Except.ok r => r
  | Except.error _ => ⟨⟨[], [], [], 0⟩, none⟩

/-- Strings with no digit character (they can only parse as NaN). -/
def noDigits (s : Str) : Prop := ∀ c ∈ s, isDigitC c = false

/-- The symbol/whitespace stripping and trim that parseAmount applies
before its degenerate-input checks. -/
def pdfStripped (s : Str) : Str :=
  trimStr (s.filter (fun c => !(isCurrencySym c || isWs c)))

/-- Strings without a colon; the trailing-time pattern cannot match
inside them. -/
def noColon (s : Str) : Prop := ∀ c ∈ s, c ≠ ':'

/-- A matcher continuation that fails on every colon-free input. -/
def kFailsNC (k : Option Char → Str → Option Str) : Prop :=
  ∀ pv s, noColon s → k pv s = none

/-- On colon-free input the matcher fails whenever its continuation fails
on all colon-free inputs (it only ever consumes characters). -/
def rmSafeNC (m : RM) : Prop :=
  ∀ pv s k, noColon s → kFailsNC k → m pv s k = none

/-- The matcher fails outright on colon-free input. -/
def rmFailsNC (m : RM) : Prop :=
  ∀ pv s k, noColon s → m pv s k = none

/-- First letters (lowercased) of the ordinal suffixes st/nd/rd/th. -/
def snrt (c : Char) : Bool :=
  lowerC c = 's' || lowerC c = 'n' || lowerC c = 'r' || lowerC c = 't'

/-- An adjacent pair that cannot start an ordinal-suffix match. -/
def ordSafe2 (c1 c2 : Char) : Bool := !isDigitC c1 || !snrt c2

/-- No adjacent pair of the string can start an ordinal-suffix match. -/
def adjOK : Str → Bool
  | c1 :: c2 :: r => ordSafe2 c1 c2 && adjOK (c2 :: r)
  | _ => true

/-! ## Verification -/

lemma noDigits_sub {s t : Str} (h : t ⊆ s) (nd : noDigits s) : noDigits t :=
  fun c hc => nd c (h hc)

lemma takeWhile_digits_nil {s : Str} (nd : noDigits s) : s.takeWhile isDigitC = [] := by
  cases s with
  | nil => rfl
  | cons a t => simp [List.takeWhile_cons, nd a (List.mem_cons_self a t)]

lemma dropWhile_digits_id {s : Str} (nd : noDigits s) : s.dropWhile isDigitC = s := by
  cases s with
  | nil => rfl
  | cons a t => simp [List.dropWhile_cons, nd a (List.mem_cons_self a t)]

lemma noDigits_tail {c : Char} {s : Str} (nd : noDigits (c :: s)) : noDigits s :=
  fun x hx => nd x (List.mem_cons_of_mem _ hx)

lemma stripSign_snd_noDigits {s : Str} (nd : noDigits s) : noDigits (stripSign s).2 := by
  unfold stripSign
  rcases s with _ | ⟨c, r⟩
  · exact nd
  · dsimp only
    split_ifs <;> first | exact noDigits_tail nd | exact nd

lemma jsParseFloat_none_of_noDigits {s : Str} (nd : noDigits s) : jsParseFloat s = none := by
  have nd1 : noDigits (s.dropWhile isWs) :=
    noDigits_sub (List.dropWhile_sublist _).subset nd
  have nd2 : noDigits (stripSign (s.dropWhile isWs)).2 := stripSign_snd_noDigits nd1
  unfold jsParseFloat
  simp only [takeDigits]
  rw [takeWhile_digits_nil nd2, dropWhile_digits_id nd2]
  unfold fracPart
  generalize hT : (stripSign (List.dropWhile isWs s)).2 = t at nd2
  rcases t with _ | ⟨c, r⟩
  · simp
  · have hcd : isDigitC c = false := nd2 c (List.mem_cons_self c r)
    dsimp only
    split_ifs <;> simp_all [takeDigits, takeWhile_digits_nil (noDigits_tail nd2)]

lemma noDigits_trim {s : Str} (nd : noDigits s) : noDigits (trimStr s) := by
  refine noDigits_sub (fun c hc => ?_) nd
  unfold trimStr at hc
  rw [List.mem_reverse] at hc
  have := (List.dropWhile_sublist (l := (s.dropWhile isWs).reverse) isWs).subset hc
  rw [List.mem_reverse] at this
  exact (List.dropWhile_sublist isWs).subset this

lemma noDigits_filter {s : Str} (p : Char → Bool) (nd : noDigits s) :
    noDigits (s.filter p) := by
  refine noDigits_sub (fun c hc => ?_) nd
  exact (List.mem_filter.mp hc).1

lemma noDigits_replace1 {s : Str} {c rep : Char} (hrep : isDigitC rep = false)
    (nd : noDigits s) : noDigits (replace1 c rep s) := by
  induction s with
  | nil => exact nd
  | cons a t ih =>
      unfold replace1
      split_ifs
      · intro x hx
        rcases List.mem_cons.mp hx with h | h
        · exact h ▸ hrep
        · exact noDigits_tail nd x h
      · intro x hx
        rcases List.mem_cons.mp hx with h | h
        · exact h ▸ nd a (List.mem_cons_self a t)
        · exact ih (noDigits_tail nd) x h

lemma noDigits_decimalNormalize {s : Str} (nd : noDigits s) :
    noDigits (decimalNormalize s) := by
  rw [decimalNormalize]
  dsimp only
  split_ifs
  · exact noDigits_replace1 (by decide) (noDigits_filter _ nd)
  · exact noDigits_filter _ nd
  · exact noDigits_filter _ nd

lemma noDigits_parenStrip {s : Str} (b : Bool) (nd : noDigits s) :
    noDigits (if b then (s.drop 1).dropLast else s) := by
  cases b
  · exact nd
  · exact noDigits_sub (fun c hc =>
      (List.drop_subset 1 s) ((List.dropLast_subset _) hc)) nd

lemma noDigits_minusStrip {s : Str} (b : Bool) (nd : noDigits s) :
    noDigits (if b then s.drop 1 else s) := by
  cases b
  · exact nd
  · exact noDigits_sub (List.drop_subset 1 s) nd

/-- parseAmount yields none on digit-free (non-numeric) input. -/
lemma parseAmount_none_of_noDigits {s : Str} (nd : noDigits s) : parseAmount s = none := by
  rw [parseAmount]
  dsimp only
  split
  · rfl
  · have ndc : noDigits (trimStr (s.filter (fun c => !(isCurrencySym c || isWs c)))) :=
      noDigits_trim (noDigits_filter _ nd)
    rw [jsParseFloat_none_of_noDigits (noDigits_decimalNormalize
      (noDigits_minusStrip _ (noDigits_parenStrip _ ndc)))]

/-- parseAmount never returns 0. -/
lemma parseAmount_ne_zero {s : Str} {q : ℚ} (h : parseAmount s = some q) : q ≠ 0 := by
  rw [parseAmount] at h
  dsimp only at h
  split at h
  · exact absurd h (by simp)
  · split at h
    · exact absurd h (by simp)
    · rename_i num _
      split_ifs at h with hz hs
      · rw [Option.some_inj] at h
        rw [← h]
        simpa using hz
      · rw [Option.some_inj] at h
        rw [← h]
        exact hz

/-- parseAmount yields none when the stripped input is degenerate. -/
lemma parseAmount_none_of_degenerate {s : Str}
    (h : pdfStripped s = [] ∨ pdfStripped s = ['-'] ∨ pdfStripped s = ['-', '-']) :
    parseAmount s = none := by
  unfold pdfStripped at h
  rw [parseAmount]
  dsimp only
  rw [if_pos]
  rcases h with h | h | h <;> rw [h] <;> simp

/-- The CSV cleaner yields none on degenerate input. -/
lemma cleanAmountCsv_none_of_degenerate {r : Str}
    (h : trimStr r = [] ∨ trimStr r = ['-'] ∨ trimStr r = ['-', '-'] ∨
         lowerStr (trimStr r) = "null".data) :
    cleanAmountCsv (some r) = none := by
  rw [cleanAmountCsv]
  dsimp only
  rw [if_pos]
  rcases h with h | h | h | h <;> rw [h] <;> simp

/-- The CSV cleaner yields none on digit-free input. -/
lemma cleanAmountCsv_none_of_noDigits {r : Str} (nd : noDigits r) :
    cleanAmountCsv (some r) = none := by
  rw [cleanAmountCsv]
  dsimp only
  split
  · rfl
  · have ndt : noDigits (trimStr r) := noDigits_trim nd
    rw [jsParseFloat_none_of_noDigits (noDigits_decimalNormalize
      (noDigits_filter _ (noDigits_parenStrip _ ndt)))]

/-- The XLS cleaner yields none on degenerate string input. -/
lemma cleanAmountXls_none_of_degenerate {r : Str}
    (h : trimStr r = [] ∨ trimStr r = ['-'] ∨ trimStr r = ['-', '-']) :
    cleanAmountXls (some (XCell.str r)) = none := by
  rw [cleanAmountXls]
  dsimp only
  split
  · rfl
  · rw [if_pos]
    rcases h with h | h | h <;> rw [h] <;> simp

/-- The XLS cleaner yields none on digit-free string input. -/
lemma cleanAmountXls_none_of_noDigits {r : Str} (nd : noDigits r) :
    cleanAmountXls (some (XCell.str r)) = none := by
  rw [cleanAmountXls]
  dsimp only
  split
  · rfl
  · split
    · rfl
    · have ndt : noDigits ((trimStr r).filter
        (fun c => !(isCurrencySym c || isAsciiLetter c || isWs c))) :=
        noDigits_filter _ (noDigits_trim nd)
      rw [jsParseFloat_none_of_noDigits (noDigits_decimalNormalize
        (noDigits_parenStrip _ ndt))]

/-- C5 corrected: all three amount cleaners return none on empty, lone
dash, or non-numeric (digit-free) input, and the PDF cleaner never
returns 0 — but the CSV and spreadsheet cleaners do return a parsed 0
(zero rows are instead rejected by their row parsers). -/
theorem C5_amount_cleaners :
    (∀ s : Str, pdfStripped s = [] ∨ pdfStripped s = ['-'] ∨ pdfStripped s = ['-', '-'] →
      parseAmount s = none) ∧
    (∀ s : Str, noDigits s → parseAmount s = none) ∧
    (∀ (s : Str) (q : ℚ), parseAmount s = some q → q ≠ 0) ∧
    cleanAmountCsv none = none ∧
    (∀ r : Str, trimStr r = [] ∨ trimStr r = ['-'] ∨ trimStr r = ['-', '-'] ∨
      lowerStr (trimStr r) = "null".data → cleanAmountCsv (some r) = none) ∧
    (∀ r : Str, noDigits r → cleanAmountCsv (some r) = none) ∧
    cleanAmountXls none = none ∧
    cleanAmountXls (some (XCell.num 0)) = none ∧
    (∀ r : Str, trimStr r = [] ∨ trimStr r = ['-'] ∨ trimStr r = ['-', '-'] →
      cleanAmountXls (some (XCell.str r)) = none) ∧
    (∀ r : Str, noDigits r → cleanAmountXls (some (XCell.str r)) = none) :=
  ⟨fun _ h => parseAmount_none_of_degenerate h,
   fun _ nd => parseAmount_none_of_noDigits nd,
   fun _ _ h => parseAmount_ne_zero h,
   rfl,
   fun _ h => cleanAmountCsv_none_of_degenerate h,
   fun _ nd => cleanAmountCsv_none_of_noDigits nd,
   rfl,
   by with_unfolding_all decide,
   fun _ h => cleanAmountXls_none_of_degenerate h,
   fun _ nd => cleanAmountXls_none_of_noDigits nd⟩

/-- C5 witness: the corrected statement applied to concrete inputs. -/
theorem C5_witness :
    parseAmount "--".data = none ∧ parseAmount "abc".data = none ∧
    cleanAmountCsv (some " - ".data) = none ∧
    cleanAmountXls (some (XCell.str "xyz".data)) = none :=
  ⟨C5_amount_cleaners.1 "--".data (by decide),
   C5_amount_cleaners.2.1 "abc".data (by unfold noDigits; decide),
   C5_amount_cleaners.2.2.2.2.1 " - ".data (by decide),
   C5_amount_cleaners.2.2.2.2.2.2.2.2.2 "xyz".data (by unfold noDigits; decide)⟩

/-- C5 counterexample: the CSV and spreadsheet cleaners return a parsed
value of exactly 0 instead of none, refuting the claim for two of the
three cleaners. -/
theorem C5_counterexample :
    cleanAmountCsv (some ['0']) = some 0 ∧
    cleanAmountXls (some (XCell.str ['0'])) = some 0 := by
  constructor <;> with_unfolding_all decide


/-- C10: a transaction list with fewer than 3 elements is returned
unchanged by the balance validator, whatever its balances say —
correction is gated on list length in addition to the half-with-balance
condition. -/
theorem C10_short_list_unchanged (ts : List Txn) (h : ts.length < 3) :
    validateWithBalance ts = ts := by
  unfold validateWithBalance
  rw [if_pos h]

/-- C10 witness: a two-element list whose falling balance contradicts
the recorded income types is still returned unchanged. -/
theorem C10_witness :
    ([c10a, c10b] : List Txn).length < 3 ∧ validateWithBalance [c10a, c10b] = [c10a, c10b] :=
  ⟨by decide, C10_short_list_unchanged [c10a, c10b] (by decide)⟩

/-- C9 as stated is false: with balances [100, 150, 120] and types all
income, a third amount of 29.9 (within 1% + 0.02 of the 30 delta) is
kept as -29.9, not replaced by -30. -/
theorem C9_counterexample :
    [c9t1, c9t2, c9t3].map Txn.balance = [some 100, some 150, some 120] ∧
    [c9t1, c9t2, c9t3].map Txn.type = [TxnType.income, TxnType.income, TxnType.income] ∧
    validateWithBalance [c9t1, c9t2, c9t3] ≠
      [c9t1, c9t2, { c9t3 with type := TxnType.expense, amount := -30 }] := by
  refine ⟨rfl, rfl, ?_⟩
  with_unfolding_all decide

/-- C9 amended: with balances [100, 150, 120], types all income, and
recorded amounts matching the balance deltas (second amount 50, third
amount 30), the validator flips the third transaction to an expense of
-30 and leaves the first two untouched. -/
theorem C9_balance_example (t1 t2 t3 : Txn)
    (hb1 : t1.balance = some 100) (hb2 : t2.balance = some 150) (hb3 : t3.balance = some 120)
    (ht2 : t2.type = TxnType.income) (ht3 : t3.type = TxnType.income)
    (ha2 : t2.amount = 50) (ha3 : t3.amount = 30) :
    validateWithBalance [t1, t2, t3] =
      [t1, t2, { t3 with type := TxnType.expense, amount := -30 }] := by
  obtain ⟨i2, d2, de2, a2, c2, ty2, b2, o2⟩ := t2
  obtain ⟨i3, d3, de3, a3, c3, ty3, b3, o3⟩ := t3
  simp only [Txn.balance, Txn.type, Txn.amount] at hb2 hb3 ht2 ht3 ha2 ha3
  subst hb2 hb3 ht2 ht3 ha2 ha3
  unfold validateWithBalance
  simp only [List.length_cons, List.length_nil]
  norm_num [List.filter, hb1]
  unfold vwbLoop
  simp [hb1]
  norm_num [vwbStep, vwbFlip, vwbAdjust]
  unfold vwbLoop
  simp
  norm_num [vwbStep, vwbFlip, vwbAdjust]
  unfold vwbLoop
  simp

/-- C9 witness: the amended statement applied to a concrete list. -/
theorem C9_witness :
    c9t2.amount = 50 ∧ c9t3w.amount = 30 ∧
    validateWithBalance [c9t1, c9t2, c9t3w] =
      [c9t1, c9t2, { c9t3w with type := TxnType.expense, amount := -30 }] :=
  ⟨rfl, rfl, C9_balance_example c9t1 c9t2 c9t3w rfl rfl rfl rfl rfl rfl rfl⟩

/-- C3 corrected: when the headers yield no usable column mapping, only
the CSV path aborts with a descriptive error; the spreadsheet path
returns an empty successful result for the sheet, and the PDF path,
whose column strategy finds no header row, falls back to the
text-heuristic strategy instead of aborting. -/
theorem C3_unusable_mapping :
    (∀ (native : Str → Option JsDate) (ids : Nat → Str) (now : ℚ) (fileName : Str)
       (headers : List Str) (rows : List Row), rows ≠ [] →
       (detectColumns headers).dateCol = none →
       parseCSV native ids now fileName headers rows =
         Except.error ("Could not find a date column. Headers found: ".data ++
           joinSep ", ".data headers)) ∧
    (∀ (native : Str → Option JsDate) (ids : Nat → Str) (now : ℚ) (fileName : Str)
       (headers : List Str) (rows : List Row) (dc : Str), rows ≠ [] →
       (detectColumns headers).dateCol = some dc →
       (detectColumns headers).amountCol = none →
       (detectColumns headers).debitCol = none →
       (detectColumns headers).creditCol = none →
       parseCSV native ids now fileName headers rows =
         Except.error ("Could not find amount/debit/credit columns. Headers found: ".data ++
           joinSep ", ".data headers)) ∧
    (∀ (native : Str → Option JsDate) (ids : Nat → Str) (first : XRow) (rest : List XRow),
       ((detectColumnsXls (first.map (fun p => p.1))).dateCol = none ∨
        ((detectColumnsXls (first.map (fun p => p.1))).amountCol = none ∧
         (detectColumnsXls (first.map (fun p => p.1))).debitCol = none ∧
         (detectColumnsXls (first.map (fun p => p.1))).creditCol = none)) →
       parseSheet native ids (first :: rest) = ([], none)) ∧
    (∀ (native : Str → Option JsDate) (ids1 ids2 : Nat → Str) (lines : List PdfLine),
       findHeaderRow lines = none →
       columnBasedParse native ids1 lines = [] ∧
       pdfPipeline native ids1 ids2 lines =
         validateWithBalance (textBasedParse native ids2 lines)) := by
  refine ⟨?_, ?_, ?_, ?_⟩
  · intro native ids now fileName headers rows hrows hdc
    rw [parseCSV]
    rw [if_neg (by simpa using hrows)]
    dsimp only
    rw [hdc]
  · intro native ids now fileName headers rows dc hrows hdc ha hd hc
    rw [parseCSV]
    rw [if_neg (by simpa using hrows)]
    dsimp only
    rw [hdc]
    dsimp only
    rw [if_pos (by rw [ha, hd, hc]; rfl)]
  · intro native ids first rest h
    rw [parseSheet]
    dsimp only
    rw [if_pos]
    rcases h with h | ⟨h1, h2, h3⟩
    · rw [h]; rfl
    · rw [h1, h2, h3]
      simp
  · intro native ids1 ids2 lines h
    have hcb : columnBasedParse native ids1 lines = [] := by
      rw [columnBasedParse, h]
    refine ⟨hcb, ?_⟩
    rw [pdfPipeline]
    dsimp only
    rw [hcb]
    rcases hfb : textBasedParse native ids2 lines with _ | ⟨t, ts⟩ <;> simp

/-- C3 witness: the CSV abort and the two mapping-failure hypotheses at
concrete inputs. -/
theorem C3_witness :
    parseCSV nativeNone idsDemoA 0 ['f'] badHeaders [demoRowCredit] =
      Except.error ("Could not find a date column. Headers found: ".data ++
        joinSep ", ".data badHeaders) ∧
    parseSheet nativeNone idsDemoA [demoXRowBad] = ([], none) ∧
    columnBasedParse nativeNone idsDemoA demoTextLines = [] :=
  ⟨C3_unusable_mapping.1 nativeNone idsDemoA 0 ['f'] badHeaders [demoRowCredit]
      (by decide) (by decide),
   C3_unusable_mapping.2.2.1 nativeNone idsDemoA demoXRowBad [] (Or.inl (by decide)),
   (C3_unusable_mapping.2.2.2 nativeNone idsDemoA idsDemoA demoTextLines (by decide)).1⟩

/-- C3 counterexample: with headers mapping to no usable columns, the
spreadsheet path returns an empty successful result (no error), and the
headerless PDF path returns transactions from the text fallback (so it
neither errors nor returns an empty list). -/
theorem C3_counterexample :
    parseSheet nativeNone idsDemoA [demoXRowBad] = ([], none) ∧
    findHeaderRow demoTextLines = none ∧
    pdfPipeline nativeNone idsDemoA idsDemoB demoTextLines ≠ [] := by
  refine ⟨by with_unfolding_all decide, by with_unfolding_all decide, ?_⟩
  with_unfolding_all decide


lemma signExp {dv : ℚ} (hdv : ¬ dv = 0) :
    -|dv| ≠ 0 ∧ (0 < -|dv| ↔ TxnType.expense = TxnType.income) := by
  have h1 : 0 < |dv| := abs_pos.mpr hdv
  constructor
  · intro h2
    rw [neg_eq_zero] at h2
    exact hdv (abs_eq_zero.mp h2)
  · constructor
    · intro h2; linarith
    · intro h2; simp at h2

lemma signInc {cv : ℚ} (hcv : ¬ cv = 0) :
    |cv| ≠ 0 ∧ (0 < |cv| ↔ TxnType.income = TxnType.income) := by
  have h1 : 0 < |cv| := abs_pos.mpr hcv
  exact ⟨ne_of_gt h1, by simp [h1]⟩

lemma signIte {q : ℚ} (hq : ¬ q = 0) :
    q ≠ 0 ∧ (0 < q ↔ (if q ≥ 0 then TxnType.income else TxnType.expense) = TxnType.income) := by
  refine ⟨hq, ?_⟩
  split_ifs with hge
  · simp only [iff_true]
    rcases lt_or_eq_of_le hge with h | h
    · exact h
    · exact absurd h.symm hq
  · constructor
    · intro h2; exact absurd (le_of_lt h2) hge
    · intro h2; simp at h2

lemma signPos {q : ℚ} (hq : ¬ q = 0) (hge : q ≥ 0) :
    q ≠ 0 ∧ (0 < q ↔ TxnType.income = TxnType.income) :=
  ⟨hq, by simp [lt_of_le_of_ne hge (Ne.symm hq)]⟩

lemma signNeg {q : ℚ} (hq : ¬ q = 0) (hge : ¬ q ≥ 0) :
    q ≠ 0 ∧ (0 < q ↔ TxnType.expense = TxnType.income) := by
  refine ⟨hq, ?_⟩
  constructor
  · intro h2; exact absurd (le_of_lt h2) hge
  · intro h2; simp at h2

lemma csvResolveAmount_sign {row : Row} {m : ColumnMapping} {a : ℚ} {ty : TxnType}
    (h : csvResolveAmount row m = some (a, ty)) :
    a ≠ 0 ∧ (0 < a ↔ ty = TxnType.income) := by
  unfold csvResolveAmount at h
  dsimp only at h
  repeat' split at h
  all_goals try exact Option.noConfusion h
  all_goals rw [Option.some_inj] at h
  all_goals injection h with h1 h2
  all_goals subst h1
  all_goals subst h2
  all_goals first
    | exact signExp (by assumption)
    | exact signInc (by assumption)
    | exact signIte (by assumption)
    | exact signPos (by assumption) (by assumption)
    | exact signNeg (by assumption) (by assumption)

lemma xlsResolveAmount_sign {row : XRow} {m : ColumnMapping} {a : ℚ} {ty : TxnType}
    (h : xlsResolveAmount row m = some (a, ty)) :
    a ≠ 0 ∧ (0 < a ↔ ty = TxnType.income) := by
  unfold xlsResolveAmount at h
  dsimp only at h
  repeat' split at h
  all_goals try exact Option.noConfusion h
  all_goals rw [Option.some_inj] at h
  all_goals injection h with h1 h2
  all_goals subst h1
  all_goals subst h2
  all_goals first
    | exact signExp (by assumption)
    | exact signInc (by assumption)
    | exact signIte (by assumption)
    | exact signPos (by assumption) (by assumption)
    | exact signNeg (by assumption) (by assumption)

lemma pSignNegD {d : ℚ} (hd : d > 0) :
    (0 < -d ↔ TxnType.expense = TxnType.income) := by
  constructor
  · intro h2; linarith
  · intro h2; simp at h2

lemma pSignPosC {q : ℚ} (hq : q > 0) :
    (0 < q ↔ TxnType.income = TxnType.income) := by simp [hq]

lemma pSignAbsNeg {q : ℚ} :
    (0 < -|q| ↔ TxnType.expense = TxnType.income) := by
  constructor
  · intro h2; have h3 := abs_nonneg q; linarith
  · intro h2; simp at h2

lemma pSignAbsPos {q : ℚ} (hq : ¬ |q| = 0) :
    (0 < |q| ↔ TxnType.income = TxnType.income) := by
  simp [lt_of_le_of_ne (abs_nonneg q) (Ne.symm hq)]

lemma pSignItePos {q : ℚ} (hq : ¬ q = 0) (hge : q ≥ 0) :
    (0 < q ↔ TxnType.income = TxnType.income) := by
  simp [lt_of_le_of_ne hge (Ne.symm hq)]

lemma pSignIteNeg {q : ℚ} (hq : ¬ q = 0) (hge : ¬ q ≥ 0) :
    (0 < q ↔ TxnType.expense = TxnType.income) := by
  constructor
  · intro h2; exact absurd (le_of_lt h2) hge
  · intro h2; simp at h2

lemma pdfResolveAmount_sign {hd hc ha ht : Bool} {c : Cand} {a : ℚ} {ty : TxnType}
    (h : pdfResolveAmount hd hc ha ht c = some (a, ty)) (hz : a ≠ 0) :
    0 < a ↔ ty = TxnType.income := by
  unfold pdfResolveAmount at h
  dsimp only at h
  repeat' split at h
  all_goals try exact Option.noConfusion h
  all_goals rw [Option.some_inj] at h
  all_goals injection h with h1 h2
  all_goals subst h1
  all_goals subst h2
  all_goals first
    | exact pSignNegD (by assumption)
    | exact pSignPosC (by assumption)
    | exact pSignAbsNeg
    | exact pSignAbsPos (by assumption)
    | exact pSignItePos (by assumption) (by assumption)
    | exact pSignIteNeg (by assumption) (by assumption)


lemma validateYmd_year {p : Ymd} {d : JsDate}
    (h : validateYmd p = some d) : 1990 ≤ d.year ∧ d.year ≤ 2100 := by
  unfold validateYmd at h
  dsimp only at h
  split at h
  · exact Option.noConfusion h
  split at h
  · exact Option.noConfusion h
  split at h
  · exact Option.noConfusion h
  rename_i hmo hday hyr
  split at h
  · rw [Option.some_inj] at h
    subst h
    rename_i hrt
    simp only [Bool.or_eq_true, Bool.and_eq_true, decide_eq_true_eq, not_or] at hyr hrt
    rw [hrt.1.1]
    omega
  · exact Option.noConfusion h

lemma firstValid_year {s : Str} {ps : List (Str → Option Ymd)} {d : JsDate}
    (h : firstValid s ps = some d) : 1990 ≤ d.year ∧ d.year ≤ 2100 := by
  induction ps with
  | nil => exact Option.noConfusion h
  | cons p rest ih =>
      unfold firstValid at h
      split at h
      · split at h
        · rw [Option.some_inj] at h
          subst h
          exact validateYmd_year (by assumption)
        · exact ih h
      · exact ih h

lemma parseDate_year {native : Str → Option JsDate} {raw : Str} {d : JsDate}
    (h : parseDate native raw = some d) : 1990 ≤ d.year ∧ d.year ≤ 2100 := by
  unfold parseDate at h
  dsimp only at h
  repeat' split at h
  all_goals try exact Option.noConfusion h
  · rw [Option.some_inj] at h
    subst h
    exact firstValid_year (by assumption)
  · rw [Option.some_inj] at h
    subst h
    rename_i hy
    simp only [Bool.and_eq_true, decide_eq_true_eq] at hy
    exact hy

lemma tryFrags_year {native : Str → Option JsDate} {text : Str} {res : List RM} {d : JsDate}
    (h : tryFrags native text res = some d) : 1990 ≤ d.year ∧ d.year ≤ 2100 := by
  induction res with
  | nil => exact Option.noConfusion h
  | cons re rest ih =>
      unfold tryFrags at h
      split at h
      · split at h
        · rw [Option.some_inj] at h
          subst h
          exact parseDate_year (by assumption)
        · exact ih h
      · exact ih h

lemma extractDateFromText_year {native : Str → Option JsDate} {text : Str} {d : JsDate}
    (h : extractDateFromText native text = some d) : 1990 ≤ d.year ∧ d.year ≤ 2100 := by
  unfold extractDateFromText at h
  split at h
  · exact Option.noConfusion h
  split at h
  · rw [Option.some_inj] at h
    subst h
    exact parseDate_year (by assumption)
  · exact tryFrags_year h

lemma excelSerialToDate_year {serial : ℚ} {d : JsDate}
    (h : excelSerialToDate serial = some d) : 1990 ≤ d.year ∧ d.year ≤ 2100 := by
  unfold excelSerialToDate at h
  dsimp only at h
  split at h
  · exact Option.noConfusion h
  split at h
  · exact Option.noConfusion h
  rw [Option.some_inj] at h
  subst h
  rename_i hy
  simp only [Bool.or_eq_true, decide_eq_true_eq, not_or, not_lt] at hy
  exact hy


lemma invariant_of_sign {a : ℚ} {ty : TxnType} (hz : a ≠ 0)
    (hs : 0 < a ↔ ty = TxnType.income) :
    (0 < a ↔ ty = TxnType.income) ∧ (a < 0 ↔ ty = TxnType.expense) ∧ a ≠ 0 := by
  refine ⟨hs, ?_, hz⟩
  cases ty
  · have hpos : 0 < a := hs.mpr rfl
    constructor
    · intro h2; linarith
    · intro h2; exact TxnType.noConfusion h2
  · have hneg : a < 0 := by
      rcases lt_trichotomy a 0 with h | h | h
      · exact h
      · exact absurd h hz
      · exact absurd (hs.mp h) (fun hh => TxnType.noConfusion hh)
    constructor
    · intro h2; rfl
    · intro h2; exact hneg

lemma csvParseRow_invariant {native : Str → Option JsDate} {uuid : Str} {row : Row}
    {m : ColumnMapping} {o : DateOrder} {t : Txn}
    (h : csvParseRow native uuid row m o = some t) : txnInvariant t := by
  unfold csvParseRow at h
  dsimp only at h
  split at h
  · exact Option.noConfusion h
  rename_i date hdate
  split at h
  · exact Option.noConfusion h
  rename_i amount ty hres
  rw [Option.some_inj] at h
  subst h
  unfold txnInvariant
  dsimp only
  obtain ⟨hz, hs⟩ := csvResolveAmount_sign hres
  obtain ⟨hy1, hy2⟩ := parseDate_year hdate
  obtain ⟨h1, h2, h3⟩ := invariant_of_sign hz hs
  exact ⟨h1, h2, h3, hy1, hy2⟩

lemma xlsDate_year {native : Str → Option JsDate} {rawDate : Option XCell} {d : JsDate}
    (h : (match rawDate with
          | some (XCell.num serial) => excelSerialToDate serial
          | _ => parseDate native (cellToStr rawDate)) = some d) :
    1990 ≤ d.year ∧ d.year ≤ 2100 := by
  rcases rawDate with _ | c
  · exact parseDate_year h
  · rcases c with q | str
    · exact excelSerialToDate_year h
    · exact parseDate_year h

lemma xlsParseRow_invariant {native : Str → Option JsDate} {uuid : Str} {row : XRow}
    {m : ColumnMapping} {t : Txn}
    (h : xlsParseRow native uuid row m = some t) : txnInvariant t := by
  unfold xlsParseRow at h
  dsimp only at h
  split at h
  · exact Option.noConfusion h
  rename_i date hdate
  split at h
  · exact Option.noConfusion h
  rename_i amount ty hres
  rw [Option.some_inj] at h
  subst h
  unfold txnInvariant
  dsimp only
  obtain ⟨hz, hs⟩ := xlsResolveAmount_sign hres
  obtain ⟨hy1, hy2⟩ := xlsDate_year hdate
  obtain ⟨h1, h2, h3⟩ := invariant_of_sign hz hs
  exact ⟨h1, h2, h3, hy1, hy2⟩

lemma csvRowsLoop_invariant {native : Str → Option JsDate} {ids : Nat → Str}
    {m : ColumnMapping} {o : DateOrder} (rows : List Row) (k : Nat) :
    ∀ t ∈ csvRowsLoop native ids m o rows k, txnInvariant t := by
  induction rows generalizing k with
  | nil => intro t ht; exact absurd ht (List.not_mem_nil t)
  | cons r rest ih =>
      intro t ht
      unfold csvRowsLoop at ht
      split at ht
      · rcases List.mem_cons.mp ht with h2 | h2
        · subst h2; exact csvParseRow_invariant (by assumption)
        · exact ih _ _ h2
      · exact ih _ _ ht

lemma xlsRowsLoop_invariant {native : Str → Option JsDate} {ids : Nat → Str}
    {m : ColumnMapping} (rows : List XRow) (k : Nat) :
    ∀ t ∈ xlsRowsLoop native ids m rows k, txnInvariant t := by
  induction rows generalizing k with
  | nil => intro t ht; exact absurd ht (List.not_mem_nil t)
  | cons r rest ih =>
      intro t ht
      unfold xlsRowsLoop at ht
      split at ht
      · rcases List.mem_cons.mp ht with h2 | h2
        · subst h2; exact xlsParseRow_invariant (by assumption)
        · exact ih _ _ h2
      · exact ih _ _ ht

lemma parseCSV_invariant {native : Str → Option JsDate} {ids : Nat → Str} {now : ℚ}
    {fileName : Str} {headers : List Str} {rows : List Row} {res : CSVParseResult}
    (h : parseCSV native ids now fileName headers rows = Except.ok res) :
    ∀ t ∈ res.statement.transactions, txnInvariant t := by
  unfold parseCSV at h
  dsimp only at h
  split at h
  · exact Except.noConfusion h
  split at h
  · exact Except.noConfusion h
  split at h
  · exact Except.noConfusion h
  rw [Except.ok.injEq] at h
  subst h
  intro t ht
  exact csvRowsLoop_invariant _ _ t ht

lemma parseSheet_invariant {native : Str → Option JsDate} {ids : Nat → Str}
    {rawRows : List XRow} :
    ∀ t ∈ (parseSheet native ids rawRows).1, txnInvariant t := by
  intro t ht
  unfold parseSheet at ht
  rcases rawRows with _ | ⟨first, rest⟩
  · exact absurd ht (List.not_mem_nil t)
  · dsimp only at ht
    split at ht
    · exact absurd ht (List.not_mem_nil t)
    · exact xlsRowsLoop_invariant _ _ t ht


lemma memOfGet {α : Type} {l : List α} {n : Nat} {a : α} (h : l[n]? = some a) : a ∈ l := by
  obtain ⟨hn, he⟩ := List.getElem?_eq_some.mp h
  exact he ▸ List.getElem_mem hn

lemma procDateItem_date (native : Str → Option JsDate) (cols : List ColDef) (ht : Bool)
    (c : Cand) (it : PdfItem) : (procDateItem native cols ht c it).date = c.date := by
  unfold procDateItem
  dsimp only
  repeat' split
  all_goals rfl

lemma procContItem_date (cols : List ColDef) (c : Cand) (it : PdfItem) :
    (procContItem cols c it).date = c.date := by
  unfold procContItem
  repeat' split
  all_goals rfl

lemma foldl_procDateItem_date (native : Str → Option JsDate) (cols : List ColDef)
    (ht : Bool) (items : List PdfItem) (c : Cand) :
    (items.foldl (procDateItem native cols ht) c).date = c.date := by
  induction items generalizing c with
  | nil => rfl
  | cons it rest ih =>
      rw [List.foldl_cons, ih, procDateItem_date]

lemma foldl_procContItem_date (cols : List ColDef) (items : List PdfItem) (c : Cand) :
    (items.foldl (procContItem cols) c).date = c.date := by
  induction items generalizing c with
  | nil => rfl
  | cons it rest ih =>
      rw [List.foldl_cons, ih, procContItem_date]

lemma finalizeTxn_ok {hd hc ha ht : Bool} {uuid : Str} {c : Cand} {t : Txn}
    (h : finalizeTxn hd hc ha ht uuid c = some t)
    (hy : 1990 ≤ c.date.year ∧ c.date.year ≤ 2100) :
    txnInvariant t ∧ t.originalText.length ≤ 200 := by
  unfold finalizeTxn at h
  dsimp only at h
  split at h
  · exact Option.noConfusion h
  rename_i amount ty hres
  split at h
  · exact Option.noConfusion h
  rename_i hz
  rw [Option.some_inj] at h
  subst h
  unfold txnInvariant
  dsimp only
  have hs := pdfResolveAmount_sign hres hz
  obtain ⟨h1, h2, h3⟩ := invariant_of_sign hz hs
  refine ⟨⟨h1, h2, h3, hy.1, hy.2⟩, ?_⟩
  simp [List.length_take]

lemma cbpFinalize_ok {ids : Nat → Str} {hd hc ha ht : Bool} {seen : List Str}
    {txns : List Txn} {cur : Option Cand} {k : Nat}
    (hacc : ∀ t ∈ txns, txnInvariant t ∧ t.originalText.length ≤ 200)
    (hcur : ∀ c, cur = some c → 1990 ≤ c.date.year ∧ c.date.year ≤ 2100) :
    ∀ t ∈ (cbpFinalize ids hd hc ha ht seen txns cur k).2.1,
      txnInvariant t ∧ t.originalText.length ≤ 200 := by
  intro t htm
  unfold cbpFinalize at htm
  rcases cur with _ | c
  · exact hacc t htm
  · dsimp only at htm
    split at htm
    · exact hacc t htm
    rename_i t0 hfin
    split at htm
    · exact hacc t htm
    · dsimp only at htm
      rcases List.mem_append.mp htm with h2 | h2
      · exact hacc t h2
      · rw [List.mem_singleton] at h2
        subst h2
        exact finalizeTxn_ok hfin (hcur c rfl)

lemma cbpLoop_ok {native : Str → Option JsDate} {ids : Nat → Str} {cols : List ColDef}
    {hd hc ha ht : Bool} (lines : List PdfLine) (seen : List Str) (txns : List Txn)
    (cur : Option Cand) (k : Nat)
    (hacc : ∀ t ∈ txns, txnInvariant t ∧ t.originalText.length ≤ 200)
    (hcur : ∀ c, cur = some c → 1990 ≤ c.date.year ∧ c.date.year ≤ 2100) :
    ∀ t ∈ cbpLoop native ids cols hd hc ha ht lines seen txns cur k,
      txnInvariant t ∧ t.originalText.length ≤ 200 := by
  induction lines generalizing seen txns cur k with
  | nil =>
      intro t htm
      unfold cbpLoop at htm
      exact cbpFinalize_ok hacc hcur t htm
  | cons l rest ih =>
      intro t htm
      unfold cbpLoop at htm
      dsimp only at htm
      split at htm
      · exact ih _ _ _ _ hacc hcur t htm
      split at htm
      · rename_i date hdate
        refine ih _ _ _ _ ?_ ?_ t htm
        · exact cbpFinalize_ok hacc hcur
        · intro c2 hc2
          rw [Option.some_inj] at hc2
          subst hc2
          rw [foldl_procDateItem_date]
          exact extractDateFromText_year hdate
      · split at htm
        · rename_i c
          refine ih _ _ _ _ hacc ?_ t htm
          intro c2 hc2
          rw [Option.some_inj] at hc2
          subst hc2
          dsimp only
          rw [foldl_procContItem_date]
          exact hcur c rfl
        · exact ih _ _ _ _ hacc (fun c2 hc2 => Option.noConfusion hc2) t htm

lemma columnBasedParse_ok {native : Str → Option JsDate} {ids : Nat → Str}
    {lines : List PdfLine} :
    ∀ t ∈ columnBasedParse native ids lines,
      txnInvariant t ∧ t.originalText.length ≤ 200 := by
  intro t htm
  unfold columnBasedParse at htm
  split at htm
  · exact absurd htm (List.not_mem_nil t)
  · dsimp only at htm
    exact cbpLoop_ok _ _ _ _ _ (fun t2 ht2 => absurd ht2 (List.not_mem_nil t2))
      (fun c2 hc2 => Option.noConfusion hc2) t htm


lemma tbpCollect_year {native : Str → Option JsDate} (lines : List PdfLine) :
    ∀ e ∈ tbpCollect native lines, 1990 ≤ e.date.year ∧ e.date.year ≤ 2100 := by
  induction lines with
  | nil => intro e he; exact absurd he (List.not_mem_nil e)
  | cons l rest ih =>
      intro e he
      unfold tbpCollect at he
      dsimp only at he
      split at he
      · exact ih e he
      rename_i date hdate
      split at he
      · exact ih e he
      · rcases List.mem_cons.mp he with h2 | h2
        · subst h2
          exact extractDateFromText_year hdate
        · exact ih e h2

lemma sign_of_build {fa : ℚ} (hfa : 0 < fa) (ty : TxnType) :
    (0 < (if ty = TxnType.expense then -fa else fa) ↔ ty = TxnType.income) ∧
    ((if ty = TxnType.expense then -fa else fa) < 0 ↔ ty = TxnType.expense) ∧
    (if ty = TxnType.expense then -fa else fa) ≠ 0 := by
  cases ty
  · rw [if_neg (fun hh => TxnType.noConfusion hh)]
    refine ⟨⟨fun h2 => rfl, fun h2 => hfa⟩, ?_, ne_of_gt hfa⟩
    constructor
    · intro h2; linarith
    · intro h2; exact TxnType.noConfusion h2
  · rw [if_pos rfl]
    have hneg : -fa < 0 := by linarith
    refine ⟨?_, ⟨fun h2 => rfl, fun h2 => hneg⟩, ne_of_lt hneg⟩
    constructor
    · intro h2; linarith
    · intro h2; exact TxnType.noConfusion h2

lemma btBuild_ok {ids : Nat → Str} (entries : List RawEntry) (prev : Option ℚ)
    (seen : List Str) (txns : List Txn) (k : Nat)
    (hacc : ∀ t ∈ txns, txnInvariant t ∧ t.originalText.length ≤ 200)
    (hent : ∀ e ∈ entries, 1990 ≤ e.date.year ∧ e.date.year ≤ 2100) :
    ∀ t ∈ btBuild ids prev entries seen txns k,
      txnInvariant t ∧ t.originalText.length ≤ 200 := by
  induction entries generalizing prev seen txns k with
  | nil => intro t htm; unfold btBuild at htm; exact hacc t htm
  | cons e rest ih =>
      have hent1 : ∀ e2 ∈ rest, 1990 ≤ e2.date.year ∧ e2.date.year ≤ 2100 :=
        fun e2 he2 => hent e2 (List.mem_cons_of_mem e he2)
      intro t htm
      unfold btBuild at htm
      dsimp only at htm
      split at htm
      · exact ih _ _ _ _ hacc hent1 t htm
      rename_i pb
      split at htm
      · exact ih _ _ _ _ hacc hent1 t htm
      rename_i hsmall
      split at htm
      · exact ih _ _ _ _ hacc hent1 t htm
      · refine ih _ _ _ _ ?_ hent1 t htm
        intro t2 ht2
        rcases List.mem_append.mp ht2 with h2 | h2
        · exact hacc t2 h2
        · rw [List.mem_singleton] at h2
          subst h2
          have hfa := lt_of_lt_of_le (show (0 : ℚ) < 1 / 100 by norm_num)
            (le_of_not_lt hsmall)
          obtain ⟨s1, s2, s3⟩ := sign_of_build hfa
            (if (e.amounts.getLast?.getD 0) - pb ≥ 0 then TxnType.income else TxnType.expense)
          obtain ⟨hy1, hy2⟩ := hent e (List.mem_cons_self e rest)
          refine ⟨⟨s1, s2, s3, hy1, hy2⟩, ?_⟩
          simp [List.length_take]

lemma kwBuild_ok {ids : Nat → Str} (entries : List RawEntry) (seen : List Str)
    (txns : List Txn) (k : Nat)
    (hacc : ∀ t ∈ txns, txnInvariant t ∧ t.originalText.length ≤ 200)
    (hent : ∀ e ∈ entries, 1990 ≤ e.date.year ∧ e.date.year ≤ 2100) :
    ∀ t ∈ kwBuild ids entries seen txns k,
      txnInvariant t ∧ t.originalText.length ≤ 200 := by
  induction entries generalizing seen txns k with
  | nil => intro t htm; unfold kwBuild at htm; exact hacc t htm
  | cons e rest ih =>
      have hent1 : ∀ e2 ∈ rest, 1990 ≤ e2.date.year ∧ e2.date.year ≤ 2100 :=
        fun e2 he2 => hent e2 (List.mem_cons_of_mem e he2)
      intro t htm
      unfold kwBuild at htm
      dsimp only at htm
      split at htm
      · exact ih _ _ _ hacc hent1 t htm
      rename_i hsmall
      split at htm
      · exact ih _ _ _ hacc hent1 t htm
      · refine ih _ _ _ ?_ hent1 t htm
        intro t2 ht2
        rcases List.mem_append.mp ht2 with h2 | h2
        · exact hacc t2 h2
        · rw [List.mem_singleton] at h2
          subst h2
          have hfa := lt_of_lt_of_le (show (0 : ℚ) < 1 / 100 by norm_num)
            (le_of_not_lt hsmall)
          obtain ⟨s1, s2, s3⟩ := sign_of_build hfa
            (if rmTest creditWordsRM e.text && !rmTest debitWordsRM e.text then TxnType.income
             else TxnType.expense)
          obtain ⟨hy1, hy2⟩ := hent e (List.mem_cons_self e rest)
          refine ⟨⟨s1, s2, s3, hy1, hy2⟩, ?_⟩
          simp [List.length_take]

lemma textBasedParse_ok {native : Str → Option JsDate} {ids : Nat → Str}
    {lines : List PdfLine} :
    ∀ t ∈ textBasedParse native ids lines,
      txnInvariant t ∧ t.originalText.length ≤ 200 := by
  intro t htm
  unfold textBasedParse at htm
  dsimp only at htm
  have hent := @tbpCollect_year native lines
  have hnil : ∀ t2 ∈ ([] : List Txn), txnInvariant t2 ∧ t2.originalText.length ≤ 200 :=
    fun t2 ht2 => absurd ht2 (List.not_mem_nil t2)
  split at htm
  · split at htm
    · exact btBuild_ok _ _ _ _ _ hnil hent t htm
    · exact kwBuild_ok _ _ _ _ hnil hent t htm
  · exact kwBuild_ok _ _ _ _ hnil hent t htm


lemma set_ok {res : List Txn} {i : Nat} {x : Txn}
    (hacc : ∀ t ∈ res, txnInvariant t ∧ t.originalText.length ≤ 200)
    (hx : txnInvariant x ∧ x.originalText.length ≤ 200) :
    ∀ t ∈ res.set i x, txnInvariant t ∧ t.originalText.length ≤ 200 := by
  intro t htm
  rcases List.mem_or_eq_of_mem_set htm with h2 | h2
  · exact hacc t h2
  · subst h2; exact hx

lemma flip_ok {curr : Txn} (hc : txnInvariant curr ∧ curr.originalText.length ≤ 200)
    (ety : TxnType) :
    txnInvariant { curr with
      type := ety
      amount := if ety = TxnType.expense then -(|curr.amount|) else |curr.amount| } ∧
    (Txn.originalText { curr with
      type := ety
      amount := if ety = TxnType.expense then -(|curr.amount|) else |curr.amount| }
      ).length ≤ 200 := by
  obtain ⟨⟨q1, q2, hz, hy1, hy2⟩, hlen⟩ := hc
  have hfa : 0 < |curr.amount| := abs_pos.mpr hz
  obtain ⟨s1, s2, s3⟩ := sign_of_build hfa ety
  constructor
  · unfold txnInvariant
    dsimp only
    exact ⟨s1, s2, s3, hy1, hy2⟩
  · dsimp only
    exact hlen

lemma replace_ok {c1 : Txn} (hc : txnInvariant c1 ∧ c1.originalText.length ≤ 200)
    {ta : ℚ} (hta : 1 / 100 < ta) :
    txnInvariant { c1 with
      amount := if c1.type = TxnType.expense then -ta else ta } ∧
    (Txn.originalText { c1 with
      amount := if c1.type = TxnType.expense then -ta else ta }).length ≤ 200 := by
  obtain ⟨⟨q1, q2, hz, hy1, hy2⟩, hlen⟩ := hc
  have hfa : 0 < ta := lt_trans (by norm_num) hta
  obtain ⟨s1, s2, s3⟩ := sign_of_build hfa c1.type
  constructor
  · unfold txnInvariant
    dsimp only
    exact ⟨s1, s2, s3, hy1, hy2⟩
  · dsimp only
    exact hlen

lemma vwbFlip_ok {res : List Txn} {i : Nat} {curr : Txn} {ety : TxnType}
    (hacc : ∀ t ∈ res, txnInvariant t ∧ t.originalText.length ≤ 200)
    (hcurr : curr ∈ res) :
    ∀ t ∈ vwbFlip res i curr ety, txnInvariant t ∧ t.originalText.length ≤ 200 := by
  intro t htm
  unfold vwbFlip at htm
  split at htm
  · exact set_ok hacc (flip_ok (hacc curr hcurr) ety) t htm
  · exact hacc t htm

lemma vwbAdjust_ok {res1 : List Txn} {i : Nat} {curr : Txn} {ta : ℚ}
    (hacc : ∀ t ∈ res1, txnInvariant t ∧ t.originalText.length ≤ 200) :
    ∀ t ∈ vwbAdjust res1 i curr ta, txnInvariant t ∧ t.originalText.length ≤ 200 := by
  intro t htm
  unfold vwbAdjust at htm
  split at htm
  · split at htm
    · rename_i hta
      split at htm
      · rename_i c1 heq
        exact set_ok hacc (replace_ok (hacc c1 (memOfGet heq)) hta) t htm
      · exact hacc t htm
    · exact hacc t htm
  · exact hacc t htm

lemma vwbStep_ok {res : List Txn} {i : Nat} {curr : Txn} {pb cb : ℚ}
    (hacc : ∀ t ∈ res, txnInvariant t ∧ t.originalText.length ≤ 200)
    (hcurr : curr ∈ res) :
    ∀ t ∈ vwbStep res i curr pb cb, txnInvariant t ∧ t.originalText.length ≤ 200 := by
  intro t htm
  unfold vwbStep at htm
  dsimp only at htm
  exact vwbAdjust_ok (vwbFlip_ok hacc hcurr) t htm

lemma vwbLoop_ok (fuel : Nat) (res : List Txn) (i : Nat)
    (hacc : ∀ t ∈ res, txnInvariant t ∧ t.originalText.length ≤ 200) :
    ∀ t ∈ vwbLoop fuel res i, txnInvariant t ∧ t.originalText.length ≤ 200 := by
  induction fuel generalizing res i with
  | zero => intro t htm; exact hacc t htm
  | succ fuel ih =>
      intro t htm
      unfold vwbLoop at htm
      split at htm
      · split at htm
        · split at htm
          · exact ih _ _ hacc t htm
          · exact ih _ _ (vwbStep_ok hacc (memOfGet (by assumption))) t htm
        · exact ih _ _ hacc t htm
      · exact hacc t htm

lemma validateWithBalance_ok {ts : List Txn}
    (hacc : ∀ t ∈ ts, txnInvariant t ∧ t.originalText.length ≤ 200) :
    ∀ t ∈ validateWithBalance ts, txnInvariant t ∧ t.originalText.length ≤ 200 := by
  intro t htm
  unfold validateWithBalance at htm
  split at htm
  · exact hacc t htm
  · dsimp only at htm
    split at htm
    · exact hacc t htm
    · exact vwbLoop_ok _ _ _ hacc t htm

lemma pdfPipeline_ok {native : Str → Option JsDate} {ids1 ids2 : Nat → Str}
    {lines : List PdfLine} :
    ∀ t ∈ pdfPipeline native ids1 ids2 lines,
      txnInvariant t ∧ t.originalText.length ≤ 200 := by
  intro t htm
  unfold pdfPipeline at htm
  dsimp only at htm
  refine validateWithBalance_ok ?_ t htm
  intro t2 ht2
  split at ht2
  · split at ht2
    · exact textBasedParse_ok t2 ht2
    · exact columnBasedParse_ok t2 ht2
  · exact columnBasedParse_ok t2 ht2


/-- C1: every transaction produced by any extraction path — CSV row
parsing, spreadsheet row parsing, PDF column-based parsing, PDF
text-heuristic parsing, and the balance-validated PDF pipeline — has a
strictly positive amount exactly when its type is income, a strictly
negative amount exactly when its type is expense, a nonzero amount, and
a date year in [1990, 2100]. -/
theorem C1_txn_invariant (native : Str → Option JsDate) (ids ids1 ids2 : Nat → Str)
    (now : ℚ) (fileName : Str) (headers : List Str) (rows : List Row)
    (rawRows : List XRow) (lines : List PdfLine) :
    (∀ res, parseCSV native ids now fileName headers rows = Except.ok res →
       ∀ t ∈ res.statement.transactions, txnInvariant t) ∧
    (∀ t ∈ (parseSheet native ids rawRows).1, txnInvariant t) ∧
    (∀ t ∈ columnBasedParse native ids1 lines, txnInvariant t) ∧
    (∀ t ∈ textBasedParse native ids2 lines, txnInvariant t) ∧
    (∀ t ∈ pdfPipeline native ids1 ids2 lines, txnInvariant t) :=
  ⟨fun res h t ht => parseCSV_invariant h t ht,
   fun t ht => parseSheet_invariant t ht,
   fun t ht => (columnBasedParse_ok t ht).1,
   fun t ht => (textBasedParse_ok t ht).1,
   fun t ht => (pdfPipeline_ok t ht).1⟩



lemma abs_build {fa : ℚ} (h : 0 ≤ fa) (ty : TxnType) :
    |if ty = TxnType.expense then -fa else fa| = fa := by
  cases ty
  · rw [if_neg (fun hh => TxnType.noConfusion hh)]
    exact abs_of_nonneg h
  · rw [if_pos rfl, abs_neg]
    exact abs_of_nonneg h

lemma push_keys {txns : List Txn} {t : Txn} {seen : List Str} {key : Str}
    (hkey : keyOf t = key)
    (hseen : ∀ t2 ∈ txns, keyOf t2 ∈ seen)
    (hdist : keyDistinct txns)
    (hnew : key ∉ seen) :
    keyDistinct (txns ++ [t]) ∧ ∀ t2 ∈ txns ++ [t], keyOf t2 ∈ key :: seen := by
  constructor
  · rw [keyDistinct, List.pairwise_append]
    refine ⟨hdist, List.pairwise_singleton _ _, ?_⟩
    intro a ha b hb
    rw [List.mem_singleton] at hb
    subst hb
    intro hEq
    rw [hkey] at hEq
    exact hnew (hEq ▸ hseen a ha)
  · intro t2 ht2
    rcases List.mem_append.mp ht2 with h2 | h2
    · exact List.mem_cons_of_mem _ (hseen t2 h2)
    · rw [List.mem_singleton] at h2
      subst h2
      rw [hkey]
      exact List.mem_cons_self _ _

lemma cbpFinalize_keys {ids : Nat → Str} {hd hc ha ht : Bool} {seen : List Str}
    {txns : List Txn} {cur : Option Cand} {k : Nat}
    (hseen : ∀ t ∈ txns, keyOf t ∈ seen)
    (hdist : keyDistinct txns) :
    keyDistinct (cbpFinalize ids hd hc ha ht seen txns cur k).2.1 ∧
    ∀ t ∈ (cbpFinalize ids hd hc ha ht seen txns cur k).2.1,
      keyOf t ∈ (cbpFinalize ids hd hc ha ht seen txns cur k).1 := by
  unfold cbpFinalize
  rcases cur with _ | c
  · exact ⟨hdist, hseen⟩
  · dsimp only
    split
    · exact ⟨hdist, hseen⟩
    rename_i t0 hfin
    split
    · exact ⟨hdist, hseen⟩
    · rename_i hcont
      dsimp only
      have hnew : keyOf t0 ∉ seen := by
        unfold keyOf
        simpa using hcont
      exact push_keys rfl hseen hdist hnew

lemma cbpLoop_keys {native : Str → Option JsDate} {ids : Nat → Str} {cols : List ColDef}
    {hd hc ha ht : Bool} (lines : List PdfLine) (seen : List Str) (txns : List Txn)
    (cur : Option Cand) (k : Nat)
    (hseen : ∀ t ∈ txns, keyOf t ∈ seen)
    (hdist : keyDistinct txns) :
    keyDistinct (cbpLoop native ids cols hd hc ha ht lines seen txns cur k) := by
  induction lines generalizing seen txns cur k with
  | nil =>
      unfold cbpLoop
      exact (cbpFinalize_keys hseen hdist).1
  | cons l rest ih =>
      unfold cbpLoop
      dsimp only
      split
      · exact ih _ _ _ _ hseen hdist
      split
      · exact ih _ _ _ _ (cbpFinalize_keys hseen hdist).2 (cbpFinalize_keys hseen hdist).1
      · split
        · exact ih _ _ _ _ hseen hdist
        · exact ih _ _ _ _ hseen hdist

lemma columnBasedParse_keys {native : Str → Option JsDate} {ids : Nat → Str}
    {lines : List PdfLine} :
    keyDistinct (columnBasedParse native ids lines) := by
  unfold columnBasedParse
  split
  · exact List.Pairwise.nil
  · dsimp only
    exact cbpLoop_keys _ _ _ _ _ (fun t ht => absurd ht (List.not_mem_nil t))
      List.Pairwise.nil

lemma btBuild_keys {ids : Nat → Str} (entries : List RawEntry) (prev : Option ℚ)
    (seen : List Str) (txns : List Txn) (k : Nat)
    (hseen : ∀ t ∈ txns, keyOf t ∈ seen)
    (hdist : keyDistinct txns) :
    keyDistinct (btBuild ids prev entries seen txns k) := by
  induction entries generalizing prev seen txns k with
  | nil => unfold btBuild; exact hdist
  | cons e rest ih =>
      unfold btBuild
      rcases prev with _ | pb
      · exact ih _ _ _ _ hseen hdist
      · dsimp only
        split
        · exact ih _ _ _ _ hseen hdist
        rename_i hsmall
        split
        · exact ih _ _ _ _ hseen hdist
        · rename_i hcont
          have hfa := lt_of_lt_of_le (show (0 : ℚ) < 1 / 100 by norm_num)
            (le_of_not_lt hsmall)
          refine ih _ _ _ _ (push_keys ?_ hseen hdist (by simpa using hcont)).2
            (push_keys ?_ hseen hdist (by simpa using hcont)).1 <;>
            (unfold keyOf; dsimp only; rw [abs_build (le_of_lt hfa)]; try rfl)

lemma kwBuild_keys {ids : Nat → Str} (entries : List RawEntry) (seen : List Str)
    (txns : List Txn) (k : Nat)
    (hseen : ∀ t ∈ txns, keyOf t ∈ seen)
    (hdist : keyDistinct txns) :
    keyDistinct (kwBuild ids entries seen txns k) := by
  induction entries generalizing seen txns k with
  | nil => unfold kwBuild; exact hdist
  | cons e rest ih =>
      unfold kwBuild
      dsimp only
      split
      · exact ih _ _ _ hseen hdist
      rename_i hsmall
      split
      · exact ih _ _ _ hseen hdist
      · rename_i hcont
        have hfa := lt_of_lt_of_le (show (0 : ℚ) < 1 / 100 by norm_num)
          (le_of_not_lt hsmall)
        refine ih _ _ _ (push_keys ?_ hseen hdist (by simpa using hcont)).2
          (push_keys ?_ hseen hdist (by simpa using hcont)).1 <;>
          (unfold keyOf; dsimp only; rw [abs_build (le_of_lt hfa)]
           ; try rw [List.headD_eq_head?_getD])

lemma textBasedParse_keys {native : Str → Option JsDate} {ids : Nat → Str}
    {lines : List PdfLine} :
    keyDistinct (textBasedParse native ids lines) := by
  unfold textBasedParse
  dsimp only
  have hnil : ∀ t ∈ ([] : List Txn), keyOf t ∈ ([] : List Str) :=
    fun t ht => absurd ht (List.not_mem_nil t)
  split
  · split
    · exact btBuild_keys _ _ _ _ _ hnil List.Pairwise.nil
    · exact kwBuild_keys _ _ _ _ hnil List.Pairwise.nil
  · exact kwBuild_keys _ _ _ _ hnil List.Pairwise.nil

/-- C2 amended: only the two PDF strategies deduplicate — each returns a
list whose composite keys (calendar day, absolute amount to two
decimals, first 30 description characters) are pairwise distinct, a
later key-matching candidate being dropped silently; the CSV and
spreadsheet paths keep every parsed row. -/
theorem C2_strategy_dedup (native : Str → Option JsDate) (ids1 ids2 : Nat → Str)
    (lines : List PdfLine) :
    keyDistinct (columnBasedParse native ids1 lines) ∧
    keyDistinct (textBasedParse native ids2 lines) :=
  ⟨columnBasedParse_keys, textBasedParse_keys⟩



lemma eraseId_fields {t t2 : Txn} (h : eraseId t = eraseId t2) :
    t.date = t2.date ∧ t.description = t2.description ∧ t.amount = t2.amount ∧
    t.category = t2.category ∧ t.type = t2.type ∧ t.balance = t2.balance ∧
    t.originalText = t2.originalText := by
  unfold eraseId at h
  simp only [Prod.mk.injEq] at h
  exact h

lemma csvParseRow_erase {native : Str → Option JsDate} (u u2 : Str) (row : Row)
    (m : ColumnMapping) (o : DateOrder) :
    (csvParseRow native u row m o).map eraseId =
      (csvParseRow native u2 row m o).map eraseId := by
  unfold csvParseRow
  dsimp only
  split
  · rfl
  · split
    · rfl
    · rfl

lemma csvRowsLoop_erase {native : Str → Option JsDate} {m : ColumnMapping} {o : DateOrder}
    (ids ids2 : Nat → Str) (rows : List Row) (k k2 : Nat) :
    (csvRowsLoop native ids m o rows k).map eraseId =
      (csvRowsLoop native ids2 m o rows k2).map eraseId := by
  induction rows generalizing k k2 with
  | nil => rfl
  | cons r rest ih =>
      unfold csvRowsLoop
      have hrow := @csvParseRow_erase native (ids k) (ids2 k2) r m o
      cases h1 : csvParseRow native (ids k) r m o <;>
        cases h2 : csvParseRow native (ids2 k2) r m o <;>
        rw [h1, h2] at hrow <;> dsimp only
      · exact ih _ _
      · exact Option.noConfusion hrow
      · exact Option.noConfusion hrow
      · rw [Option.map_some', Option.map_some', Option.some_inj] at hrow
        rw [List.map_cons, List.map_cons, hrow, ih (k + 1) (k2 + 1)]

lemma parseCSV_erase (native : Str → Option JsDate) (ids ids2 : Nat → Str) (now now2 : ℚ)
    (fileName : Str) (headers : List Str) (rows : List Row) :
    eraseResult (parseCSV native ids now fileName headers rows) =
      eraseResult (parseCSV native ids2 now2 fileName headers rows) := by
  unfold parseCSV
  dsimp only
  split
  · rfl
  · split
    · rfl
    · split
      · rfl
      · unfold eraseResult
        dsimp only
        rw [csvRowsLoop_erase ids ids2 rows 0 0]

lemma xlsParseRow_erase {native : Str → Option JsDate} (u u2 : Str) (row : XRow)
    (m : ColumnMapping) :
    (xlsParseRow native u row m).map eraseId =
      (xlsParseRow native u2 row m).map eraseId := by
  unfold xlsParseRow
  dsimp only
  split
  · rfl
  · split
    · rfl
    · rfl

lemma xlsRowsLoop_erase {native : Str → Option JsDate} {m : ColumnMapping}
    (ids ids2 : Nat → Str) (rows : List XRow) (k k2 : Nat) :
    (xlsRowsLoop native ids m rows k).map eraseId =
      (xlsRowsLoop native ids2 m rows k2).map eraseId := by
  induction rows generalizing k k2 with
  | nil => rfl
  | cons r rest ih =>
      unfold xlsRowsLoop
      have hrow := @xlsParseRow_erase native (ids k) (ids2 k2) r m
      cases h1 : xlsParseRow native (ids k) r m <;>
        cases h2 : xlsParseRow native (ids2 k2) r m <;>
        rw [h1, h2] at hrow <;> dsimp only
      · exact ih _ _
      · exact Option.noConfusion hrow
      · exact Option.noConfusion hrow
      · rw [Option.map_some', Option.map_some', Option.some_inj] at hrow
        rw [List.map_cons, List.map_cons, hrow, ih (k + 1) (k2 + 1)]

lemma parseSheet_erase (native : Str → Option JsDate) (ids ids2 : Nat → Str)
    (rawRows : List XRow) :
    (parseSheet native ids rawRows).1.map eraseId =
      (parseSheet native ids2 rawRows).1.map eraseId ∧
    (parseSheet native ids rawRows).2 = (parseSheet native ids2 rawRows).2 := by
  unfold parseSheet
  rcases rawRows with _ | ⟨first, rest⟩
  · exact ⟨rfl, rfl⟩
  · dsimp only
    split
    · exact ⟨rfl, rfl⟩
    · exact ⟨xlsRowsLoop_erase ids ids2 _ 0 0, rfl⟩



lemma finalizeTxn_erase {hd hc ha ht : Bool} (u u2 : Str) (c : Cand) :
    (finalizeTxn hd hc ha ht u c).map eraseId =
      (finalizeTxn hd hc ha ht u2 c).map eraseId := by
  unfold finalizeTxn
  dsimp only
  split
  · rfl
  · split
    · rfl
    · rfl

lemma cbpFinalize_erase {ids ids2 : Nat → Str} {hd hc ha ht : Bool} {seen : List Str}
    {txns txns2 : List Txn} {cur : Option Cand} {k k2 : Nat}
    (htxns : txns.map eraseId = txns2.map eraseId) :
    (cbpFinalize ids hd hc ha ht seen txns cur k).1 =
      (cbpFinalize ids2 hd hc ha ht seen txns2 cur k2).1 ∧
    (cbpFinalize ids hd hc ha ht seen txns cur k).2.1.map eraseId =
      (cbpFinalize ids2 hd hc ha ht seen txns2 cur k2).2.1.map eraseId := by
  unfold cbpFinalize
  rcases cur with _ | c
  · exact ⟨rfl, htxns⟩
  · dsimp only
    have hfin := @finalizeTxn_erase hd hc ha ht (ids k) (ids2 k2) c
    cases h1 : finalizeTxn hd hc ha ht (ids k) c <;>
      cases h2 : finalizeTxn hd hc ha ht (ids2 k2) c <;>
      rw [h1, h2] at hfin <;> dsimp only
    · exact ⟨rfl, htxns⟩
    · exact Option.noConfusion hfin
    · exact Option.noConfusion hfin
    · rename_i t1 t2
      rw [Option.map_some', Option.map_some', Option.some_inj] at hfin
      obtain ⟨e1, e2, e3, _, _, _, _⟩ := eraseId_fields hfin
      have hkeyEq : txnKey t1.date |t1.amount| t1.description =
          txnKey t2.date |t2.amount| t2.description := by rw [e1, e2, e3]
      rw [← hkeyEq]
      by_cases hmem : seen.contains (txnKey t1.date |t1.amount| t1.description) = true
      · rw [if_pos hmem, if_pos hmem]
        exact ⟨rfl, htxns⟩
      · rw [if_neg hmem, if_neg hmem]
        refine ⟨rfl, ?_⟩
        dsimp only
        rw [List.map_append, List.map_append, htxns]
        dsimp only [List.map]
        rw [hfin]

lemma cbpLoop_erase {native : Str → Option JsDate} {ids ids2 : Nat → Str}
    {cols : List ColDef} {hd hc ha ht : Bool} (lines : List PdfLine) (seen : List Str)
    (txns txns2 : List Txn) (cur : Option Cand) (k k2 : Nat)
    (htxns : txns.map eraseId = txns2.map eraseId) :
    (cbpLoop native ids cols hd hc ha ht lines seen txns cur k).map eraseId =
      (cbpLoop native ids2 cols hd hc ha ht lines seen txns2 cur k2).map eraseId := by
  induction lines generalizing seen txns txns2 cur k k2 with
  | nil =>
      unfold cbpLoop
      exact (cbpFinalize_erase htxns).2
  | cons l rest ih =>
      unfold cbpLoop
      dsimp only
      split
      · exact ih _ _ _ _ _ _ htxns
      split
      · have hfin := @cbpFinalize_erase ids ids2 hd hc ha ht seen _ _ cur k k2 htxns
        rw [hfin.1]
        exact ih _ _ _ _ _ _ hfin.2
      · split
        · exact ih _ _ _ _ _ _ htxns
        · exact ih _ _ _ _ _ _ htxns

lemma columnBasedParse_erase (native : Str → Option JsDate) (ids ids2 : Nat → Str)
    (lines : List PdfLine) :
    (columnBasedParse native ids lines).map eraseId =
      (columnBasedParse native ids2 lines).map eraseId := by
  unfold columnBasedParse
  split
  · rfl
  · dsimp only
    exact cbpLoop_erase _ _ _ _ _ _ _ rfl

lemma btBuild_erase {ids ids2 : Nat → Str} (entries : List RawEntry) (prev : Option ℚ)
    (seen : List Str) (txns txns2 : List Txn) (k k2 : Nat)
    (htxns : txns.map eraseId = txns2.map eraseId) :
    (btBuild ids prev entries seen txns k).map eraseId =
      (btBuild ids2 prev entries seen txns2 k2).map eraseId := by
  induction entries generalizing prev seen txns txns2 k k2 with
  | nil => exact htxns
  | cons e rest ih =>
      unfold btBuild
      rcases prev with _ | pb
      · exact ih _ _ _ _ _ _ htxns
      · dsimp only
        split
        · exact ih _ _ _ _ _ _ htxns
        · split
          · exact ih _ _ _ _ _ _ htxns
          · refine ih _ _ _ _ _ _ ?_
            rw [List.map_append, List.map_append, htxns]
            rfl

lemma kwBuild_erase {ids ids2 : Nat → Str} (entries : List RawEntry)
    (seen : List Str) (txns txns2 : List Txn) (k k2 : Nat)
    (htxns : txns.map eraseId = txns2.map eraseId) :
    (kwBuild ids entries seen txns k).map eraseId =
      (kwBuild ids2 entries seen txns2 k2).map eraseId := by
  induction entries generalizing seen txns txns2 k k2 with
  | nil => exact htxns
  | cons e rest ih =>
      unfold kwBuild
      dsimp only
      split
      · exact ih _ _ _ _ _ htxns
      · split
        · exact ih _ _ _ _ _ htxns
        · refine ih _ _ _ _ _ ?_
          rw [List.map_append, List.map_append, htxns]
          rfl

lemma textBasedParse_erase (native : Str → Option JsDate) (ids ids2 : Nat → Str)
    (lines : List PdfLine) :
    (textBasedParse native ids lines).map eraseId =
      (textBasedParse native ids2 lines).map eraseId := by
  unfold textBasedParse
  dsimp only
  have hbt := @btBuild_erase ids ids2 (tbpCollect native lines) none
    [] [] [] 0 0 rfl
  have hkw := @kwBuild_erase ids ids2 (tbpCollect native lines)
    [] [] [] 0 0 rfl
  have hlen : (btBuild ids none (tbpCollect native lines) [] [] 0).length =
      (btBuild ids2 none (tbpCollect native lines) [] [] 0).length := by
    have h2 := congrArg List.length hbt
    simpa using h2
  split
  · split
    · rename_i hpos
      rw [if_pos (hlen ▸ hpos)]
      exact hbt
    · rename_i hpos
      rw [if_neg (by rw [← hlen]; exact hpos)]
      exact hkw
  · exact hkw



lemma vwbFlip_erase {res res2 : List Txn} {i : Nat} {curr curr2 : Txn} {ety : TxnType}
    (hres : res.map eraseId = res2.map eraseId) (hc : eraseId curr = eraseId curr2) :
    (vwbFlip res i curr ety).map eraseId = (vwbFlip res2 i curr2 ety).map eraseId := by
  obtain ⟨e1, e2, e3, e4, e5, e6, e7⟩ := eraseId_fields hc
  unfold vwbFlip
  by_cases hty : curr.type ≠ ety
  · rw [if_pos hty, if_pos (show curr2.type ≠ ety by rw [← e5]; exact hty)]
    rw [List.map_set, List.map_set, hres]
    congr 1
    unfold eraseId
    dsimp only
    rw [e1, e2, e3, e4, e6, e7]
  · rw [if_neg hty, if_neg (by rw [← e5]; exact hty)]
    exact hres

lemma vwbAdjust_erase {res1 res1b : List Txn} {i : Nat} {curr curr2 : Txn} {ta : ℚ}
    (hres : res1.map eraseId = res1b.map eraseId) (hc : eraseId curr = eraseId curr2) :
    (vwbAdjust res1 i curr ta).map eraseId = (vwbAdjust res1b i curr2 ta).map eraseId := by
  obtain ⟨_, _, e3, _, _, _, _⟩ := eraseId_fields hc
  unfold vwbAdjust
  by_cases h1 : |(|curr.amount|) - ta| > ta * (1 / 100) + 2 / 100
  · rw [if_pos h1]
    rw [if_pos (show |(|curr2.amount|) - ta| > ta * (1 / 100) + 2 / 100
      by rw [← e3]; exact h1)]
    by_cases h2 : ta > 1 / 100
    · rw [if_pos h2, if_pos h2]
      have hget : (res1[i]?).map eraseId = (res1b[i]?).map eraseId := by
        rw [← List.getElem?_map, ← List.getElem?_map, hres]
      cases hA : res1[i]? <;> cases hB : res1b[i]? <;> rw [hA, hB] at hget <;> dsimp only
      · exact hres
      · exact Option.noConfusion hget
      · exact Option.noConfusion hget
      · rename_i c1 c1b
        rw [Option.map_some', Option.map_some', Option.some_inj] at hget
        obtain ⟨g1, g2, g3, g4, g5, g6, g7⟩ := eraseId_fields hget
        rw [List.map_set, List.map_set, hres]
        congr 1
        unfold eraseId
        dsimp only
        rw [g1, g2, g4, g5, g6, g7]
    · rw [if_neg h2, if_neg h2]
      exact hres
  · rw [if_neg h1]
    rw [if_neg (show ¬ |(|curr2.amount|) - ta| > ta * (1 / 100) + 2 / 100
      by rw [← e3]; exact h1)]
    exact hres

lemma vwbStep_erase {res res2 : List Txn} {i : Nat} {curr curr2 : Txn} {pb cb : ℚ}
    (hres : res.map eraseId = res2.map eraseId) (hc : eraseId curr = eraseId curr2) :
    (vwbStep res i curr pb cb).map eraseId = (vwbStep res2 i curr2 pb cb).map eraseId := by
  unfold vwbStep
  dsimp only
  exact vwbAdjust_erase (vwbFlip_erase hres hc) hc

lemma vwbLoop_erase (fuel : Nat) (res res2 : List Txn) (i : Nat)
    (hres : res.map eraseId = res2.map eraseId) :
    (vwbLoop fuel res i).map eraseId = (vwbLoop fuel res2 i).map eraseId := by
  induction fuel generalizing res res2 i with
  | zero => exact hres
  | succ fuel ih =>
      unfold vwbLoop
      have hg1 : (res[i - 1]?).map eraseId = (res2[i - 1]?).map eraseId := by
        rw [← List.getElem?_map, ← List.getElem?_map, hres]
      have hg2 : (res[i]?).map eraseId = (res2[i]?).map eraseId := by
        rw [← List.getElem?_map, ← List.getElem?_map, hres]
      cases hA : res[i - 1]? <;> cases hB : res2[i - 1]? <;> rw [hA, hB] at hg1
      · cases hC : res[i]? <;> cases hD : res2[i]? <;> rw [hC, hD] at hg2 <;> dsimp only
        · exact hres
        · exact Option.noConfusion hg2
        · exact Option.noConfusion hg2
        · exact hres
      · exact Option.noConfusion hg1
      · exact Option.noConfusion hg1
      · rename_i prev prev2
        rw [Option.map_some', Option.map_some', Option.some_inj] at hg1
        obtain ⟨_, _, _, _, _, p6, _⟩ := eraseId_fields hg1
        cases hC : res[i]? <;> cases hD : res2[i]? <;> rw [hC, hD] at hg2 <;> dsimp only
        · exact hres
        · exact Option.noConfusion hg2
        · exact Option.noConfusion hg2
        · rename_i curr curr2
          rw [Option.map_some', Option.map_some', Option.some_inj] at hg2
          obtain ⟨_, _, _, _, _, c6, _⟩ := eraseId_fields hg2
          cases hP : prev.balance <;> rw [hP] at p6
          · rw [← p6]
            dsimp only
            exact ih _ _ _ hres
          · rename_i pb
            rw [← p6]
            cases hQ : curr.balance <;> rw [hQ] at c6
            · rw [← c6]
              dsimp only
              exact ih _ _ _ hres
            · rename_i cb
              rw [← c6]
              dsimp only
              by_cases hdiff : |cb - pb| < 1 / 100
              · rw [if_pos hdiff, if_pos hdiff]
                exact ih _ _ _ hres
              · rw [if_neg hdiff, if_neg hdiff]
                exact ih _ _ _ (vwbStep_erase hres hg2)

lemma validateWithBalance_erase {ts ts2 : List Txn}
    (h : ts.map eraseId = ts2.map eraseId) :
    (validateWithBalance ts).map eraseId = (validateWithBalance ts2).map eraseId := by
  have hlen : ts.length = ts2.length := by
    have h2 := congrArg List.length h
    simpa using h2
  have hcount : ts.countP (fun t => t.balance.isSome) =
      ts2.countP (fun t => t.balance.isSome) := by
    have h2 : (ts.map eraseId).countP (fun e => e.2.2.2.2.2.1.isSome) =
        (ts2.map eraseId).countP (fun e => e.2.2.2.2.2.1.isSome) := by rw [h]
    rw [List.countP_map, List.countP_map] at h2
    exact h2
  have hflen : (ts.filter (fun t => t.balance.isSome)).length =
      (ts2.filter (fun t => t.balance.isSome)).length := by
    rw [← List.countP_eq_length_filter, ← List.countP_eq_length_filter]
    exact hcount
  unfold validateWithBalance
  by_cases h3 : ts.length < 3
  · rw [if_pos h3, if_pos (show ts2.length < 3 by omega)]
    exact h
  · rw [if_neg h3, if_neg (show ¬ ts2.length < 3 by omega)]
    dsimp only
    by_cases h4 : ((ts.filter (fun t => t.balance.isSome)).length : ℚ) <
        (ts.length : ℚ) * (1 / 2)
    · rw [if_pos h4, if_pos (show ((ts2.filter (fun t => t.balance.isSome)).length : ℚ) <
        (ts2.length : ℚ) * (1 / 2) by rw [← hflen, ← hlen]; exact h4)]
      exact h
    · rw [if_neg h4, if_neg (show ¬ ((ts2.filter (fun t => t.balance.isSome)).length : ℚ) <
        (ts2.length : ℚ) * (1 / 2) by rw [← hflen, ← hlen]; exact h4)]
      rw [hlen]
      exact vwbLoop_erase _ _ _ _ h

lemma pdfPipeline_erase (native : Str → Option JsDate) (ids1 ids2 ids3 ids4 : Nat → Str)
    (lines : List PdfLine) :
    (pdfPipeline native ids1 ids2 lines).map eraseId =
      (pdfPipeline native ids3 ids4 lines).map eraseId := by
  unfold pdfPipeline
  dsimp only
  have hcb := columnBasedParse_erase native ids1 ids3 lines
  have htb := textBasedParse_erase native ids2 ids4 lines
  have hcbl : (columnBasedParse native ids1 lines).length =
      (columnBasedParse native ids3 lines).length := by
    have h2 := congrArg List.length hcb
    simpa using h2
  have htbl : (textBasedParse native ids2 lines).length =
      (textBasedParse native ids4 lines).length := by
    have h2 := congrArg List.length htb
    simpa using h2
  refine validateWithBalance_erase ?_
  by_cases h1 : (columnBasedParse native ids1 lines).length < 3
  · rw [if_pos h1, if_pos (show (columnBasedParse native ids3 lines).length < 3 by omega)]
    by_cases h2 : (textBasedParse native ids2 lines).length >
        (columnBasedParse native ids1 lines).length
    · rw [if_pos h2, if_pos (show (textBasedParse native ids4 lines).length >
          (columnBasedParse native ids3 lines).length by omega)]
      exact htb
    · rw [if_neg h2, if_neg (show ¬ (textBasedParse native ids4 lines).length >
          (columnBasedParse native ids3 lines).length by omega)]
      exact hcb
  · rw [if_neg h1, if_neg (show ¬ (columnBasedParse native ids3 lines).length < 3 by omega)]
    exact hcb

/-- C4 amended: the pipeline is deterministic modulo the generated ids
and the statement timestamp — for any two runs over the same input with
different uuid sources and clocks, the CSV result (transactions with ids
erased, format, file name, detected currency), the sheet result, and the
pdf pipeline result agree. -/
theorem C4_deterministic_mod_ids (native : Str → Option JsDate)
    (ids ids2 ids3 ids4 : Nat → Str) (now now2 : ℚ) (fileName : Str)
    (headers : List Str) (rows : List Row) (rawRows : List XRow) (lines : List PdfLine) :
    eraseResult (parseCSV native ids now fileName headers rows) =
      eraseResult (parseCSV native ids2 now2 fileName headers rows) ∧
    ((parseSheet native ids rawRows).1.map eraseId =
      (parseSheet native ids2 rawRows).1.map eraseId ∧
     (parseSheet native ids rawRows).2 = (parseSheet native ids2 rawRows).2) ∧
    (pdfPipeline native ids ids2 lines).map eraseId =
      (pdfPipeline native ids3 ids4 lines).map eraseId :=
  ⟨parseCSV_erase native ids ids2 now now2 fileName headers rows,
   parseSheet_erase native ids ids2 rawRows,
   pdfPipeline_erase native ids ids2 ids3 ids4 lines⟩



lemma zipMapSelf {α β : Type} (f : α → β) (l : List α) :
    l.zip (l.map f) = l.map (fun a => (a, f a)) := by
  induction l with
  | nil => rfl
  | cons x rest ih => simp [ih]

lemma foldl_max_init (l : List Nat) (n : Nat) :
    l.foldl max n = max n (l.foldl max 0) := by
  induction l generalizing n with
  | nil => simp
  | cons x rest ih =>
      simp only [List.foldl_cons]
      rw [ih (max n x), ih (max 0 x), Nat.zero_max, Nat.max_assoc]

lemma le_foldl_max (l : List Nat) (n : Nat) : n ≤ l.foldl max n := by
  rw [foldl_max_init]
  exact le_max_left _ _

lemma foldl_max_mem (l : List Nat) (n : Nat) (h : l.foldl max n ≠ n) :
    l.foldl max n ∈ l := by
  induction l generalizing n with
  | nil => exact absurd rfl h
  | cons x rest ih =>
      simp only [List.foldl_cons] at h ⊢
      by_cases hx : rest.foldl max (max n x) = max n x
      · rw [hx] at h ⊢
        have h2 : max n x = x := by
          rcases Nat.le_total n x with h3 | h3
          · exact Nat.max_eq_right h3
          · exact absurd (Nat.max_eq_left h3) h
        rw [h2]
        exact List.mem_cons_self _ _
      · exact List.mem_cons_of_mem _ (ih _ hx)

lemma find?_ext {α : Type} {p q : α → Bool} (l : List α) (h : ∀ x, p x = q x) :
    l.find? p = l.find? q := by
  have h2 : p = q := funext h
  rw [h2]

lemma fold_char (g : CurrencyEntry → Nat) (l : List CurrencyEntry)
    (oa : Option CurrencyEntry) (s : Nat) :
    l.foldl (fun acc e => if g e > acc.2 then (some e, g e) else acc) (oa, s) =
      (match (l.zip (l.map g)).find?
          (fun p => decide (s < p.2) && decide (p.2 = (l.map g).foldl max s)) with
      | some p => (some p.1, p.2)
      | none => (oa, s)) := by
  induction l generalizing oa s with
  | nil => rfl
  | cons e rest ih =>
      simp only [List.foldl_cons, List.map_cons, List.zip_cons_cons, List.find?_cons]
      by_cases hse : s < g e
      · rw [if_pos hse]
        have hmax : max s (g e) = g e := Nat.max_eq_right (le_of_lt hse)
        simp only [hmax]
        by_cases hM : g e = (rest.map g).foldl max (g e)
        · have hpred : (decide (s < (e, g e).2) &&
              decide ((e, g e).2 = (rest.map g).foldl max (g e))) = true := by
            simp only [Bool.and_eq_true, decide_eq_true_eq]
            exact ⟨hse, hM ▸ rfl⟩
          rw [hpred]
          rw [ih (some e) (g e)]
          have hnone : ((rest.zip (rest.map g)).find?
              (fun p => decide (g e < p.2) &&
                decide (p.2 = (rest.map g).foldl max (g e)))) = none := by
            rw [List.find?_eq_none]
            intro p hp
            simp only [Bool.and_eq_true, decide_eq_true_eq, not_and]
            intro h1 h2
            rw [← hM] at h2
            omega
          rw [hnone]
        · have hMgt : g e < (rest.map g).foldl max (g e) :=
            lt_of_le_of_ne (le_foldl_max _ _) hM
          have hpred : (decide (s < (e, g e).2) &&
              decide ((e, g e).2 = (rest.map g).foldl max (g e))) = false := by
            simp only [Bool.and_eq_false_iff, decide_eq_false_iff_not]
            exact Or.inr hM
          rw [hpred]
          rw [ih (some e) (g e)]
          have hext : ∀ p : CurrencyEntry × Nat,
              (decide (g e < p.2) && decide (p.2 = (rest.map g).foldl max (g e))) =
              (decide (s < p.2) && decide (p.2 = (rest.map g).foldl max (g e))) := by
            intro p
            by_cases hp : p.2 = (rest.map g).foldl max (g e)
            · simp [hp, hMgt, lt_trans hse hMgt]
            · simp [hp]
          rw [find?_ext _ hext]
          obtain ⟨p, hp⟩ : ∃ p, ((rest.zip (rest.map g)).find?
              (fun p => decide (s < p.2) &&
                decide (p.2 = (rest.map g).foldl max (g e)))) = some p := by
            have hmem : (rest.map g).foldl max (g e) ∈ rest.map g :=
              foldl_max_mem _ _ (fun hh => hM hh.symm)
            obtain ⟨e0, he0, hge0⟩ := List.mem_map.mp hmem
            have hzmem : (e0, (rest.map g).foldl max (g e)) ∈ rest.zip (rest.map g) := by
              rw [zipMapSelf]
              exact List.mem_map.mpr ⟨e0, he0, by rw [hge0]⟩
            have hp2 : (fun (p : CurrencyEntry × Nat) => decide (s < p.2) &&
                decide (p.2 = (rest.map g).foldl max (g e)))
                  (e0, (rest.map g).foldl max (g e)) = true := by
              simp only [Bool.and_eq_true, decide_eq_true_eq]
              exact ⟨lt_trans hse hMgt, trivial⟩
            cases hfind : ((rest.zip (rest.map g)).find?
                (fun p => decide (s < p.2) &&
                  decide (p.2 = (rest.map g).foldl max (g e)))) with
            | some p => exact ⟨p, rfl⟩
            | none => exact absurd hp2 (List.find?_eq_none.mp hfind _ hzmem)
          rw [hp]
      · rw [if_neg hse]
        have hmax : max s (g e) = s := Nat.max_eq_left (le_of_not_lt hse)
        simp only [hmax]
        have hpred : (decide (s < (e, g e).2) &&
            decide ((e, g e).2 = (rest.map g).foldl max s)) = false := by
          simp only [Bool.and_eq_false_iff, decide_eq_false_iff_not]
          exact Or.inl hse
        rw [hpred]
        exact ih oa s

lemma detect_eq_amended (text : Str) :
    detectCurrencyFromText text = amendedDetect text := by
  unfold detectCurrencyFromText amendedDetect
  dsimp only
  by_cases he : text.isEmpty
  · rw [if_pos he]
    have htxt : text = [] := by
      cases text
      · rfl
      · simp [List.isEmpty] at he
    subst htxt
    with_unfolding_all decide
  · rw [if_neg he]
    rw [fold_char (fun e => entryScore (currencySample text) e) CURRENCY_DB none 0]
    by_cases hb : (CURRENCY_DB.map (fun e => entryScore (currencySample text) e)).foldl
        max 0 = 0
    · rw [if_pos hb]
      have hnone : ((CURRENCY_DB.zip (CURRENCY_DB.map
          (fun e => entryScore (currencySample text) e))).find?
          (fun p => decide (0 < p.2) && decide (p.2 = (CURRENCY_DB.map
            (fun e => entryScore (currencySample text) e)).foldl max 0))) = none := by
        rw [List.find?_eq_none]
        intro p hp
        simp only [Bool.and_eq_true, decide_eq_true_eq, not_and]
        intro h1 h2
        rw [hb] at h2
        omega
      rw [hnone]
    · rw [if_neg hb]
      have hext : ∀ p : CurrencyEntry × Nat,
          (decide (0 < p.2) && decide (p.2 = (CURRENCY_DB.map
            (fun e => entryScore (currencySample text) e)).foldl max 0)) =
          (decide (p.2 = (CURRENCY_DB.map
            (fun e => entryScore (currencySample text) e)).foldl max 0)) := by
        intro p
        by_cases hp : p.2 = (CURRENCY_DB.map
            (fun e => entryScore (currencySample text) e)).foldl max 0
        · simp [hp, Nat.pos_of_ne_zero hb]
        · simp [hp]
      rw [find?_ext _ hext]
      cases hf : ((CURRENCY_DB.zip (CURRENCY_DB.map
          (fun e => entryScore (currencySample text) e))).find?
          (fun p => decide (p.2 = (CURRENCY_DB.map
            (fun e => entryScore (currencySample text) e)).foldl max 0)))
      · rfl
      · rename_i p
        have hsat := List.find?_some hf
        simp only [decide_eq_true_eq] at hsat
        dsimp only
        rw [if_pos (by omega : p.2 ≥ 1)]
        rfl


/-- C6 amended: for every input text, the detector returns exactly the
argmax-by-score entry — scores summed as occurrences times the weight
the code computes (3 only for patterns holding one of the scorer's
non-dollar symbol characters, 2 for ISO-code patterns, else 1) — with
ties kept by the earlier catalog entry and none exactly when the best
score is 0. -/
theorem C6_code_weights (text : Str) :
    detectCurrencyFromText text = amendedDetect text :=
  detect_eq_amended text



lemma dig_digit {k : Nat} (hk : k < 10) : isDigitC (dig k) = true := by
  interval_cases k <;> decide

lemma dig_val {k : Nat} (hk : k < 10) : digitVal (dig k) = k := by
  interval_cases k <;> decide

lemma pad2N_digits (n : Nat) : ∀ c ∈ pad2N n, isDigitC c = true := by
  intro c hc
  unfold pad2N at hc
  simp only [List.mem_cons, List.not_mem_nil, or_false] at hc
  rcases hc with h | h <;>
    exact h ▸ dig_digit (Nat.mod_lt _ (by norm_num))

lemma pad4N_digits (n : Nat) : ∀ c ∈ pad4N n, isDigitC c = true := by
  intro c hc
  unfold pad4N at hc
  simp only [List.mem_cons, List.not_mem_nil, or_false] at hc
  rcases hc with h | h | h | h <;>
    exact h ▸ dig_digit (Nat.mod_lt _ (by norm_num))

lemma digitsVal_pad2N {n : Nat} (h : n < 100) : digitsVal (pad2N n) = n := by
  unfold pad2N digitsVal
  simp only [List.foldl]
  rw [dig_val (Nat.mod_lt _ (by norm_num)), dig_val (Nat.mod_lt _ (by norm_num))]
  omega

lemma digitsVal_pad4N {n : Nat} (h : n < 10000) : digitsVal (pad4N n) = n := by
  unfold pad4N digitsVal
  simp only [List.foldl]
  rw [dig_val (Nat.mod_lt _ (by norm_num)), dig_val (Nat.mod_lt _ (by norm_num)),
    dig_val (Nat.mod_lt _ (by norm_num)), dig_val (Nat.mod_lt _ (by norm_num))]
  omega

lemma pad2N_len (n : Nat) : (pad2N n).length = 2 := rfl

lemma pad4N_len (n : Nat) : (pad4N n).length = 4 := rfl

lemma takeWhile_digit_run {g : Str} (r : Str) (hg : ∀ x ∈ g, isDigitC x = true)
    (hr : ∀ c r2, r = c :: r2 → isDigitC c = false) :
    (g ++ r).takeWhile isDigitC = g ∧ (g ++ r).dropWhile isDigitC = r := by
  induction g with
  | nil =>
      rcases r with _ | ⟨c, r2⟩
      · exact ⟨rfl, rfl⟩
      · have hc := hr c r2 rfl
        simp [List.takeWhile_cons, List.dropWhile_cons, hc]
  | cons x rest ih =>
      have hx := hg x (List.mem_cons_self _ _)
      have ih2 := ih (fun c2 hc2 => hg c2 (List.mem_cons_of_mem _ hc2))
      simp only [List.cons_append, List.takeWhile_cons, List.dropWhile_cons, hx,
        ite_true, if_true]
      exact ⟨by rw [ih2.1], by rw [ih2.2]⟩

lemma takeDigits_split {g : Str} (r : Str) (hg : ∀ x ∈ g, isDigitC x = true)
    (hr : ∀ c r2, r = c :: r2 → isDigitC c = false) :
    takeDigits (g ++ r) = (g, r) := by
  unfold takeDigits
  obtain ⟨h1, h2⟩ := takeWhile_digit_run r hg hr
  rw [h1, h2]

lemma takeDigits_all {g : Str} (hg : ∀ x ∈ g, isDigitC x = true) :
    takeDigits g = (g, []) := by
  have h := takeDigits_split (g := g) [] hg (fun c r2 hcr => List.noConfusion hcr)
  simpa using h


lemma grp3_success {lo1 hi1 lo2 hi2 lo3 hi3 : Nat} {sepP : Char → Bool}
    {g1 g2 g3 : Str} {c1 c2 : Char}
    (hg1 : ∀ x ∈ g1, isDigitC x = true) (hg2 : ∀ x ∈ g2, isDigitC x = true)
    (hg3 : ∀ x ∈ g3, isDigitC x = true)
    (hc1d : isDigitC c1 = false) (hc2d : isDigitC c2 = false)
    (hs1 : sepP c1 = true) (hs2 : sepP c2 = true)
    (hl1 : lo1 ≤ g1.length ∧ g1.length ≤ hi1)
    (hl2 : lo2 ≤ g2.length ∧ g2.length ≤ hi2)
    (hl3 : lo3 ≤ g3.length ∧ g3.length ≤ hi3) :
    grp3 lo1 hi1 lo2 hi2 lo3 hi3 sepP (g1 ++ c1 :: (g2 ++ c2 :: g3)) =
      some (digitsVal g1, digitsVal g2, digitsVal g3) := by
  unfold grp3
  rw [takeDigits_split (c1 :: (g2 ++ c2 :: g3)) hg1
    (fun c r2 h => by injection h with h1 h2; exact h1 ▸ hc1d)]
  dsimp only
  rw [if_neg (by simp only [Bool.or_eq_true, decide_eq_true_eq, not_or, not_lt]; omega)]
  rw [if_neg (by simp [hs1])]
  rw [takeDigits_split (c2 :: g3) hg2
    (fun c r2 h => by injection h with h1 h2; exact h1 ▸ hc2d)]
  dsimp only
  rw [if_neg (by simp only [Bool.or_eq_true, decide_eq_true_eq, not_or, not_lt]; omega)]
  rw [if_neg (by simp [hs2])]
  rw [takeDigits_all hg3]
  dsimp only
  rw [if_neg (by simp only [Bool.or_eq_true, decide_eq_true_eq, List.isEmpty_nil,
    Bool.not_true, Bool.or_false, not_or, not_lt]; omega)]

lemma grp3_fail_len1 {lo1 hi1 lo2 hi2 lo3 hi3 : Nat} {sepP : Char → Bool} {s : Str}
    (h : (takeDigits s).1.length < lo1 ∨ hi1 < (takeDigits s).1.length) :
    grp3 lo1 hi1 lo2 hi2 lo3 hi3 sepP s = none := by
  unfold grp3
  rcases htd : takeDigits s with ⟨g1, r1⟩
  rw [htd] at h
  dsimp only at h ⊢
  rw [if_pos (by simp only [Bool.or_eq_true, decide_eq_true_eq]; omega)]

lemma grp3_fail_sep1 {lo1 hi1 lo2 hi2 lo3 hi3 : Nat} {sepP : Char → Bool}
    {g1 r : Str} {c1 : Char}
    (hg1 : ∀ x ∈ g1, isDigitC x = true) (hc1d : isDigitC c1 = false)
    (hs1 : sepP c1 = false)
    (hl1 : lo1 ≤ g1.length ∧ g1.length ≤ hi1) :
    grp3 lo1 hi1 lo2 hi2 lo3 hi3 sepP (g1 ++ c1 :: r) = none := by
  unfold grp3
  rw [takeDigits_split (c1 :: r) hg1
    (fun c r2 h => by injection h with h1 h2; exact h1 ▸ hc1d)]
  dsimp only
  rw [if_neg (by simp only [Bool.or_eq_true, decide_eq_true_eq, not_or, not_lt]; omega)]
  rw [if_pos (by simp [hs1])]

lemma grp3_fail_len3 {lo1 hi1 lo2 hi2 lo3 hi3 : Nat} {sepP : Char → Bool}
    {g1 g2 g3 : Str} {c1 c2 : Char}
    (hg1 : ∀ x ∈ g1, isDigitC x = true) (hg2 : ∀ x ∈ g2, isDigitC x = true)
    (hg3 : ∀ x ∈ g3, isDigitC x = true)
    (hc1d : isDigitC c1 = false) (hc2d : isDigitC c2 = false)
    (hs1 : sepP c1 = true) (hs2 : sepP c2 = true)
    (hl1 : lo1 ≤ g1.length ∧ g1.length ≤ hi1)
    (hl2 : lo2 ≤ g2.length ∧ g2.length ≤ hi2)
    (hl3 : g3.length < lo3 ∨ hi3 < g3.length) :
    grp3 lo1 hi1 lo2 hi2 lo3 hi3 sepP (g1 ++ c1 :: (g2 ++ c2 :: g3)) = none := by
  unfold grp3
  rw [takeDigits_split (c1 :: (g2 ++ c2 :: g3)) hg1
    (fun c r2 h => by injection h with h1 h2; exact h1 ▸ hc1d)]
  dsimp only
  rw [if_neg (by simp only [Bool.or_eq_true, decide_eq_true_eq, not_or, not_lt]; omega)]
  rw [if_neg (by simp [hs1])]
  rw [takeDigits_split (c2 :: g3) hg2
    (fun c r2 h => by injection h with h1 h2; exact h1 ▸ hc2d)]
  dsimp only
  rw [if_neg (by simp only [Bool.or_eq_true, decide_eq_true_eq, not_or, not_lt]; omega)]
  rw [if_neg (by simp [hs2])]
  rw [takeDigits_all hg3]
  dsimp only
  rw [if_pos (by simp only [Bool.or_eq_true, decide_eq_true_eq]; omega)]


lemma dig_letter {k : Nat} (hk : k < 10) : isAsciiLetter (dig k) = false := by
  interval_cases k <;> decide

lemma daysInMonth_le31 (y m : Int) : daysInMonth y m ≤ 31 := by
  unfold daysInMonth
  split_ifs <;> norm_num

lemma jsMakeDate_id {y m0 d : Int} (hm0 : 0 ≤ m0) (hm1 : m0 ≤ 11) (hd1 : 1 ≤ d)
    (hd2 : d ≤ daysInMonth y m0) : jsMakeDate y m0 d = ⟨y, m0, d⟩ := by
  unfold jsMakeDate
  dsimp only
  have h1 : m0.fdiv 12 = 0 := by interval_cases m0 <;> decide
  have h2 : m0.emod 12 = m0 := Int.emod_eq_of_lt hm0 (by omega)
  rw [h1, h2, add_zero]
  unfold carryDays
  rw [if_neg (by omega)]

lemma validateYmd_success {y m0 d : Nat} (hv : validDate y m0 d) (hy1 : 1990 ≤ y)
    (hy2 : y ≤ 2100) :
    validateYmd ⟨(d : Nat), (m0 : Nat), (y : Nat)⟩ = some ⟨(y : Nat), (m0 : Nat), (d : Nat)⟩ := by
  obtain ⟨hm, hd1, hd2⟩ := hv
  have h31 : (d : Int) ≤ 31 := le_trans hd2 (daysInMonth_le31 _ _)
  unfold validateYmd
  dsimp only
  rw [if_neg (by simp only [Bool.or_eq_true, decide_eq_true_eq, not_or, not_lt]; omega)]
  rw [if_neg (by simp only [Bool.or_eq_true, decide_eq_true_eq, not_or, not_lt]; omega)]
  rw [if_neg (by simp only [Bool.or_eq_true, decide_eq_true_eq, not_or, not_lt]; omega)]
  rw [jsMakeDate_id (by omega) (by omega) (by omega) hd2]
  dsimp only
  rw [if_pos (by simp)]

lemma firstValid_cons_none {s : Str} {p : Str → Option Ymd} {ps : List (Str → Option Ymd)}
    (h : p s = none) : firstValid s (p :: ps) = firstValid s ps := by
  simp only [firstValid]
  rw [h]

lemma firstValid_cons_invalid {s : Str} {p : Str → Option Ymd}
    {ps : List (Str → Option Ymd)} {parts : Ymd} (h : p s = some parts)
    (h2 : validateYmd parts = none) : firstValid s (p :: ps) = firstValid s ps := by
  simp only [firstValid]
  rw [h]
  dsimp only
  rw [h2]

lemma firstValid_cons_some {s : Str} {p : Str → Option Ymd}
    {ps : List (Str → Option Ymd)} {parts : Ymd} {dd : JsDate} (h : p s = some parts)
    (h2 : validateYmd parts = some dd) : firstValid s (p :: ps) = some dd := by
  simp only [firstValid]
  rw [h]
  dsimp only
  rw [h2]

lemma pat2_fail_len {s : Str}
    (h : (takeDigits s).1.length < 1 ∨ 2 < (takeDigits s).1.length) : pat2 s = none := by
  unfold pat2
  rcases htd : takeDigits s with ⟨g1, r1⟩
  rw [htd] at h
  dsimp only at h ⊢
  rw [if_pos (by simp only [Bool.or_eq_true, decide_eq_true_eq]; omega)]

lemma pat2_fail_sep {g1 r : Str} {c : Char}
    (hg1 : ∀ a ∈ g1, isDigitC a = true) (hc : isDigitC c = false)
    (hlen : 1 ≤ g1.length ∧ g1.length ≤ 2)
    (hsep : (isDateSep c || isWs c) = false) :
    pat2 (g1 ++ c :: r) = none := by
  unfold pat2
  rw [takeDigits_split (c :: r) hg1
    (fun c2 r2 h => by injection h with h1 h2; exact h1 ▸ hc)]
  dsimp only
  rw [if_neg (by simp only [Bool.or_eq_true, decide_eq_true_eq, not_or, not_lt]; omega)]
  rw [if_pos (by simp [hsep])]

lemma pat2_fail_digit_after_sep {g1 r : Str} {c x : Char}
    (hg1 : ∀ a ∈ g1, isDigitC a = true) (hc : isDigitC c = false)
    (hlen : 1 ≤ g1.length ∧ g1.length ≤ 2)
    (hsep : (isDateSep c || isWs c) = true)
    (hx : isAsciiLetter x = false) :
    pat2 (g1 ++ c :: x :: r) = none := by
  unfold pat2
  rw [takeDigits_split (c :: x :: r) hg1
    (fun c2 r2 h => by injection h with h1 h2; exact h1 ▸ hc)]
  dsimp only
  rw [if_neg (by simp only [Bool.or_eq_true, decide_eq_true_eq, not_or, not_lt]; omega)]
  rw [if_neg (by simp [hsep])]
  rw [List.takeWhile_cons_of_neg (by simp [hx])]
  rw [if_pos (by simp only [List.length_nil, Bool.or_eq_true, decide_eq_true_eq]; omega)]

lemma pat3_fail_nonletter {s : Str} {c : Char} {r : Str} (hs : s = c :: r)
    (hc : isAsciiLetter c = false) : pat3 s = none := by
  subst hs
  unfold pat3
  rw [List.takeWhile_cons_of_neg (by simp [hc])]
  rw [if_pos (by simp only [List.length_nil, Bool.or_eq_true, decide_eq_true_eq]; omega)]

lemma pat9_fail {s : Str}
    (h : ¬((takeDigits s).1.length = 8 ∧ (takeDigits s).2 = [])) : pat9 s = none := by
  unfold pat9
  rcases htd : takeDigits s with ⟨ds, rest⟩
  rw [htd] at h
  dsimp only at h ⊢
  rw [if_neg ?_]
  simp only [Bool.and_eq_true, decide_eq_true_eq, List.isEmpty_iff, not_and]
  intro h1 h2
  exact h ⟨h1, h2⟩

lemma expandYear_2digit {y : Nat} (h1 : 1990 ≤ y) (h2 : y ≤ 2049) :
    expandYear ((y % 100 : Nat) : Int) = (y : Int) := by
  unfold expandYear
  split_ifs <;> omega

lemma d_le_31 {y m0 d : Nat} (hv : validDate y m0 d) : d ≤ 31 := by
  obtain ⟨hm, hd1, hd2⟩ := hv
  have h31 := le_trans hd2 (daysInMonth_le31 (y : Int) (m0 : Int))
  exact_mod_cast h31

lemma firstValid_serISO {y m0 d : Nat} (hv : validDate y m0 d) (hy1 : 1990 ≤ y)
    (hy2 : y ≤ 2100) :
    firstValid (serISO y m0 d) datePatterns =
      some ⟨(y : Int), (m0 : Int), (d : Int)⟩ := by
  obtain ⟨hm, hd1, hd2⟩ := hv
  have hd31 := d_le_31 ⟨hm, hd1, hd2⟩
  have hp1 : pat1 (serISO y m0 d) = some ⟨(d : Int), (m0 : Int), (y : Int)⟩ := by
    unfold pat1 serISO
    rw [grp3_success (pad4N_digits y) (pad2N_digits _) (pad2N_digits _) (by decide)
      (by decide) (by decide) (by decide)
      (by rw [pad4N_len]; omega) (by rw [pad2N_len]; omega) (by rw [pad2N_len]; omega)]
    dsimp only [Option.map]
    rw [digitsVal_pad4N (by omega), digitsVal_pad2N (by omega), digitsVal_pad2N (by omega)]
    simp only [Option.some_inj, Ymd.mk.injEq]
    refine ⟨trivial, by push_cast; ring, trivial⟩
  unfold datePatterns
  rw [firstValid_cons_some hp1 (validateYmd_success ⟨hm, hd1, hd2⟩ hy1 hy2)]

lemma firstValid_serDMY4 {y m0 d : Nat} (hv : validDate y m0 d) (hy1 : 1990 ≤ y)
    (hy2 : y ≤ 2100) :
    firstValid (serDMY4 y m0 d) datePatterns =
      some ⟨(y : Int), (m0 : Int), (d : Int)⟩ := by
  obtain ⟨hm, hd1, hd2⟩ := hv
  have hd31 := d_le_31 ⟨hm, hd1, hd2⟩
  have htd : takeDigits (serDMY4 y m0 d) = (pad2N d, '/' :: (pad2N (m0+1) ++ '/' :: pad4N y)) := by
    unfold serDMY4
    exact takeDigits_split _ (pad2N_digits d)
      (fun c r2 h => by injection h with h1 h2; rw [← h1]; decide)
  have hp1 : pat1 (serDMY4 y m0 d) = none := by
    unfold pat1
    rw [grp3_fail_len1 (by rw [htd]; rw [pad2N_len]; omega)]
    rfl
  have hp2 : pat2 (serDMY4 y m0 d) = none := by
    show pat2 (pad2N d ++ '/' :: dig ((m0+1) / 10 % 10) :: dig ((m0+1) % 10) ::
      ('/' :: pad4N y)) = none
    exact pat2_fail_digit_after_sep (pad2N_digits d) (by decide)
      (by rw [pad2N_len]; omega) (by decide) (dig_letter (Nat.mod_lt _ (by norm_num)))
  have hp3 : pat3 (serDMY4 y m0 d) = none :=
    pat3_fail_nonletter rfl (dig_letter (Nat.mod_lt _ (by norm_num)))
  have hp4 : pat4 (serDMY4 y m0 d) = some ⟨(d : Int), (m0 : Int), (y : Int)⟩ := by
    unfold pat4 serDMY4
    rw [grp3_success (pad2N_digits d) (pad2N_digits _) (pad4N_digits y) (by decide)
      (by decide) (by decide) (by decide)
      (by rw [pad2N_len]; omega) (by rw [pad2N_len]; omega) (by rw [pad4N_len]; omega)]
    dsimp only [Option.map]
    rw [digitsVal_pad2N (by omega), digitsVal_pad2N (by omega), digitsVal_pad4N (by omega)]
    simp only [Option.some_inj, Ymd.mk.injEq]
    refine ⟨trivial, by push_cast; ring, trivial⟩
  unfold datePatterns
  rw [firstValid_cons_none hp1, firstValid_cons_none hp2, firstValid_cons_none hp3,
    firstValid_cons_some hp4 (validateYmd_success ⟨hm, hd1, hd2⟩ hy1 hy2)]

lemma firstValid_serDMY2 {y m0 d : Nat} (hv : validDate y m0 d) (hy1 : 1990 ≤ y)
    (hy2 : y ≤ 2049) :
    firstValid (serDMY2 y m0 d) datePatterns =
      some ⟨(y : Int), (m0 : Int), (d : Int)⟩ := by
  obtain ⟨hm, hd1, hd2⟩ := hv
  have hd31 := d_le_31 ⟨hm, hd1, hd2⟩
  have htd : takeDigits (serDMY2 y m0 d) =
      (pad2N d, '/' :: (pad2N (m0+1) ++ '/' :: pad2N (y % 100))) := by
    unfold serDMY2
    exact takeDigits_split _ (pad2N_digits d)
      (fun c r2 h => by injection h with h1 h2; rw [← h1]; decide)
  have hp1 : pat1 (serDMY2 y m0 d) = none := by
    unfold pat1
    rw [grp3_fail_len1 (by rw [htd]; rw [pad2N_len]; omega)]
    rfl
  have hp2 : pat2 (serDMY2 y m0 d) = none := by
    show pat2 (pad2N d ++ '/' :: dig ((m0+1) / 10 % 10) :: dig ((m0+1) % 10) ::
      ('/' :: pad2N (y % 100))) = none
    exact pat2_fail_digit_after_sep (pad2N_digits d) (by decide)
      (by rw [pad2N_len]; omega) (by decide) (dig_letter (Nat.mod_lt _ (by norm_num)))
  have hp3 : pat3 (serDMY2 y m0 d) = none :=
    pat3_fail_nonletter rfl (dig_letter (Nat.mod_lt _ (by norm_num)))
  have hp4 : pat4 (serDMY2 y m0 d) = none := by
    unfold pat4 serDMY2
    rw [grp3_fail_len3 (pad2N_digits d) (pad2N_digits _) (pad2N_digits _) (by decide)
      (by decide) (by decide) (by decide)
      (by rw [pad2N_len]; omega) (by rw [pad2N_len]; omega) (by rw [pad2N_len]; omega)]
    rfl
  have hp5 : pat5 (serDMY2 y m0 d) = some ⟨(d : Int), (m0 : Int), (y : Int)⟩ := by
    unfold pat5 serDMY2
    rw [grp3_success (pad2N_digits d) (pad2N_digits _) (pad2N_digits _) (by decide)
      (by decide) (by decide) (by decide)
      (by rw [pad2N_len]; omega) (by rw [pad2N_len]; omega) (by rw [pad2N_len]; omega)]
    dsimp only [Option.map]
    rw [digitsVal_pad2N (by omega), digitsVal_pad2N (by omega),
      digitsVal_pad2N (Nat.mod_lt _ (by norm_num))]
    rw [expandYear_2digit hy1 hy2]
    simp only [Option.some_inj, Ymd.mk.injEq]
    refine ⟨trivial, by push_cast; ring, trivial⟩
  unfold datePatterns
  rw [firstValid_cons_none hp1, firstValid_cons_none hp2, firstValid_cons_none hp3,
    firstValid_cons_none hp4,
    firstValid_cons_some hp5 (validateYmd_success ⟨hm, hd1, hd2⟩ hy1 (by omega))]


lemma firstValid_serYMDdot {y m0 d : Nat} (hv : validDate y m0 d) (hy1 : 1990 ≤ y)
    (hy2 : y ≤ 2100) :
    firstValid (serYMDdot y m0 d) datePatterns =
      some ⟨(y : Int), (m0 : Int), (d : Int)⟩ := by
  obtain ⟨hm, hd1, hd2⟩ := hv
  have hd31 := d_le_31 ⟨hm, hd1, hd2⟩
  have htd : takeDigits (serYMDdot y m0 d) =
      (pad4N y, '.' :: (pad2N (m0+1) ++ '.' :: pad2N d)) := by
    unfold serYMDdot
    exact takeDigits_split _ (pad4N_digits y)
      (fun c r2 h => by injection h with h1 h2; rw [← h1]; decide)
  have hp1 : pat1 (serYMDdot y m0 d) = none := by
    unfold pat1 serYMDdot
    rw [grp3_fail_sep1 (pad4N_digits y) (by decide) (by decide) (by rw [pad4N_len]; omega)]
    rfl
  have hp2 : pat2 (serYMDdot y m0 d) = none :=
    pat2_fail_len (by rw [htd]; rw [pad4N_len]; omega)
  have hp3 : pat3 (serYMDdot y m0 d) = none :=
    pat3_fail_nonletter rfl (dig_letter (Nat.mod_lt _ (by norm_num)))
  have hp4 : pat4 (serYMDdot y m0 d) = none := by
    unfold pat4
    rw [grp3_fail_len1 (by rw [htd]; rw [pad4N_len]; omega)]
    rfl
  have hp5 : pat5 (serYMDdot y m0 d) = none := by
    unfold pat5
    rw [grp3_fail_len1 (by rw [htd]; rw [pad4N_len]; omega)]
    rfl
  have hp6 : pat6 (serYMDdot y m0 d) = some ⟨(d : Int), (m0 : Int), (y : Int)⟩ := by
    unfold pat6 serYMDdot
    rw [grp3_success (pad4N_digits y) (pad2N_digits _) (pad2N_digits _) (by decide)
      (by decide) (by decide) (by decide)
      (by rw [pad4N_len]; omega) (by rw [pad2N_len]; omega) (by rw [pad2N_len]; omega)]
    dsimp only [Option.map]
    rw [digitsVal_pad4N (by omega), digitsVal_pad2N (by omega), digitsVal_pad2N (by omega)]
    simp only [Option.some_inj, Ymd.mk.injEq]
    refine ⟨trivial, by push_cast; ring, trivial⟩
  unfold datePatterns
  rw [firstValid_cons_none hp1, firstValid_cons_none hp2, firstValid_cons_none hp3,
    firstValid_cons_none hp4, firstValid_cons_none hp5,
    firstValid_cons_some hp6 (validateYmd_success ⟨hm, hd1, hd2⟩ hy1 hy2)]

lemma firstValid_serDMYdot4 {y m0 d : Nat} (hv : validDate y m0 d) (hy1 : 1990 ≤ y)
    (hy2 : y ≤ 2100) :
    firstValid (serDMYdot4 y m0 d) datePatterns =
      some ⟨(y : Int), (m0 : Int), (d : Int)⟩ := by
  obtain ⟨hm, hd1, hd2⟩ := hv
  have hd31 := d_le_31 ⟨hm, hd1, hd2⟩
  have htd : takeDigits (serDMYdot4 y m0 d) =
      (pad2N d, '.' :: (pad2N (m0+1) ++ '.' :: pad4N y)) := by
    unfold serDMYdot4
    exact takeDigits_split _ (pad2N_digits d)
      (fun c r2 h => by injection h with h1 h2; rw [← h1]; decide)
  have hp1 : pat1 (serDMYdot4 y m0 d) = none := by
    unfold pat1
    rw [grp3_fail_len1 (by rw [htd]; rw [pad2N_len]; omega)]
    rfl
  have hp2 : pat2 (serDMYdot4 y m0 d) = none := by
    unfold serDMYdot4
    exact pat2_fail_sep (pad2N_digits d) (by decide) (by rw [pad2N_len]; omega) (by decide)
  have hp3 : pat3 (serDMYdot4 y m0 d) = none :=
    pat3_fail_nonletter rfl (dig_letter (Nat.mod_lt _ (by norm_num)))
  have hp4 : pat4 (serDMYdot4 y m0 d) = none := by
    unfold pat4 serDMYdot4
    rw [grp3_fail_sep1 (pad2N_digits d) (by decide) (by decide) (by rw [pad2N_len]; omega)]
    rfl
  have hp5 : pat5 (serDMYdot4 y m0 d) = none := by
    unfold pat5 serDMYdot4
    rw [grp3_fail_sep1 (pad2N_digits d) (by decide) (by decide) (by rw [pad2N_len]; omega)]
    rfl
  have hp6 : pat6 (serDMYdot4 y m0 d) = none := by
    unfold pat6
    rw [grp3_fail_len1 (by rw [htd]; rw [pad2N_len]; omega)]
    rfl
  have hp7 : pat7 (serDMYdot4 y m0 d) = some ⟨(d : Int), (m0 : Int), (y : Int)⟩ := by
    unfold pat7 serDMYdot4
    rw [grp3_success (pad2N_digits d) (pad2N_digits _) (pad4N_digits y) (by decide)
      (by decide) (by decide) (by decide)
      (by rw [pad2N_len]; omega) (by rw [pad2N_len]; omega) (by rw [pad4N_len]; omega)]
    dsimp only [Option.map]
    rw [digitsVal_pad2N (by omega), digitsVal_pad2N (by omega), digitsVal_pad4N (by omega)]
    simp only [Option.some_inj, Ymd.mk.injEq]
    refine ⟨trivial, by push_cast; ring, trivial⟩
  unfold datePatterns
  rw [firstValid_cons_none hp1, firstValid_cons_none hp2, firstValid_cons_none hp3,
    firstValid_cons_none hp4, firstValid_cons_none hp5, firstValid_cons_none hp6,
    firstValid_cons_some hp7 (validateYmd_success ⟨hm, hd1, hd2⟩ hy1 hy2)]

lemma firstValid_serDMYdot2 {y m0 d : Nat} (hv : validDate y m0 d) (hy1 : 1990 ≤ y)
    (hy2 : y ≤ 2049) :
    firstValid (serDMYdot2 y m0 d) datePatterns =
      some ⟨(y : Int), (m0 : Int), (d : Int)⟩ := by
  obtain ⟨hm, hd1, hd2⟩ := hv
  have hd31 := d_le_31 ⟨hm, hd1, hd2⟩
  have htd : takeDigits (serDMYdot2 y m0 d) =
      (pad2N d, '.' :: (pad2N (m0+1) ++ '.' :: pad2N (y % 100))) := by
    unfold serDMYdot2
    exact takeDigits_split _ (pad2N_digits d)
      (fun c r2 h => by injection h with h1 h2; rw [← h1]; decide)
  have hp1 : pat1 (serDMYdot2 y m0 d) = none := by
    unfold pat1
    rw [grp3_fail_len1 (by rw [htd]; rw [pad2N_len]; omega)]
    rfl
  have hp2 : pat2 (serDMYdot2 y m0 d) = none := by
    unfold serDMYdot2
    exact pat2_fail_sep (pad2N_digits d) (by decide) (by rw [pad2N_len]; omega) (by decide)
  have hp3 : pat3 (serDMYdot2 y m0 d) = none :=
    pat3_fail_nonletter rfl (dig_letter (Nat.mod_lt _ (by norm_num)))
  have hp4 : pat4 (serDMYdot2 y m0 d) = none := by
    unfold pat4 serDMYdot2
    rw [grp3_fail_sep1 (pad2N_digits d) (by decide) (by decide) (by rw [pad2N_len]; omega)]
    rfl
  have hp5 : pat5 (serDMYdot2 y m0 d) = none := by
    unfold pat5 serDMYdot2
    rw [grp3_fail_sep1 (pad2N_digits d) (by decide) (by decide) (by rw [pad2N_len]; omega)]
    rfl
  have hp6 : pat6 (serDMYdot2 y m0 d) = none := by
    unfold pat6
    rw [grp3_fail_len1 (by rw [htd]; rw [pad2N_len]; omega)]
    rfl
  have hp7 : pat7 (serDMYdot2 y m0 d) = none := by
    unfold pat7 serDMYdot2
    rw [grp3_fail_len3 (pad2N_digits d) (pad2N_digits _) (pad2N_digits _) (by decide)
      (by decide) (by decide) (by decide)
      (by rw [pad2N_len]; omega) (by rw [pad2N_len]; omega) (by rw [pad2N_len]; omega)]
    rfl
  have hp8 : pat8 (serDMYdot2 y m0 d) = some ⟨(d : Int), (m0 : Int), (y : Int)⟩ := by
    unfold pat8 serDMYdot2
    rw [grp3_success (pad2N_digits d) (pad2N_digits _) (pad2N_digits _) (by decide)
      (by decide) (by decide) (by decide)
      (by rw [pad2N_len]; omega) (by rw [pad2N_len]; omega) (by rw [pad2N_len]; omega)]
    dsimp only [Option.map]
    rw [digitsVal_pad2N (by omega), digitsVal_pad2N (by omega),
      digitsVal_pad2N (Nat.mod_lt _ (by norm_num))]
    rw [expandYear_2digit hy1 hy2]
    simp only [Option.some_inj, Ymd.mk.injEq]
    refine ⟨trivial, by push_cast; ring, trivial⟩
  unfold datePatterns
  rw [firstValid_cons_none hp1, firstValid_cons_none hp2, firstValid_cons_none hp3,
    firstValid_cons_none hp4, firstValid_cons_none hp5, firstValid_cons_none hp6,
    firstValid_cons_none hp7,
    firstValid_cons_some hp8 (validateYmd_success ⟨hm, hd1, hd2⟩ hy1 (by omega))]

lemma serCompact_digits (y m0 d : Nat) : ∀ c ∈ serCompact y m0 d, isDigitC c = true := by
  intro c hc
  unfold serCompact at hc
  rcases List.mem_append.mp hc with h | h
  · rcases List.mem_append.mp h with h2 | h2
    · exact pad4N_digits y c h2
    · exact pad2N_digits _ c h2
  · exact pad2N_digits _ c h

lemma serCompact_len (y m0 d : Nat) : (serCompact y m0 d).length = 8 := by
  unfold serCompact
  simp [List.length_append, pad4N_len, pad2N_len]

lemma firstValid_serCompact {y m0 d : Nat} (hv : validDate y m0 d) (hy1 : 1990 ≤ y)
    (hy2 : y ≤ 2100) :
    firstValid (serCompact y m0 d) datePatterns =
      some ⟨(y : Int), (m0 : Int), (d : Int)⟩ := by
  obtain ⟨hm, hd1, hd2⟩ := hv
  have hd31 := d_le_31 ⟨hm, hd1, hd2⟩
  have htd : takeDigits (serCompact y m0 d) = (serCompact y m0 d, []) :=
    takeDigits_all (serCompact_digits y m0 d)
  have hlen8 : (takeDigits (serCompact y m0 d)).1.length = 8 := by
    rw [htd]
    exact serCompact_len y m0 d
  have hp1 : pat1 (serCompact y m0 d) = none := by
    unfold pat1
    rw [grp3_fail_len1 (by omega)]
    rfl
  have hp2 : pat2 (serCompact y m0 d) = none := pat2_fail_len (by omega)
  have hp3 : pat3 (serCompact y m0 d) = none :=
    pat3_fail_nonletter rfl (dig_letter (Nat.mod_lt _ (by norm_num)))
  have hp4 : pat4 (serCompact y m0 d) = none := by
    unfold pat4
    rw [grp3_fail_len1 (by omega)]
    rfl
  have hp5 : pat5 (serCompact y m0 d) = none := by
    unfold pat5
    rw [grp3_fail_len1 (by omega)]
    rfl
  have hp6 : pat6 (serCompact y m0 d) = none := by
    unfold pat6
    rw [grp3_fail_len1 (by omega)]
    rfl
  have hp7 : pat7 (serCompact y m0 d) = none := by
    unfold pat7
    rw [grp3_fail_len1 (by omega)]
    rfl
  have hp8 : pat8 (serCompact y m0 d) = none := by
    unfold pat8
    rw [grp3_fail_len1 (by omega)]
    rfl
  have e1 : (serCompact y m0 d).take 4 = pad4N y := by
    unfold serCompact
    rw [List.append_assoc]
    exact List.take_left' (pad4N_len y)
  have e2 : (serCompact y m0 d).drop 4 = pad2N (m0+1) ++ pad2N d := by
    unfold serCompact
    rw [List.append_assoc]
    exact List.drop_left' (pad4N_len y)
  have e3 : ((serCompact y m0 d).drop 4).take 2 = pad2N (m0+1) := by
    rw [e2]
    exact List.take_left' (pad2N_len _)
  have e4 : (serCompact y m0 d).drop 6 = pad2N d := by
    rw [show (6 : Nat) = 4 + 2 from rfl, ← List.drop_drop, e2]
    exact List.drop_left' (pad2N_len _)
  have hp9 : pat9 (serCompact y m0 d) = some ⟨(d : Int), (m0 : Int), (y : Int)⟩ := by
    unfold pat9
    rw [htd]
    dsimp only
    rw [if_pos (by simp [serCompact_len])]
    rw [e1, e3, e4]
    rw [digitsVal_pad2N (by omega), digitsVal_pad2N (by omega), digitsVal_pad4N (by omega)]
    simp only [Option.some_inj, Ymd.mk.injEq]
    refine ⟨trivial, by push_cast; ring, trivial⟩
  unfold datePatterns
  rw [firstValid_cons_none hp1, firstValid_cons_none hp2, firstValid_cons_none hp3,
    firstValid_cons_none hp4, firstValid_cons_none hp5, firstValid_cons_none hp6,
    firstValid_cons_none hp7, firstValid_cons_none hp8,
    firstValid_cons_some hp9 (validateYmd_success ⟨hm, hd1, hd2⟩ hy1 hy2)]


lemma takeWhile_run {p : Char → Bool} {g : Str} (r : Str) (hg : ∀ x ∈ g, p x = true)
    (hr : ∀ c r2, r = c :: r2 → p c = false) :
    (g ++ r).takeWhile p = g ∧ (g ++ r).dropWhile p = r := by
  induction g with
  | nil =>
      rcases r with _ | ⟨c, r2⟩
      · exact ⟨rfl, rfl⟩
      · have hc := hr c r2 rfl
        simp [List.takeWhile_cons, List.dropWhile_cons, hc]
  | cons x rest ih =>
      have hx := hg x (List.mem_cons_self _ _)
      have ih2 := ih (fun c2 hc2 => hg c2 (List.mem_cons_of_mem _ hc2))
      simp only [List.cons_append, List.takeWhile_cons, List.dropWhile_cons, hx,
        ite_true, if_true]
      exact ⟨by rw [ih2.1], by rw [ih2.2]⟩

lemma dig_skip {k : Nat} (hk : k < 10) :
    (isDateSep (dig k) || isWs (dig k) || decide (dig k = ',')) = false := by
  interval_cases k <;> decide

lemma pad4N_skip (n : Nat) :
    ∀ c ∈ pad4N n, (isDateSep c || isWs c || decide (c = ',')) = false := by
  intro c hc
  unfold pad4N at hc
  simp only [List.mem_cons, List.not_mem_nil, or_false] at hc
  rcases hc with h | h | h | h <;>
    exact h ▸ dig_skip (Nat.mod_lt _ (by norm_num))

lemma monthName3_not_digit {m0 : Nat} (hm : m0 ≤ 11) :
    ∀ c ∈ monthName3 m0, isDigitC c = false := by
  interval_cases m0 <;> decide

lemma dropWhile_self_of {p : Char → Bool} {g : Str}
    (hp : ∀ c r2, g = c :: r2 → p c = false) : g.dropWhile p = g := by
  cases g with
  | nil => rfl
  | cons x t => rw [List.dropWhile_cons_of_neg (by simp [hp x t rfl])]

lemma head_append_mem {l r : List Char} {c : Char} {r2 : List Char} (hne : l ≠ [])
    (h : l ++ r = c :: r2) : c ∈ l := by
  cases l with
  | nil => exact absurd rfl hne
  | cons a t =>
      rw [List.cons_append] at h
      injection h with h1 h2
      exact h1 ▸ List.mem_cons_self a t

lemma monthName3_letters {m0 : Nat} (hm : m0 ≤ 11) :
    ∀ c ∈ monthName3 m0, isAsciiLetter c = true := by
  interval_cases m0 <;> decide

lemma monthName3_len {m0 : Nat} (hm : m0 ≤ 11) : (monthName3 m0).length = 3 := by
  interval_cases m0 <;> rfl

lemma monthName3_ne_nil {m0 : Nat} (hm : m0 ≤ 11) : monthName3 m0 ≠ [] := by
  interval_cases m0 <;> decide

lemma monthLookup_name {m0 : Nat} (hm : m0 ≤ 11) :
    monthLookup (lowerStr (monthName3 m0)) = some (m0 : Int) := by
  interval_cases m0 <;> decide

lemma expandYear_ge100 {y : Int} (h : 100 ≤ y) : expandYear y = y := by
  unfold expandYear
  rw [if_pos (by omega)]

lemma firstValid_serDMonY {y m0 d : Nat} (hv : validDate y m0 d) (hy1 : 1990 ≤ y)
    (hy2 : y ≤ 2100) :
    firstValid (serDMonY y m0 d) datePatterns =
      some ⟨(y : Int), (m0 : Int), (d : Int)⟩ := by
  obtain ⟨hm, hd1, hd2⟩ := hv
  have hd31 := d_le_31 ⟨hm, hd1, hd2⟩
  have htd : takeDigits (serDMonY y m0 d) =
      (pad2N d, '-' :: (monthName3 m0 ++ '-' :: pad4N y)) := by
    unfold serDMonY
    exact takeDigits_split _ (pad2N_digits d)
      (fun c r2 h => by injection h with h1 h2; rw [← h1]; decide)
  have hp1 : pat1 (serDMonY y m0 d) = none := by
    unfold pat1
    rw [grp3_fail_len1 (by rw [htd]; rw [pad2N_len]; omega)]
    rfl
  have hrun := takeWhile_run (p := isAsciiLetter) ('-' :: pad4N y)
    (monthName3_letters hm) (fun c r2 h => by injection h with h1 h2; rw [← h1]; decide)
  have hp2 : pat2 (serDMonY y m0 d) = some ⟨(d : Int), (m0 : Int), (y : Int)⟩ := by
    unfold pat2 serDMonY
    rw [takeDigits_split _ (pad2N_digits d)
      (fun c r2 h => by injection h with h1 h2; rw [← h1]; decide)]
    dsimp only
    rw [if_neg (by
      simp only [Bool.or_eq_true, decide_eq_true_eq, not_or, not_lt]
      rw [pad2N_len]
      omega)]
    rw [if_neg (by decide)]
    rw [hrun.1, hrun.2]
    rw [if_neg (by
      simp only [Bool.or_eq_true, decide_eq_true_eq, not_or, not_lt]
      rw [monthName3_len hm]
      omega)]
    rw [List.dropWhile_cons_of_pos (by decide)]
    rw [dropWhile_self_of (fun c r2 h => by
      have hc : c ∈ pad4N y := h ▸ List.mem_cons_self c r2
      exact pad4N_skip y c hc)]
    rw [takeDigits_all (pad4N_digits y)]
    dsimp only
    rw [if_neg (by
      simp only [Bool.or_eq_true, decide_eq_true_eq, List.isEmpty_nil,
        Bool.not_true, Bool.or_false, not_or, not_lt]
      rw [pad4N_len]
      omega)]
    rw [monthLookup_name hm]
    rw [digitsVal_pad2N (by omega), digitsVal_pad4N (by omega)]
    rw [expandYear_ge100 (by exact_mod_cast le_trans (by norm_num) hy1)]
  unfold datePatterns
  rw [firstValid_cons_none hp1,
    firstValid_cons_some hp2 (validateYmd_success ⟨hm, hd1, hd2⟩ hy1 hy2)]

lemma dig_not_ws {k : Nat} (hk : k < 10) : isWs (dig k) = false := by
  interval_cases k <;> decide

lemma pad2N_not_ws (n : Nat) : ∀ c ∈ pad2N n, isWs c = false := by
  intro c hc
  unfold pad2N at hc
  simp only [List.mem_cons, List.not_mem_nil, or_false] at hc
  rcases hc with h | h <;> exact h ▸ dig_not_ws (Nat.mod_lt _ (by norm_num))

lemma pad4N_not_ws (n : Nat) : ∀ c ∈ pad4N n, isWs c = false := by
  intro c hc
  unfold pad4N at hc
  simp only [List.mem_cons, List.not_mem_nil, or_false] at hc
  rcases hc with h | h | h | h <;> exact h ▸ dig_not_ws (Nat.mod_lt _ (by norm_num))

lemma pad2N_ne_nil (n : Nat) : pad2N n ≠ [] := by
  unfold pad2N
  exact List.cons_ne_nil _ _

lemma firstValid_serMonDY {y m0 d : Nat} (hv : validDate y m0 d) (hy1 : 1990 ≤ y)
    (hy2 : y ≤ 2100) :
    firstValid (serMonDY y m0 d) datePatterns =
      some ⟨(y : Int), (m0 : Int), (d : Int)⟩ := by
  obtain ⟨hm, hd1, hd2⟩ := hv
  have hd31 := d_le_31 ⟨hm, hd1, hd2⟩
  have hmdig : ∀ c r2, serMonDY y m0 d = c :: r2 → isDigitC c = false :=
    fun c r2 h => monthName3_not_digit hm c (head_append_mem (monthName3_ne_nil hm) h)
  have htd : takeDigits (serMonDY y m0 d) = ([], serMonDY y m0 d) :=
    takeDigits_split _ (fun x hx => absurd hx (List.not_mem_nil x)) hmdig
  have hp1 : pat1 (serMonDY y m0 d) = none := by
    unfold pat1
    rw [grp3_fail_len1 (by rw [htd]; simp)]
    rfl
  have hp2 : pat2 (serMonDY y m0 d) = none :=
    pat2_fail_len (by rw [htd]; simp)
  have hrunL := takeWhile_run (p := isAsciiLetter)
    (' ' :: (pad2N d ++ ',' :: ' ' :: pad4N y)) (monthName3_letters hm)
    (fun c r2 h => by injection h with h1 h2; rw [← h1]; decide)
  have hpadws : ∀ c r2, pad2N d ++ ',' :: ' ' :: pad4N y = c :: r2 → isWs c = false :=
    fun c r2 h => pad2N_not_ws d c (head_append_mem (pad2N_ne_nil d) h)
  have h0 : (pad2N d ++ ',' :: ' ' :: pad4N y).takeWhile isWs = [] ∧
      (pad2N d ++ ',' :: ' ' :: pad4N y).dropWhile isWs =
        pad2N d ++ ',' :: ' ' :: pad4N y :=
    takeWhile_run (g := []) (pad2N d ++ ',' :: ' ' :: pad4N y) (by simp) hpadws
  have hp3 : pat3 (serMonDY y m0 d) = some ⟨(d : Int), (m0 : Int), (y : Int)⟩ := by
    unfold pat3 serMonDY
    rw [hrunL.1, hrunL.2]
    dsimp only
    rw [if_neg (by
      simp only [Bool.or_eq_true, decide_eq_true_eq, not_or, not_lt]
      rw [monthName3_len hm]
      omega)]
    rw [List.takeWhile_cons_of_pos (by decide), List.dropWhile_cons_of_pos (by decide)]
    rw [h0.1, h0.2]
    rw [if_neg (by simp)]
    rw [takeDigits_split (',' :: ' ' :: pad4N y) (pad2N_digits d)
      (fun c r2 h => by injection h with h1 h2; rw [← h1]; decide)]
    dsimp only
    rw [if_neg (by simp [pad2N])]
    rw [if_neg (by simp)]
    rw [if_neg (by simp [pad2N_len])]
    rw [if_pos (show (',' : Char) = ',' from rfl)]
    rw [List.dropWhile_cons_of_pos (by decide)]
    rw [dropWhile_self_of (fun c r2 h => by
      have hc : c ∈ pad4N y := h ▸ List.mem_cons_self c r2
      exact pad4N_not_ws y c hc)]
    rw [takeDigits_all (pad4N_digits y)]
    dsimp only
    rw [if_neg (by
      simp only [Bool.or_eq_true, decide_eq_true_eq, List.isEmpty_nil,
        Bool.not_true, Bool.or_false, not_or, not_lt]
      rw [pad4N_len]
      omega)]
    rw [monthLookup_name hm]
    rw [digitsVal_pad2N (by omega), digitsVal_pad4N (by omega)]
    dsimp only
    rw [expandYear_ge100 (by exact_mod_cast le_trans (show (100 : Nat) ≤ 1990 by norm_num) hy1)]
  unfold datePatterns
  rw [firstValid_cons_none hp1, firstValid_cons_none hp2,
    firstValid_cons_some hp3 (validateYmd_success ⟨hm, hd1, hd2⟩ hy1 hy2)]




/-! ### The pre-parse cleanup is the identity on the serialised formats. -/

lemma noColon_nil : noColon [] := fun c hc => absurd hc (List.not_mem_nil c)

lemma noColon_cons_tail {c : Char} {r : Str} (h : noColon (c :: r)) : noColon r :=
  fun x hx => h x (List.mem_cons_of_mem c hx)

lemma safeNC_eps : rmSafeNC rmEps := fun pv s k hs hk => hk pv s hs

lemma safeNC_cls (p : Char → Bool) : rmSafeNC (rmCls p) := by
  intro pv s k hs hk
  unfold rmCls
  cases s with
  | nil => rfl
  | cons c r =>
      dsimp only
      split
      · exact hk _ _ (noColon_cons_tail hs)
      · rfl

lemma safeNC_chr (ci : Bool) (c : Char) : rmSafeNC (rmChar ci c) := safeNC_cls _

lemma safeNC_seq {a b : RM} (ha : rmSafeNC a) (hb : rmSafeNC b) :
    rmSafeNC (rmSeq a b) := by
  intro pv s k hs hk
  unfold rmSeq
  exact ha pv s _ hs (fun pv2 s2 hs2 => hb pv2 s2 k hs2 hk)

lemma safeNC_alt {a b : RM} (ha : rmSafeNC a) (hb : rmSafeNC b) :
    rmSafeNC (rmAlt a b) := by
  intro pv s k hs hk
  unfold rmAlt
  rw [ha pv s k hs hk, hb pv s k hs hk]
  rfl

lemma safeNC_opt {a : RM} (ha : rmSafeNC a) : rmSafeNC (rmOpt a) := by
  intro pv s k hs hk
  unfold rmOpt
  rw [ha pv s k hs hk, hk pv s hs]
  rfl

lemma safeNC_repUp (p : Char → Bool) : ∀ n, rmSafeNC (rmRepUp p n) := by
  intro n
  induction n with
  | zero => exact safeNC_eps
  | succ n ih => exact safeNC_alt (safeNC_seq (safeNC_cls p) ih) safeNC_eps

lemma safeNC_star (p : Char → Bool) : rmSafeNC (rmStar p) := by
  intro pv s k hs hk
  unfold rmStar
  exact safeNC_repUp p s.length pv s k hs hk

lemma safeNC_plus (p : Char → Bool) : rmSafeNC (rmPlus p) :=
  safeNC_seq (safeNC_cls p) (safeNC_star p)

lemma safeNC_seqs {ms : List RM} (h : ∀ m ∈ ms, rmSafeNC m) : rmSafeNC (rmSeqs ms) := by
  induction ms with
  | nil => exact safeNC_eps
  | cons a t ih =>
      have h2 : rmSafeNC (rmSeqs t) := ih (fun m hm => h m (List.mem_cons_of_mem a hm))
      show rmSafeNC (rmSeq a (rmSeqs t))
      exact safeNC_seq (h a (List.mem_cons_self a t)) h2

lemma safeNC_str (ci : Bool) (lit : Str) : rmSafeNC (rmStr ci lit) := by
  unfold rmStr
  refine safeNC_seqs ?_
  intro m hm
  simp only [List.mem_map] at hm
  obtain ⟨c, _, hc⟩ := hm
  exact hc ▸ safeNC_chr ci c

lemma safeNC_rep (p : Char → Bool) (lo hi : Nat) : rmSafeNC (rmRep p lo hi) := by
  refine safeNC_seq (safeNC_seqs ?_) (safeNC_repUp p _)
  intro m hm
  rw [List.eq_of_mem_replicate hm]
  exact safeNC_cls p

lemma failsNC_colon : rmFailsNC (rmChar false ':') := by
  intro pv s k hs
  unfold rmChar rmCls
  cases s with
  | nil => rfl
  | cons c r =>
      have hc := hs c (List.mem_cons_self c r)
      dsimp only
      rw [if_neg (by simp [hc])]

lemma failsNC_seq_left {a b : RM} (ha : rmFailsNC a) : rmFailsNC (rmSeq a b) := by
  intro pv s k hs
  unfold rmSeq
  exact ha pv s _ hs

lemma failsNC_seq_right {a b : RM} (ha : rmSafeNC a) (hb : rmFailsNC b) :
    rmFailsNC (rmSeq a b) := by
  intro pv s k hs
  unfold rmSeq
  exact ha pv s _ hs (fun pv2 s2 hs2 => hb pv2 s2 k hs2)

lemma timeRM_fails : rmFailsNC timeRM := by
  unfold timeRM rmSeqs
  dsimp only [List.foldr]
  exact failsNC_seq_right (safeNC_plus isWs)
    (failsNC_seq_right (safeNC_rep isDigitC 1 2)
      (failsNC_seq_left failsNC_colon))

lemma rmSearch_timeRM_none : ∀ (s : Str) (pv : Option Char), noColon s →
    rmSearch timeRM pv s = none := by
  intro s
  induction s with
  | nil =>
      intro pv hs
      unfold rmSearch rmRunAt
      rw [timeRM_fails pv [] _ hs]
  | cons c r ih =>
      intro pv hs
      unfold rmSearch rmRunAt
      rw [timeRM_fails pv (c :: r) _ hs]
      dsimp only
      rw [ih (some c) (noColon_cons_tail hs)]

lemma stripTime_id {s : Str} (h : noColon s) : stripTime s = s := by
  unfold stripTime rmReplaceFirst
  rw [rmSearch_timeRM_none s none h]

lemma weekdayRM_fail_dig {k1 : Nat} (hk : k1 < 10) {s r : Str}
    (hs : s = dig k1 :: r) (pv : Option Char)
    (k : Option Char → Str → Option Str) : weekdayRM pv s k = none := by
  subst hs
  interval_cases k1 <;> rfl

lemma weekdayRM_fail_pad2 (n : Nat) (r : Str) (pv : Option Char)
    (k : Option Char → Str → Option Str) : weekdayRM pv (pad2N n ++ r) k = none :=
  weekdayRM_fail_dig (Nat.mod_lt _ (by norm_num)) rfl pv k

lemma weekdayRM_fail_pad4 (n : Nat) (r : Str) (pv : Option Char)
    (k : Option Char → Str → Option Str) : weekdayRM pv (pad4N n ++ r) k = none :=
  weekdayRM_fail_dig (Nat.mod_lt _ (by norm_num)) rfl pv k

lemma weekdayRM_fail_month {m0 : Nat} (hm : m0 ≤ 11) {s r : Str}
    (hs : s = monthName3 m0 ++ r) (pv : Option Char)
    (k : Option Char → Str → Option Str) : weekdayRM pv s k = none := by
  subst hs
  interval_cases m0 <;> rfl

lemma stripWeekday_id {s : Str} (h : ∀ pv k, weekdayRM pv s k = none) :
    stripWeekday s = s := by
  unfold stripWeekday rmRunAt
  rw [h none _]

lemma adjOK_tail {c : Char} {r : Str} (h : adjOK (c :: r) = true) : adjOK r = true := by
  cases r with
  | nil => rfl
  | cons c2 t =>
      unfold adjOK at h
      simp only [Bool.and_eq_true] at h
      exact h.2

lemma adjOK_cons {c : Char} {b : Str}
    (hcb : ∀ c2 t, b = c2 :: t → ordSafe2 c c2 = true) (hb : adjOK b = true) :
    adjOK (c :: b) = true := by
  cases b with
  | nil => rfl
  | cons c2 t =>
      unfold adjOK
      rw [hcb c2 t rfl, hb]
      rfl

lemma ordRM_fails : ∀ (pv : Option Char) (s : Str) k, adjOK s = true →
    ordRM pv s k = none := by
  intro pv s k hs
  cases s with
  | nil => rfl
  | cons c r =>
      unfold ordRM rmSeqs
      dsimp only [List.foldr]
      unfold rmSeq rmCls
      dsimp only
      by_cases hdig : isDigitC c = true
      · rw [if_pos hdig]
        cases r with
        | nil => rfl
        | cons c2 t =>
            have hns : snrt c2 = false := by
              cases hb : snrt c2
              · rfl
              · exfalso
                unfold adjOK at hs
                simp only [Bool.and_eq_true] at hs
                have h1 := hs.1
                unfold ordSafe2 at h1
                rw [hdig, hb] at h1
                exact absurd h1 (by decide)
            unfold snrt at hns
            simp only [Bool.or_eq_false_iff, decide_eq_false_iff_not] at hns
            obtain ⟨⟨⟨hn1, hn2⟩, hn3⟩, hn4⟩ := hns
            unfold rmAlt rmStr rmSeqs
            dsimp only [List.map, List.foldr]
            unfold rmSeq rmChar rmCls
            dsimp only
            simp [hn1, hn2, hn3, hn4, show lowerC 's' = 's' from rfl,
              show lowerC 'n' = 'n' from rfl, show lowerC 'r' = 'r' from rfl,
              show lowerC 't' = 't' from rfl]
      · rw [if_neg hdig]

lemma rmSearch_ordRM_none : ∀ (s : Str) (pv : Option Char), adjOK s = true →
    rmSearch ordRM pv s = none := by
  intro s
  induction s with
  | nil =>
      intro pv hs
      unfold rmSearch rmRunAt
      rw [ordRM_fails pv [] _ hs]
  | cons c r ih =>
      intro pv hs
      unfold rmSearch rmRunAt
      rw [ordRM_fails pv (c :: r) _ hs]
      dsimp only
      rw [ih (some c) (adjOK_tail hs)]

lemma stripOrdinals_id {s : Str} (h : adjOK s = true) : stripOrdinals s = s := by
  unfold stripOrdinals rmGReplace rmGReplaceF
  rw [rmSearch_ordRM_none s none h]

lemma trimStr_id {s : Str}
    (h1 : ∀ c r2, s = c :: r2 → isWs c = false)
    (h2 : ∀ c r2, s.reverse = c :: r2 → isWs c = false) : trimStr s = s := by
  unfold trimStr
  rw [dropWhile_self_of h1, dropWhile_self_of h2, List.reverse_reverse]

lemma cleanupDate_id {s : Str}
    (h1 : ∀ c r2, s = c :: r2 → isWs c = false)
    (h2 : ∀ c r2, s.reverse = c :: r2 → isWs c = false)
    (hwk : ∀ pv k, weekdayRM pv s k = none)
    (hnc : noColon s)
    (hadj : adjOK s = true) :
    cleanupDate s = s := by
  unfold cleanupDate
  rw [trimStr_id h1 h2, stripWeekday_id hwk, stripTime_id hnc, stripOrdinals_id hadj]



/-! ### Character facts about the serialised formats. -/

lemma dig_ne_colon {k : Nat} (hk : k < 10) : dig k ≠ ':' := by
  interval_cases k <;> decide

lemma noColon_append {a b : Str} (ha : noColon a) (hb : noColon b) :
    noColon (a ++ b) := by
  intro c hc
  rcases List.mem_append.mp hc with h | h
  · exact ha c h
  · exact hb c h

lemma noColon_cons {c : Char} {r : Str} (hc : c ≠ ':') (hr : noColon r) :
    noColon (c :: r) := by
  intro x hx
  rcases List.mem_cons.mp hx with h | h
  · exact h ▸ hc
  · exact hr x h

lemma noColon_pad2N (n : Nat) : noColon (pad2N n) := by
  intro c hc
  unfold pad2N at hc
  simp only [List.mem_cons, List.not_mem_nil, or_false] at hc
  rcases hc with h | h <;> exact h ▸ dig_ne_colon (Nat.mod_lt _ (by norm_num))

lemma noColon_pad4N (n : Nat) : noColon (pad4N n) := by
  intro c hc
  unfold pad4N at hc
  simp only [List.mem_cons, List.not_mem_nil, or_false] at hc
  rcases hc with h | h | h | h <;> exact h ▸ dig_ne_colon (Nat.mod_lt _ (by norm_num))

lemma noColon_monthName3 {m0 : Nat} (hm : m0 ≤ 11) : noColon (monthName3 m0) := by
  unfold noColon
  interval_cases m0 <;> decide

lemma monthName3_not_ws {m0 : Nat} (hm : m0 ≤ 11) :
    ∀ c ∈ monthName3 m0, isWs c = false := by
  interval_cases m0 <;> decide

lemma pad4N_ne_nil (n : Nat) : pad4N n ≠ [] := by
  unfold pad4N
  exact List.cons_ne_nil _ _

lemma monthName3_ne_nil2 {m0 : Nat} (hm : m0 ≤ 11) : monthName3 m0 ≠ [] :=
  monthName3_ne_nil hm

lemma snrt_dig {k : Nat} (hk : k < 10) : snrt (dig k) = false := by
  interval_cases k <;> decide

lemma ordSafe2_right {c1 c2 : Char} (h : snrt c2 = false) : ordSafe2 c1 c2 = true := by
  unfold ordSafe2
  rw [h]
  simp

lemma ordSafe2_left {c1 c2 : Char} (h : isDigitC c1 = false) :
    ordSafe2 c1 c2 = true := by
  unfold ordSafe2
  rw [h]
  rfl

lemma adjOK_pad2N (n : Nat) : adjOK (pad2N n) = true := by
  unfold pad2N
  show (ordSafe2 (dig (n / 10 % 10)) (dig (n % 10)) && adjOK [dig (n % 10)]) = true
  rw [ordSafe2_right (snrt_dig (Nat.mod_lt _ (by norm_num)))]
  rfl

lemma adjOK_pad4N (n : Nat) : adjOK (pad4N n) = true := by
  unfold pad4N
  show (ordSafe2 (dig (n / 1000 % 10)) (dig (n / 100 % 10)) &&
    (ordSafe2 (dig (n / 100 % 10)) (dig (n / 10 % 10)) &&
      (ordSafe2 (dig (n / 10 % 10)) (dig (n % 10)) && adjOK [dig (n % 10)]))) = true
  rw [ordSafe2_right (snrt_dig (Nat.mod_lt _ (by norm_num))),
    ordSafe2_right (snrt_dig (Nat.mod_lt _ (by norm_num))),
    ordSafe2_right (snrt_dig (Nat.mod_lt _ (by norm_num)))]
  rfl

lemma adjOK_monthName3 {m0 : Nat} (hm : m0 ≤ 11) : adjOK (monthName3 m0) = true := by
  interval_cases m0 <;> decide

lemma adjOK_append {a b : Str} (hb : adjOK b = true)
    (hj : ∀ c1 c2 t2, b = c2 :: t2 → ordSafe2 c1 c2 = true) :
    ∀ (ha : adjOK a = true), adjOK (a ++ b) = true := by
  induction a with
  | nil => intro ha; simpa using hb
  | cons x t ih =>
      intro ha
      rw [List.cons_append]
      refine adjOK_cons ?_ (ih (adjOK_tail ha))
      intro c2 t2 h
      cases t with
      | nil =>
          simp only [List.nil_append] at h
          exact hj x c2 t2 h
      | cons c3 t3 =>
          rw [List.cons_append] at h
          injection h with h1 h2
          subst h1
          unfold adjOK at ha
          simp only [Bool.and_eq_true] at ha
          exact ha.1

lemma pad2N_snrt (n : Nat) : ∀ c ∈ pad2N n, snrt c = false := by
  intro c hc
  unfold pad2N at hc
  simp only [List.mem_cons, List.not_mem_nil, or_false] at hc
  rcases hc with h | h <;> exact h ▸ snrt_dig (Nat.mod_lt _ (by norm_num))

lemma pad4N_snrt (n : Nat) : ∀ c ∈ pad4N n, snrt c = false := by
  intro c hc
  unfold pad4N at hc
  simp only [List.mem_cons, List.not_mem_nil, or_false] at hc
  rcases hc with h | h | h | h <;> exact h ▸ snrt_dig (Nat.mod_lt _ (by norm_num))



lemma revHead_not_ws {s : Str} {n : Nat}
    (hrev : s.reverse.head? = some (dig (n % 10))) :
    ∀ c r2, s.reverse = c :: r2 → isWs c = false := by
  intro c r2 h
  rw [h] at hrev
  simp only [List.head?_cons, Option.some_inj] at hrev
  rw [hrev]
  exact dig_not_ws (Nat.mod_lt _ (by norm_num))

lemma cleanup_serISO (y m0 d : Nat) : cleanupDate (serISO y m0 d) = serISO y m0 d := by
  refine cleanupDate_id
    (fun c r2 h => pad4N_not_ws y c (head_append_mem (pad4N_ne_nil y) h))
    (revHead_not_ws (n := d) (by simp [serISO, pad2N, pad4N, List.reverse_append]))
    (fun pv k => weekdayRM_fail_pad4 y _ pv k)
    (noColon_append (noColon_pad4N y) (noColon_cons (by decide)
      (noColon_append (noColon_pad2N _) (noColon_cons (by decide) (noColon_pad2N d)))))
    ?_
  refine adjOK_append ?_ ?_ (adjOK_pad4N y)
  · refine adjOK_cons (fun c2 t h => ordSafe2_left (by decide)) ?_
    refine adjOK_append ?_ ?_ (adjOK_pad2N (m0 + 1))
    · exact adjOK_cons (fun c2 t h => ordSafe2_left (by decide)) (adjOK_pad2N d)
    · intro c1 c2 t2 h
      injection h with h1 _
      rw [← h1]
      exact ordSafe2_right (by decide)
  · intro c1 c2 t2 h
    injection h with h1 _
    rw [← h1]
    exact ordSafe2_right (by decide)



lemma cleanup_serDMonY {m0 : Nat} (hm : m0 ≤ 11) (y d : Nat) :
    cleanupDate (serDMonY y m0 d) = serDMonY y m0 d := by
  refine cleanupDate_id
    (fun c r2 h => pad2N_not_ws d c (head_append_mem (pad2N_ne_nil d) h))
    (revHead_not_ws (n := y) (by simp [serDMonY, pad2N, pad4N, List.reverse_append]))
    (fun pv k => weekdayRM_fail_pad2 d _ pv k)
    (noColon_append (noColon_pad2N d) (noColon_cons (by decide)
      (noColon_append (noColon_monthName3 hm) (noColon_cons (by decide)
        (noColon_pad4N y)))))
    ?_
  refine adjOK_append ?_ ?_ (adjOK_pad2N d)
  · refine adjOK_cons (fun c2 t h => ordSafe2_left (by decide)) ?_
    refine adjOK_append ?_ ?_ (adjOK_monthName3 hm)
    · exact adjOK_cons (fun c2 t h => ordSafe2_left (by decide)) (adjOK_pad4N y)
    · intro c1 c2 t2 h
      injection h with h1 _
      rw [← h1]
      exact ordSafe2_right (by decide)
  · intro c1 c2 t2 h
    injection h with h1 _
    rw [← h1]
    exact ordSafe2_right (by decide)

lemma cleanup_serMonDY {m0 : Nat} (hm : m0 ≤ 11) (y d : Nat) :
    cleanupDate (serMonDY y m0 d) = serMonDY y m0 d := by
  refine cleanupDate_id
    (fun c r2 h => monthName3_not_ws hm c (head_append_mem (monthName3_ne_nil hm) h))
    (revHead_not_ws (n := y) (by simp [serMonDY, pad2N, pad4N, List.reverse_append]))
    (fun pv k => weekdayRM_fail_month hm rfl pv k)
    (noColon_append (noColon_monthName3 hm) (noColon_cons (by decide)
      (noColon_append (noColon_pad2N d) (noColon_cons (by decide)
        (noColon_cons (by decide) (noColon_pad4N y))))))
    ?_
  refine adjOK_append ?_ ?_ (adjOK_monthName3 hm)
  · refine adjOK_cons (fun c2 t h => ordSafe2_left (by decide)) ?_
    refine adjOK_append ?_ ?_ (adjOK_pad2N d)
    · exact adjOK_cons (fun c2 t h => ordSafe2_left (by decide))
        (adjOK_cons (fun c2 t h => ordSafe2_left (by decide)) (adjOK_pad4N y))
    · intro c1 c2 t2 h
      injection h with h1 _
      rw [← h1]
      exact ordSafe2_right (by decide)
  · intro c1 c2 t2 h
    injection h with h1 _
    rw [← h1]
    exact ordSafe2_right (by decide)

lemma cleanup_serDMY4 (y m0 d : Nat) :
    cleanupDate (serDMY4 y m0 d) = serDMY4 y m0 d := by
  refine cleanupDate_id
    (fun c r2 h => pad2N_not_ws d c (head_append_mem (pad2N_ne_nil d) h))
    (revHead_not_ws (n := y) (by simp [serDMY4, pad2N, pad4N, List.reverse_append]))
    (fun pv k => weekdayRM_fail_pad2 d _ pv k)
    (noColon_append (noColon_pad2N d) (noColon_cons (by decide)
      (noColon_append (noColon_pad2N _) (noColon_cons (by decide) (noColon_pad4N y)))))
    ?_
  refine adjOK_append ?_ ?_ (adjOK_pad2N d)
  · refine adjOK_cons (fun c2 t h => ordSafe2_left (by decide)) ?_
    refine adjOK_append ?_ ?_ (adjOK_pad2N (m0 + 1))
    · exact adjOK_cons (fun c2 t h => ordSafe2_left (by decide)) (adjOK_pad4N y)
    · intro c1 c2 t2 h
      injection h with h1 _
      rw [← h1]
      exact ordSafe2_right (by decide)
  · intro c1 c2 t2 h
    injection h with h1 _
    rw [← h1]
    exact ordSafe2_right (by decide)

lemma cleanup_serDMY2 (y m0 d : Nat) :
    cleanupDate (serDMY2 y m0 d) = serDMY2 y m0 d := by
  refine cleanupDate_id
    (fun c r2 h => pad2N_not_ws d c (head_append_mem (pad2N_ne_nil d) h))
    (revHead_not_ws (n := y % 100) (by simp [serDMY2, pad2N, pad4N, List.reverse_append]))
    (fun pv k => weekdayRM_fail_pad2 d _ pv k)
    (noColon_append (noColon_pad2N d) (noColon_cons (by decide)
      (noColon_append (noColon_pad2N _) (noColon_cons (by decide) (noColon_pad2N _)))))
    ?_
  refine adjOK_append ?_ ?_ (adjOK_pad2N d)
  · refine adjOK_cons (fun c2 t h => ordSafe2_left (by decide)) ?_
    refine adjOK_append ?_ ?_ (adjOK_pad2N (m0 + 1))
    · exact adjOK_cons (fun c2 t h => ordSafe2_left (by decide)) (adjOK_pad2N (y % 100))
    · intro c1 c2 t2 h
      injection h with h1 _
      rw [← h1]
      exact ordSafe2_right (by decide)
  · intro c1 c2 t2 h
    injection h with h1 _
    rw [← h1]
    exact ordSafe2_right (by decide)

lemma cleanup_serYMDdot (y m0 d : Nat) :
    cleanupDate (serYMDdot y m0 d) = serYMDdot y m0 d := by
  refine cleanupDate_id
    (fun c r2 h => pad4N_not_ws y c (head_append_mem (pad4N_ne_nil y) h))
    (revHead_not_ws (n := d) (by simp [serYMDdot, pad2N, pad4N, List.reverse_append]))
    (fun pv k => weekdayRM_fail_pad4 y _ pv k)
    (noColon_append (noColon_pad4N y) (noColon_cons (by decide)
      (noColon_append (noColon_pad2N _) (noColon_cons (by decide) (noColon_pad2N d)))))
    ?_
  refine adjOK_append ?_ ?_ (adjOK_pad4N y)
  · refine adjOK_cons (fun c2 t h => ordSafe2_left (by decide)) ?_
    refine adjOK_append ?_ ?_ (adjOK_pad2N (m0 + 1))
    · exact adjOK_cons (fun c2 t h => ordSafe2_left (by decide)) (adjOK_pad2N d)
    · intro c1 c2 t2 h
      injection h with h1 _
      rw [← h1]
      exact ordSafe2_right (by decide)
  · intro c1 c2 t2 h
    injection h with h1 _
    rw [← h1]
    exact ordSafe2_right (by decide)

lemma cleanup_serDMYdot4 (y m0 d : Nat) :
    cleanupDate (serDMYdot4 y m0 d) = serDMYdot4 y m0 d := by
  refine cleanupDate_id
    (fun c r2 h => pad2N_not_ws d c (head_append_mem (pad2N_ne_nil d) h))
    (revHead_not_ws (n := y) (by simp [serDMYdot4, pad2N, pad4N, List.reverse_append]))
    (fun pv k => weekdayRM_fail_pad2 d _ pv k)
    (noColon_append (noColon_pad2N d) (noColon_cons (by decide)
      (noColon_append (noColon_pad2N _) (noColon_cons (by decide) (noColon_pad4N y)))))
    ?_
  refine adjOK_append ?_ ?_ (adjOK_pad2N d)
  · refine adjOK_cons (fun c2 t h => ordSafe2_left (by decide)) ?_
    refine adjOK_append ?_ ?_ (adjOK_pad2N (m0 + 1))
    · exact adjOK_cons (fun c2 t h => ordSafe2_left (by decide)) (adjOK_pad4N y)
    · intro c1 c2 t2 h
      injection h with h1 _
      rw [← h1]
      exact ordSafe2_right (by decide)
  · intro c1 c2 t2 h
    injection h with h1 _
    rw [← h1]
    exact ordSafe2_right (by decide)

lemma cleanup_serDMYdot2 (y m0 d : Nat) :
    cleanupDate (serDMYdot2 y m0 d) = serDMYdot2 y m0 d := by
  refine cleanupDate_id
    (fun c r2 h => pad2N_not_ws d c (head_append_mem (pad2N_ne_nil d) h))
    (revHead_not_ws (n := y % 100) (by simp [serDMYdot2, pad2N, pad4N, List.reverse_append]))
    (fun pv k => weekdayRM_fail_pad2 d _ pv k)
    (noColon_append (noColon_pad2N d) (noColon_cons (by decide)
      (noColon_append (noColon_pad2N _) (noColon_cons (by decide) (noColon_pad2N _)))))
    ?_
  refine adjOK_append ?_ ?_ (adjOK_pad2N d)
  · refine adjOK_cons (fun c2 t h => ordSafe2_left (by decide)) ?_
    refine adjOK_append ?_ ?_ (adjOK_pad2N (m0 + 1))
    · exact adjOK_cons (fun c2 t h => ordSafe2_left (by decide)) (adjOK_pad2N (y % 100))
    · intro c1 c2 t2 h
      injection h with h1 _
      rw [← h1]
      exact ordSafe2_right (by decide)
  · intro c1 c2 t2 h
    injection h with h1 _
    rw [← h1]
    exact ordSafe2_right (by decide)

lemma pad4N_append_ne_nil (n : Nat) (r : Str) : pad4N n ++ r ≠ [] := by
  unfold pad4N
  exact List.cons_ne_nil _ _

lemma cleanup_serCompact (y m0 d : Nat) :
    cleanupDate (serCompact y m0 d) = serCompact y m0 d := by
  refine cleanupDate_id
    (fun c r2 h => ?_)
    (revHead_not_ws (n := d) (by simp [serCompact, pad2N, pad4N, List.reverse_append]))
    (fun pv k => weekdayRM_fail_dig (Nat.mod_lt _ (by norm_num))
      (show serCompact y m0 d = dig (y / 1000 % 10) ::
        (([dig (y / 100 % 10), dig (y / 10 % 10), dig (y % 10)] ++ pad2N (m0 + 1)) ++
          pad2N d) from rfl) pv k)
    (noColon_append (noColon_append (noColon_pad4N y) (noColon_pad2N _))
      (noColon_pad2N d))
    ?_
  · have hc : c ∈ pad4N y ++ pad2N (m0 + 1) :=
      head_append_mem (pad4N_append_ne_nil y _) h
    rcases List.mem_append.mp hc with h2 | h2
    · exact pad4N_not_ws y c h2
    · exact pad2N_not_ws _ c h2
  · refine adjOK_append ?_ ?_ ?_
    · exact adjOK_pad2N d
    · intro c1 c2 t2 h
      exact ordSafe2_right (pad2N_snrt d c2 (by rw [h]; exact List.mem_cons_self c2 t2))
    · refine adjOK_append ?_ ?_ (adjOK_pad4N y)
      · exact adjOK_pad2N (m0 + 1)
      · intro c1 c2 t2 h
        exact ordSafe2_right (pad2N_snrt (m0 + 1) c2 (by
          rw [h]; exact List.mem_cons_self c2 t2))



lemma parseDate_serISO (native : Str → Option JsDate) {y m0 d : Nat}
    (hv : validDate y m0 d) (hy1 : 1990 ≤ y) (hy2 : y ≤ 2100) :
    parseDate native (serISO y m0 d) = some ⟨(y : Int), (m0 : Int), (d : Int)⟩ := by
  unfold parseDate
  rw [if_neg (by simp [serISO, pad4N])]
  dsimp only
  rw [cleanup_serISO y m0 d, firstValid_serISO hv hy1 hy2]


lemma parseDate_serDMonY (native : Str → Option JsDate) {y m0 d : Nat}
    (hv : validDate y m0 d) (hy1 : 1990 ≤ y) (hy2 : y ≤ 2100) :
    parseDate native (serDMonY y m0 d) = some ⟨(y : Int), (m0 : Int), (d : Int)⟩ := by
  unfold parseDate
  rw [if_neg (by simp [serDMonY, pad2N])]
  dsimp only
  rw [cleanup_serDMonY hv.1 y d, firstValid_serDMonY hv hy1 hy2]


lemma parseDate_serMonDY (native : Str → Option JsDate) {y m0 d : Nat}
    (hv : validDate y m0 d) (hy1 : 1990 ≤ y) (hy2 : y ≤ 2100) :
    parseDate native (serMonDY y m0 d) = some ⟨(y : Int), (m0 : Int), (d : Int)⟩ := by
  unfold parseDate
  rw [if_neg (by simp [serMonDY, monthName3])]
  dsimp only
  rw [cleanup_serMonDY hv.1 y d, firstValid_serMonDY hv hy1 hy2]


lemma parseDate_serDMY4 (native : Str → Option JsDate) {y m0 d : Nat}
    (hv : validDate y m0 d) (hy1 : 1990 ≤ y) (hy2 : y ≤ 2100) :
    parseDate native (serDMY4 y m0 d) = some ⟨(y : Int), (m0 : Int), (d : Int)⟩ := by
  unfold parseDate
  rw [if_neg (by simp [serDMY4, pad2N])]
  dsimp only
  rw [cleanup_serDMY4 y m0 d, firstValid_serDMY4 hv hy1 hy2]


lemma parseDate_serDMY2 (native : Str → Option JsDate) {y m0 d : Nat}
    (hv : validDate y m0 d) (hy1 : 1990 ≤ y) (hy2 : y ≤ 2049) :
    parseDate native (serDMY2 y m0 d) = some ⟨(y : Int), (m0 : Int), (d : Int)⟩ := by
  unfold parseDate
  rw [if_neg (by simp [serDMY2, pad2N])]
  dsimp only
  rw [cleanup_serDMY2 y m0 d, firstValid_serDMY2 hv hy1 hy2]


lemma parseDate_serYMDdot (native : Str → Option JsDate) {y m0 d : Nat}
    (hv : validDate y m0 d) (hy1 : 1990 ≤ y) (hy2 : y ≤ 2100) :
    parseDate native (serYMDdot y m0 d) = some ⟨(y : Int), (m0 : Int), (d : Int)⟩ := by
  unfold parseDate
  rw [if_neg (by simp [serYMDdot, pad4N])]
  dsimp only
  rw [cleanup_serYMDdot y m0 d, firstValid_serYMDdot hv hy1 hy2]


lemma parseDate_serDMYdot4 (native : Str → Option JsDate) {y m0 d : Nat}
    (hv : validDate y m0 d) (hy1 : 1990 ≤ y) (hy2 : y ≤ 2100) :
    parseDate native (serDMYdot4 y m0 d) = some ⟨(y : Int), (m0 : Int), (d : Int)⟩ := by
  unfold parseDate
  rw [if_neg (by simp [serDMYdot4, pad2N])]
  dsimp only
  rw [cleanup_serDMYdot4 y m0 d, firstValid_serDMYdot4 hv hy1 hy2]


lemma parseDate_serDMYdot2 (native : Str → Option JsDate) {y m0 d : Nat}
    (hv : validDate y m0 d) (hy1 : 1990 ≤ y) (hy2 : y ≤ 2049) :
    parseDate native (serDMYdot2 y m0 d) = some ⟨(y : Int), (m0 : Int), (d : Int)⟩ := by
  unfold parseDate
  rw [if_neg (by simp [serDMYdot2, pad2N])]
  dsimp only
  rw [cleanup_serDMYdot2 y m0 d, firstValid_serDMYdot2 hv hy1 hy2]


lemma parseDate_serCompact (native : Str → Option JsDate) {y m0 d : Nat}
    (hv : validDate y m0 d) (hy1 : 1990 ≤ y) (hy2 : y ≤ 2100) :
    parseDate native (serCompact y m0 d) = some ⟨(y : Int), (m0 : Int), (d : Int)⟩ := by
  unfold parseDate
  rw [if_neg (by simp [serCompact, pad4N])]
  dsimp only
  rw [cleanup_serCompact y m0 d, firstValid_serCompact hv hy1 hy2]



/-! ### February 30 is always rejected: the calendar round-trip carries it
into March, every later pattern fails on the ISO string, and the native
fallback is only consulted with the full cleaned string. -/

lemma feb30_invalid (y : Nat) : validateYmd ⟨(30 : Int), (1 : Int), (y : Int)⟩ = none := by
  unfold validateYmd
  dsimp only
  rw [if_neg (by decide)]
  rw [if_neg (by decide)]
  by_cases hy : ((y : Int) < 1990 || (y : Int) > 2100) = true
  · rw [if_pos hy]
  · rw [if_neg hy]
    have h1 : (1 : Int).fdiv 12 = 0 := by decide
    have h2 : (1 : Int).emod 12 = 1 := by decide
    have hdim1 : daysInMonth (y : Int) 1 ≤ 29 := by
      unfold daysInMonth
      rw [if_pos rfl]
      split <;> omega
    have hdim2 : 28 ≤ daysInMonth (y : Int) 1 := by
      unfold daysInMonth
      rw [if_pos rfl]
      split <;> omega
    have hd2 : daysInMonth (y : Int) (1 + 1) = 31 := by
      unfold daysInMonth
      rw [if_neg (by norm_num)]
      rw [if_neg (by decide)]
    have hmk : jsMakeDate (y : Int) 1 30 =
        ⟨(y : Int), 1 + 1, 30 - daysInMonth (y : Int) 1⟩ := by
      unfold jsMakeDate
      dsimp only
      rw [h1, h2, add_zero]
      unfold carryDays
      rw [if_pos (by omega)]
      rw [if_neg (by decide)]
      unfold carryDays
      rw [if_neg (by rw [hd2]; omega)]
    rw [hmk]
    rw [if_neg (by simp)]

lemma firstValid_serISO_feb30 {y : Nat} (hy1 : 1990 ≤ y) (hy2 : y ≤ 2100) :
    firstValid (serISO y 1 30) datePatterns = none := by
  have htd : takeDigits (serISO y 1 30) =
      (pad4N y, '-' :: (pad2N (1 + 1) ++ '-' :: pad2N 30)) := by
    unfold serISO
    exact takeDigits_split _ (pad4N_digits y)
      (fun c r2 h => by injection h with h1 h2; rw [← h1]; decide)
  have hp1 : pat1 (serISO y 1 30) = some ⟨(30 : Int), (1 : Int), (y : Int)⟩ := by
    unfold pat1 serISO
    rw [grp3_success (pad4N_digits y) (pad2N_digits _) (pad2N_digits _) (by decide)
      (by decide) (by decide) (by decide)
      (by rw [pad4N_len]; omega) (by rw [pad2N_len]; omega) (by rw [pad2N_len]; omega)]
    dsimp only [Option.map]
    rw [digitsVal_pad4N (by omega), digitsVal_pad2N (by omega), digitsVal_pad2N (by omega)]
    simp only [Option.some_inj, Ymd.mk.injEq]
    refine ⟨by norm_num, by norm_num, by norm_num⟩
  have hp2 : pat2 (serISO y 1 30) = none :=
    pat2_fail_len (by rw [htd]; rw [pad4N_len]; omega)
  have hp3 : pat3 (serISO y 1 30) = none :=
    pat3_fail_nonletter rfl (dig_letter (Nat.mod_lt _ (by norm_num)))
  have hp4 : pat4 (serISO y 1 30) = none := by
    unfold pat4
    rw [grp3_fail_len1 (by rw [htd]; rw [pad4N_len]; omega)]
    rfl
  have hp5 : pat5 (serISO y 1 30) = none := by
    unfold pat5
    rw [grp3_fail_len1 (by rw [htd]; rw [pad4N_len]; omega)]
    rfl
  have hp6 : pat6 (serISO y 1 30) = none := by
    unfold pat6 serISO
    rw [grp3_fail_sep1 (pad4N_digits y) (by decide) (by decide)
      (by rw [pad4N_len]; omega)]
    rfl
  have hp7 : pat7 (serISO y 1 30) = none := by
    unfold pat7
    rw [grp3_fail_len1 (by rw [htd]; rw [pad4N_len]; omega)]
    rfl
  have hp8 : pat8 (serISO y 1 30) = none := by
    unfold pat8
    rw [grp3_fail_len1 (by rw [htd]; rw [pad4N_len]; omega)]
    rfl
  have hp9 : pat9 (serISO y 1 30) = none :=
    pat9_fail (by rw [htd]; rw [pad4N_len]; omega)
  unfold datePatterns
  rw [firstValid_cons_invalid hp1 (feb30_invalid y), firstValid_cons_none hp2,
    firstValid_cons_none hp3, firstValid_cons_none hp4, firstValid_cons_none hp5,
    firstValid_cons_none hp6, firstValid_cons_none hp7, firstValid_cons_none hp8,
    firstValid_cons_none hp9]
  rfl

lemma parseDate_serISO_feb30 {y : Nat} (hy1 : 1990 ≤ y) (hy2 : y ≤ 2100) :
    parseDate nativeNone (serISO y 1 30) = none := by
  unfold parseDate
  rw [if_neg (by simp [serISO, pad4N])]
  dsimp only
  rw [cleanup_serISO, firstValid_serISO_feb30 hy1 hy2]
  rfl



/-- C7: corrected.  For every valid calendar date the seven
non-two-digit-year serialisations round-trip through parseDate for any
behaviour of the native Date fallback when the year lies in [1990, 2100];
the two two-digit-year serialisations round-trip only for years in
[1990, 2049] (the code widens a two-digit year below 50 to 20xx and
otherwise to 19xx, so 2050-2100 fall outside the claimed window); and a
February 30 ISO string of any in-range year is rejected (with the native
constructor modelling an invalid date). -/
theorem C7_date_roundtrip :
    (∀ (native : Str → Option JsDate) (y m0 d : Nat), validDate y m0 d →
      1990 ≤ y → y ≤ 2100 →
        parseDate native (serISO y m0 d) = some ⟨(y : Int), (m0 : Int), (d : Int)⟩ ∧
        parseDate native (serDMonY y m0 d) = some ⟨(y : Int), (m0 : Int), (d : Int)⟩ ∧
        parseDate native (serMonDY y m0 d) = some ⟨(y : Int), (m0 : Int), (d : Int)⟩ ∧
        parseDate native (serDMY4 y m0 d) = some ⟨(y : Int), (m0 : Int), (d : Int)⟩ ∧
        parseDate native (serYMDdot y m0 d) = some ⟨(y : Int), (m0 : Int), (d : Int)⟩ ∧
        parseDate native (serDMYdot4 y m0 d) = some ⟨(y : Int), (m0 : Int), (d : Int)⟩ ∧
        parseDate native (serCompact y m0 d) = some ⟨(y : Int), (m0 : Int), (d : Int)⟩) ∧
    (∀ (native : Str → Option JsDate) (y m0 d : Nat), validDate y m0 d →
      1990 ≤ y → y ≤ 2049 →
        parseDate native (serDMY2 y m0 d) = some ⟨(y : Int), (m0 : Int), (d : Int)⟩ ∧
        parseDate native (serDMYdot2 y m0 d) = some ⟨(y : Int), (m0 : Int), (d : Int)⟩) ∧
    (∀ y : Nat, 1990 ≤ y → y ≤ 2100 → parseDate nativeNone (serISO y 1 30) = none) := by
  refine ⟨?_, ?_, ?_⟩
  · intro native y m0 d hv hy1 hy2
    exact ⟨parseDate_serISO native hv hy1 hy2, parseDate_serDMonY native hv hy1 hy2,
      parseDate_serMonDY native hv hy1 hy2, parseDate_serDMY4 native hv hy1 hy2,
      parseDate_serYMDdot native hv hy1 hy2, parseDate_serDMYdot4 native hv hy1 hy2,
      parseDate_serCompact native hv hy1 hy2⟩
  · intro native y m0 d hv hy1 hy2
    exact ⟨parseDate_serDMY2 native hv hy1 hy2, parseDate_serDMYdot2 native hv hy1 hy2⟩
  · intro y hy1 hy2
    exact parseDate_serISO_feb30 hy1 hy2

/-- C7 witness: 5 November 2021 (month 10, 0-based) round-trips through
the ISO serialisation, and 30 February 2021 is rejected. -/
theorem C7_witness :
    validDate 2021 10 5 ∧
    parseDate nativeNone (serISO 2021 10 5) = some ⟨2021, 10, 5⟩ ∧
    parseDate nativeNone (serISO 2021 1 30) = none :=
  ⟨⟨by norm_num, by norm_num, by decide⟩,
   (C7_date_roundtrip.1 nativeNone 2021 10 5 ⟨by norm_num, by norm_num, by decide⟩
     (by norm_num) (by norm_num)).1,
   C7_date_roundtrip.2.2 2021 (by norm_num) (by norm_num)⟩

/-- C7 counterexample to the claimed [1990, 2100] window: 15 January 2060
is a valid date with year in the claimed range, but its two-digit-year
serialisation `15/01/60` re-expands to 1960, fails the range check, and
parses to nothing (the native constructor is the invalid-date oracle). -/
theorem C7_counterexample :
    validDate 2060 0 15 ∧ 1990 ≤ 2060 ∧ 2060 ≤ 2100 ∧
    parseDate nativeNone (serDMY2 2060 0 15) = none :=
  ⟨⟨by norm_num, by norm_num, by decide⟩, by norm_num, by norm_num, by rfl⟩



/-! ### Concrete witnesses and counterexamples on the demo inputs. -/

lemma headD_mem_of_length {α : Type} {l : List α} {d : α} (h : 0 < l.length) :
    l.headD d ∈ l := by
  cases l with
  | nil => simp at h
  | cons a t => exact List.mem_cons_self a t

/-- C1 witness: the invariant holds of the concrete transaction the demo
credit row produces through the CSV parser. -/
theorem C1_witness : txnInvariant c1txn :=
  (C1_txn_invariant nativeNone idsDemoA idsDemoA idsDemoB 0 [] demoHeaders
    [demoRowCredit] [] []).1 c1res (by with_unfolding_all rfl) c1txn
    (headD_mem_of_length (by with_unfolding_all decide))

/-- C2 counterexample: the CSV path keeps both copies of a duplicated
row even though their dedup keys coincide, so parsing does not
deduplicate on every strategy. -/
theorem C2_counterexample :
    parseCSV nativeNone idsDemoA 0 [] demoHeaders [demoRowCredit, demoRowCredit] =
      Except.ok c2res ∧
    c2res.statement.transactions.length = 2 ∧
    keyOf (c2res.statement.transactions.headD (mkDemoTxn TxnType.income 1 1)) =
      keyOf ((c2res.statement.transactions.drop 1).headD (mkDemoTxn TxnType.income 1 1)) :=
  ⟨by with_unfolding_all rfl, by with_unfolding_all rfl, by with_unfolding_all rfl⟩

/-- C4 counterexample: two runs on the identical demo input whose uuid
draws differ produce different results (the generated ids differ), so
extraction is not deterministic as claimed. -/
theorem C4_counterexample :
    (c1res.statement.transactions.headD (mkDemoTxn TxnType.income 1 1)).id = "a0".data ∧
    (c4resB.statement.transactions.headD (mkDemoTxn TxnType.income 1 1)).id = "b0".data ∧
    c1res ≠ c4resB :=
  ⟨by with_unfolding_all rfl, by with_unfolding_all rfl,
   fun h => absurd (congrArg
       (fun r => (r.statement.transactions.headD (mkDemoTxn TxnType.income 1 1)).id) h)
     (by with_unfolding_all decide)⟩

/-- C6 counterexample: on `$ Euro Euro` the code's weights pick the euro
(the dollar sign is not in the scorer symbol class, so USD scores 1
against EUR's 2), while the claimed weighting would pick USD (3 against
2). -/
theorem C6_counterexample :
    detectCurrencyFromText "$ Euro Euro".data =
      some ⟨"EUR".data, "€".data, "Euro".data⟩ ∧
    claimedDetect "$ Euro Euro".data =
      some ⟨"USD".data, "$".data, "US Dollar".data⟩ :=
  ⟨by with_unfolding_all rfl, by with_unfolding_all rfl⟩

/-- C8: corrected.  On the PDF paths (column strategy, text strategy,
and the balance-validated pipeline) every transaction carries an
originalText of at most 200 characters; the CSV and spreadsheet paths
instead store the unbounded JSON serialisation of the source row. -/
theorem C8_pdf_bound (native : Str → Option JsDate) (ids1 ids2 : Nat → Str)
    (lines : List PdfLine) :
    (∀ t ∈ columnBasedParse native ids1 lines, t.originalText.length ≤ 200) ∧
    (∀ t ∈ textBasedParse native ids2 lines, t.originalText.length ≤ 200) ∧
    (∀ t ∈ pdfPipeline native ids1 ids2 lines, t.originalText.length ≤ 200) :=
  ⟨fun t ht => (columnBasedParse_ok t ht).2,
   fun t ht => (textBasedParse_ok t ht).2,
   fun t ht => (pdfPipeline_ok t ht).2⟩

/-- C8 witness: the bound holds of the first transaction the demo text
lines produce through the pdf pipeline. -/
theorem C8_witness : c8ptxn.originalText.length ≤ 200 :=
  (C8_pdf_bound nativeNone idsDemoA idsDemoB demoTextLines).2.2 c8ptxn
    (headD_mem_of_length (by with_unfolding_all decide))

/-- C8 counterexample: the CSV path stores the full JSON serialisation
of the row as originalText, so a 250-character description yields an
originalText 339 characters long. -/
theorem C8_counterexample :
    parseCSV nativeNone idsDemoA 0 [] demoHeaders [demoRowLong] = Except.ok c8res ∧
    c8txn ∈ c8res.statement.transactions ∧
    200 < c8txn.originalText.length :=
  ⟨by with_unfolding_all rfl,
   headD_mem_of_length (by with_unfolding_all decide),
   by with_unfolding_all decide⟩


end BSV
